import Mathlib

/-!
# ScanTailor Advanced: stage settings persistence, validity and page ordering

A shallow embedding of `filters/deskew/Filter.cpp` and
`filters/fix_orientation/Filter.cpp`.  Member functions that mutate the
settings object behind `m_ptrSettings` become functions from the old settings
value to the new one.  Classes whose source is not part of the development
(`Settings`, `Params`, `ProjectReader`, `ProjectWriter`, the XML marshallers)
enter either as records of operations the code calls, or as small models that
follow the specification text; the latter are marked in their doc comments.
-/

namespace ScanTailor

/-! ## Qt DOM trees -/

/-- A non-null `QDomNode`.  `element` is a `QDomElement` with its tag name,
attributes and child nodes in document order.  `other` is any node that is not
an element (text, comment, processing instruction, ...); it still answers
`nodeName()`.  A null node or null element is `none : Option QDomNode`. -/
inductive QDomNode where
  | element (tagName : String) (attributes : List (String × String)) (childNodes : List QDomNode)
  | other (name : String)

namespace QDomNode

/-- The member `QDomNode::isElement()`. -/
def isElement : QDomNode → Bool
  | element _ _ _ => true
  | other _ => false

/-- The member `QDomNode::nodeName()`: the tag name of an element, the node name otherwise. -/
def nodeName : QDomNode → String
  | element t _ _ => t
  | other n => n

/-- The child nodes in document order: the nodes visited by
`for (node = n.firstChild(); !node.isNull(); node = node.nextSibling())`. -/
def children : QDomNode → List QDomNode
  | element _ _ cs => cs
  | other _ => []

/-- The same walk started from a possibly null node: a null node has no first child. -/
def childrenOf : Option QDomNode → List QDomNode
  | some n => n.children
  | none => []

/-- The member `QDomNode::namedItem(name)`: the first direct child whose `nodeName()` equals
`name`, of whatever node kind; null when there is none. -/
def namedItem (n : QDomNode) (name : String) : Option QDomNode :=
  n.children.find? (fun c => c.nodeName == name)

/-- The member `QDomNode::toElement()`: the node itself when it is an element, a null element
otherwise (also for a null node). -/
def toElement : Option QDomNode → Option QDomNode
  | some n => if n.isElement then some n else none
  | none => none

/-- The member `QDomElement::attribute(name)`: the attribute value, or the empty string when
the attribute is absent. -/
def attributeValue : QDomNode → String → String
  | element _ attrs _, name => (attrs.lookup name).getD ""
  | other _, _ => ""

/-- The call `doc.createElement(tag)`: a fresh element without attributes or children. -/
def createElement (tag : String) : QDomNode := element tag [] []

/-- The member `QDomElement::setAttribute(name, value)`: replaces the value of an existing
attribute, adds the attribute otherwise. -/
def setAttribute : QDomNode → String → String → QDomNode
  | element t attrs cs, name, value =>
    if attrs.any (fun a => a.1 == name) then
      element t (attrs.map (fun a => if a.1 == name then (name, value) else a)) cs
    else
      element t (attrs ++ [(name, value)]) cs
  | other n, _, _ => other n

/-- The member `QDomNode::appendChild(child)` for a fresh child: the child becomes the last
child node. -/
def appendChild : QDomNode → QDomNode → QDomNode
  | element t attrs cs, child => element t attrs (cs ++ [child])
  | other n, _ => other n

end QDomNode

/-- The two `QString` conversions the persistence code relies on: `toInt` is
`QString::toInt(&ok)` (`none` when `ok` comes back false) and `number` is the text that
`QDomElement::setAttribute(name, int)` stores for an `int`. -/
structure QStringApi where
  toInt : String → Option Int
  number : Int → String

/-! ## Page and image identity -/

/-- Modelled from the spec: `ImageId` (declared in ImageId.h, which is not part of the
development) identifies a backing image by file path and page number inside a multi-page
file.  The null id is the one with an empty file path. -/
structure ImageId where
  filePath : String
  page : Int
  deriving DecidableEq, Repr

/-- Modelled from the spec: `ImageId::isNull()`. -/
def ImageId.isNull (i : ImageId) : Bool := i.filePath == ""

/-- Modelled from the spec: the sub-page selector of a `PageId`; an image may host
several pages (two-page scans). -/
inductive SubPage where
  | SINGLE_PAGE
  | LEFT_PAGE
  | RIGHT_PAGE
  deriving DecidableEq, Repr

/-- Modelled from the spec: `PageId` (declared in PageId.h, which is not part of the
development) identifies a logical page: its image and the sub-page on it. -/
structure PageId where
  imageId : ImageId
  subPage : SubPage
  deriving DecidableEq, Repr

/-- Modelled from the spec: `PageId::isNull()`, a page id is null when its image id is. -/
def PageId.isNull (p : PageId) : Bool := p.imageId.isNull

/-- The part of `PageInfo` the stages read: `PageInfo::id()`. -/
structure PageInfo where
  id : PageId
  deriving DecidableEq, Repr

/-- The lookups of `ProjectReader`: numeric id to `PageId` / `ImageId`, a null id for a
numeric id that cannot be resolved. -/
structure ProjectReader where
  pageId : Int → PageId
  imageId : Int → ImageId

/-- The enumerations of `ProjectWriter`: the pages and the images of the project, each
with its numeric id, in enumeration order. -/
structure ProjectWriter where
  pages : List (PageId × Int)
  images : List (ImageId × Int)

/-- The member `ProjectWriter::enumPages(out)`: calls `out(page_id, numeric_id)` for every
page in enumeration order; the state the callback mutates is threaded through. -/
def ProjectWriter.enumPages {α : Type} (w : ProjectWriter) (out : PageId → Int → α → α)
    (init : α) : α :=
  w.pages.foldl (fun acc e => out e.1 e.2 acc) init

/-- The member `ProjectWriter::enumImages(out)`: calls `out(image_id, numeric_id)` for every
image in enumeration order. -/
def ProjectWriter.enumImages {α : Type} (w : ProjectWriter) (out : ImageId → Int → α → α)
    (init : α) : α :=
  w.images.foldl (fun acc e => out e.1 e.2 acc) init

/-- The global `DefaultParamsProvider`: the defaults it hands out and the number of times
`getParams()` has been called on it. -/
structure DefaultParamsProvider (DP : Type) where
  params : DP
  consulted : Nat

/-- The call `DefaultParamsProvider::getInstance()->getParams()`. -/
def DefaultParamsProvider.getParams {DP : Type} (p : DefaultParamsProvider DP) :
    DP × DefaultParamsProvider DP :=
  (p.params, ⟨p.params, p.consulted + 1⟩)

/-- The part of `DefaultParams` read by the deskew stage: `getDeskewAngleDeg()` and
`getMode()` of `DefaultParams::DeskewParams`. -/
structure DeskewParams (A M : Type) where
  getDeskewAngleDeg : A
  getMode : M

/-- The part of `DefaultParams` read by the fix-orientation stage: `getImageRotation()` of
`DefaultParams::FixOrientationParams`. -/
structure FixOrientationParams (R : Type) where
  getImageRotation : R

/-- The defaults bundle `DefaultParams`, restricted to the two stages embedded here. -/
structure DefaultParams (A M R : Type) where
  getDeskewParams : DeskewParams A M
  getFixOrientationParams : FixOrientationParams R

/-! ## The deskew stage -/

namespace deskew

/-- The members of `deskew::Settings` that `deskew::Filter` calls, over any representation
`σ` of the settings object and any representation `P` of `deskew::Params`. -/
structure SettingsApi (σ P : Type) where
  clear : σ → σ
  setPageParams : σ → PageId → P → σ
  getPageParams : σ → PageId → Option P
  isParamsNull : σ → PageId → Bool

/-- The XML side of `deskew::Params`: the constructor from a `QDomElement` and
`toXml(doc, name)`. -/
structure ParamsXml (P : Type) where
  fromXml : QDomNode → P
  toXml : P → String → QDomNode

/-- The value side of `deskew::Params`: the constructor `Params(angle, deps, mode)` and the
default-constructed `Dependencies()`. -/
structure ParamsCtor (P A D M : Type) where
  make : A → D → M → P
  noDependencies : D

/-- Modelled from the spec: `deskew::Settings` (Settings.h/.cpp are not part of the
development) owns a mapping `PageId → Params` with at most one entry per page; absence
means no `Params`.  The entries are kept as an association list. -/
structure Settings (P : Type) where
  perPageParams : List (PageId × P)

/-- Modelled from the spec: `clear()` drops every entry. -/
def Settings.clear {P : Type} (_s : Settings P) : Settings P := ⟨[]⟩

/-- Modelled from the spec: `get(pageId) → optional Params`. -/
def Settings.getPageParams {P : Type} (s : Settings P) (page_id : PageId) : Option P :=
  s.perPageParams.lookup page_id

/-- Modelled from the spec: a page has no `Params` when the mapping has no entry for it. -/
def Settings.isParamsNull {P : Type} (s : Settings P) (page_id : PageId) : Bool :=
  (s.getPageParams page_id).isNone

/-- Modelled from the spec: `set(pageId, params)` makes `params` the single entry of the
page, replacing any entry the page had. -/
def Settings.setPageParams {P : Type} (s : Settings P) (page_id : PageId) (params : P) :
    Settings P :=
  ⟨(page_id, params) :: s.perPageParams.filter (fun e => e.1 ≠ page_id)⟩

/-- Modelled from the spec: the number of `Params` entries the store holds. -/
def Settings.size {P : Type} (s : Settings P) : Nat := s.perPageParams.length

/-- Modelled from the spec: the pages that have an entry. -/
def Settings.pages {P : Type} (s : Settings P) : List PageId := s.perPageParams.map Prod.fst

/-- The modelled store as an implementation of the `Settings` members. -/
def Settings.api (P : Type) : SettingsApi (Settings P) P :=
  ⟨Settings.clear, Settings.setPageParams, Settings.getPageParams, Settings.isParamsNull⟩

/-- The body of the `for` loop of `Filter::loadSettings`, run over the child nodes that are
still to be visited; every `continue` moves on to the next sibling with the settings
unchanged. -/
def loadSettingsLoop {σ P : Type} (S : SettingsApi σ P) (px : ParamsXml P)
    (qs : QStringApi) (reader : ProjectReader) : List QDomNode → σ → σ
  | [], st => st
  | node :: rest, st =>
    if !node.isElement then
      loadSettingsLoop S px qs reader rest st
    else if node.nodeName != "page" then
      loadSettingsLoop S px qs reader rest st
    else
      match qs.toInt (node.attributeValue "id") with
      | none => loadSettingsLoop S px qs reader rest st
      | some id =>
        let page_id := reader.pageId id
        if page_id.isNull then
          loadSettingsLoop S px qs reader rest st
        else
          match QDomNode.toElement (node.namedItem "params") with
          | none => loadSettingsLoop S px qs reader rest st
          | some params_el =>
            loadSettingsLoop S px qs reader rest
              (S.setPageParams st page_id (px.fromXml params_el))

/-- The function `Filter::loadSettings(reader, filters_el)`. -/
def loadSettings {σ P : Type} (S : SettingsApi σ P) (px : ParamsXml P)
    (qs : QStringApi) (reader : ProjectReader) (filters_el : QDomNode) (st : σ) : σ :=
  let st := S.clear st
  let filter_el := QDomNode.toElement (filters_el.namedItem "deskew")
  loadSettingsLoop S px qs reader (QDomNode.childrenOf filter_el) st

/-- The function `Filter::writePageSettings(doc, filter_el, page_id, numeric_id)`; the
element it appends to is returned. -/
def writePageSettings {σ P : Type} (S : SettingsApi σ P) (px : ParamsXml P)
    (qs : QStringApi) (st : σ) (filter_el : QDomNode) (page_id : PageId) (numeric_id : Int) :
    QDomNode :=
  match S.getPageParams st page_id with
  | none => filter_el
  | some params =>
    let page_el := QDomNode.createElement "page"
    let page_el := page_el.setAttribute "id" (qs.number numeric_id)
    let page_el := page_el.appendChild (px.toXml params "params")
    filter_el.appendChild page_el

/-- The function `Filter::saveSettings(writer, doc)`. -/
def saveSettings {σ P : Type} (S : SettingsApi σ P) (px : ParamsXml P)
    (qs : QStringApi) (st : σ) (writer : ProjectWriter) : QDomNode :=
  let filter_el := QDomNode.createElement "deskew"
  writer.enumPages
    (fun page_id numeric_id el => writePageSettings S px qs st el page_id numeric_id)
    filter_el

/-- The function `Filter::loadDefaultSettings(page_info)` on the pair of the settings and
the global defaults provider. -/
def loadDefaultSettings {σ P A D M R : Type} (S : SettingsApi σ P) (pc : ParamsCtor P A D M)
    (page_info : PageInfo) (w : σ × DefaultParamsProvider (DefaultParams A M R)) :
    σ × DefaultParamsProvider (DefaultParams A M R) :=
  if !S.isParamsNull w.1 page_info.id then
    w
  else
    let (defaultParams, provider) := w.2.getParams
    let deskewParams := defaultParams.getDeskewParams
    (S.setPageParams w.1 page_info.id
      (pc.make deskewParams.getDeskewAngleDeg pc.noDependencies deskewParams.getMode), provider)

/-- The entry a child node of the stage element contributes to a load, in the words of the
persistence contract: the node is an element named "page", its "id" attribute parses as an
integer, the id resolves to a non-null `PageId`, and it has a "params" child element (the
lookup being `namedItem("params").toElement()`).  The entry is that `PageId` with
`Params(params child)`; any other node contributes nothing. -/
def pageEntry {P : Type} (px : ParamsXml P) (qs : QStringApi) (reader : ProjectReader)
    (node : QDomNode) : Option (PageId × P) :=
  if node.isElement && node.nodeName == "page" then
    match qs.toInt (node.attributeValue "id"), QDomNode.toElement (node.namedItem "params") with
    | some id, some params_el =>
      if (reader.pageId id).isNull then none else some (reader.pageId id, px.fromXml params_el)
    | _, _ => none
  else
    none

/-- The child nodes of the "deskew" element of a filters element, in document order. -/
def stageNodes (filters_el : QDomNode) : List QDomNode :=
  QDomNode.childrenOf (QDomNode.toElement (filters_el.namedItem "deskew"))

/-- The page entries of the "deskew" element of a filters element, in document order. -/
def pageEntries {P : Type} (px : ParamsXml P) (qs : QStringApi) (reader : ProjectReader)
    (filters_el : QDomNode) : List (PageId × P) :=
  (stageNodes filters_el).filterMap (pageEntry px qs reader)

/-- A child node of the stage element is a well-formed page entry: an element named "page"
with an integer "id" attribute and a "params" child element. -/
def isWellFormedPage (qs : QStringApi) (node : QDomNode) : Bool :=
  node.isElement && node.nodeName == "page" &&
    (qs.toInt (node.attributeValue "id")).isSome &&
    (QDomNode.toElement (node.namedItem "params")).isSome

/-- The `PageId`s the reader returns for the ids of the well-formed page entries among
`nodes`, in document order; unresolvable ids show up as null `PageId`s. -/
def resolvedPageIds (qs : QStringApi) (reader : ProjectReader) (nodes : List QDomNode) :
    List PageId :=
  (nodes.filter (isWellFormedPage qs)).filterMap
    (fun node => (qs.toInt (node.attributeValue "id")).map reader.pageId)

end deskew

/-! ## The fix-orientation stage -/

namespace fix_orientation

/-- The members of `fix_orientation::Settings` that `fix_orientation::Filter` calls, over any
representation `σ` of the settings object and any representation `R` of
`OrthogonalRotation`. -/
structure SettingsApi (σ R : Type) where
  clear : σ → σ
  applyRotation : σ → ImageId → R → σ
  getRotationFor : σ → ImageId → R
  isRotationNull : σ → ImageId → Bool

/-- The members of `OrthogonalRotation`, `XmlUnmarshaller` and `XmlMarshaller` that
`fix_orientation::Filter` calls: `toDegrees()`, `XmlUnmarshaller::rotation(el)` (its argument
may be a null element) and `XmlMarshaller::rotation(rotation, name)`. -/
structure RotationApi (R : Type) where
  toDegrees : R → Int
  unmarshal : Option QDomNode → R
  marshal : R → String → QDomNode

/-- Modelled from the spec: `fix_orientation::Settings` (Settings.h/.cpp are not part of the
development) owns a mapping `ImageId → rotation` with at most one entry per image; an image
without an entry has the default rotation. -/
structure Settings (R : Type) where
  perImageRotation : List (ImageId × R)

/-- Modelled from the spec: `clear()` drops every entry. -/
def Settings.clear {R : Type} (_s : Settings R) : Settings R := ⟨[]⟩

/-- Modelled from the spec: an image has no rotation when the mapping has no entry for it. -/
def Settings.isRotationNull {R : Type} (s : Settings R) (image_id : ImageId) : Bool :=
  (s.perImageRotation.lookup image_id).isNone

/-- Modelled from the spec: the stored rotation, the default rotation `dflt` when absent. -/
def Settings.getRotationFor {R : Type} (dflt : R) (s : Settings R) (image_id : ImageId) : R :=
  (s.perImageRotation.lookup image_id).getD dflt

/-- Modelled from the spec: `set(imageId, rotation)` makes `rotation` the single entry of the
image. -/
def Settings.applyRotation {R : Type} (s : Settings R) (image_id : ImageId) (rotation : R) :
    Settings R :=
  ⟨(image_id, rotation) :: s.perImageRotation.filter (fun e => e.1 ≠ image_id)⟩

/-- The modelled store as an implementation of the `Settings` members. -/
def Settings.api {R : Type} (dflt : R) : SettingsApi (Settings R) R :=
  ⟨Settings.clear, Settings.applyRotation, Settings.getRotationFor dflt, Settings.isRotationNull⟩

/-- The body of the `for` loop of `Filter::loadSettings`, run over the child nodes that are
still to be visited. -/
def loadSettingsLoop {σ R : Type} (S : SettingsApi σ R) (rx : RotationApi R)
    (qs : QStringApi) (reader : ProjectReader) : List QDomNode → σ → σ
  | [], st => st
  | node :: rest, st =>
    if !node.isElement then
      loadSettingsLoop S rx qs reader rest st
    else if node.nodeName != "image" then
      loadSettingsLoop S rx qs reader rest st
    else
      match qs.toInt (node.attributeValue "id") with
      | none => loadSettingsLoop S rx qs reader rest st
      | some id =>
        let image_id := reader.imageId id
        if image_id.isNull then
          loadSettingsLoop S rx qs reader rest st
        else
          let rotation := rx.unmarshal (QDomNode.toElement (node.namedItem "rotation"))
          loadSettingsLoop S rx qs reader rest (S.applyRotation st image_id rotation)

/-- The function `Filter::loadSettings(reader, filters_el)`. -/
def loadSettings {σ R : Type} (S : SettingsApi σ R) (rx : RotationApi R)
    (qs : QStringApi) (reader : ProjectReader) (filters_el : QDomNode) (st : σ) : σ :=
  let st := S.clear st
  let filter_el := QDomNode.toElement (filters_el.namedItem "fix-orientation")
  loadSettingsLoop S rx qs reader (QDomNode.childrenOf filter_el) st

/-- The function `Filter::writeImageSettings(doc, filter_el, image_id, numeric_id)`; the
element it appends to is returned. -/
def writeImageSettings {σ R : Type} (S : SettingsApi σ R) (rx : RotationApi R)
    (qs : QStringApi) (st : σ) (filter_el : QDomNode) (image_id : ImageId) (numeric_id : Int) :
    QDomNode :=
  let rotation := S.getRotationFor st image_id
  if rx.toDegrees rotation == 0 then
    filter_el
  else
    let image_el := QDomNode.createElement "image"
    let image_el := image_el.setAttribute "id" (qs.number numeric_id)
    let image_el := image_el.appendChild (rx.marshal rotation "rotation")
    filter_el.appendChild image_el

/-- The function `Filter::saveSettings(writer, doc)`. -/
def saveSettings {σ R : Type} (S : SettingsApi σ R) (rx : RotationApi R)
    (qs : QStringApi) (st : σ) (writer : ProjectWriter) : QDomNode :=
  let filter_el := QDomNode.createElement "fix-orientation"
  writer.enumImages
    (fun image_id numeric_id el => writeImageSettings S rx qs st el image_id numeric_id)
    filter_el

/-- The function `Filter::loadDefaultSettings(page_info)` on the pair of the settings and
the global defaults provider. -/
def loadDefaultSettings {σ A M R : Type} (S : SettingsApi σ R) (page_info : PageInfo)
    (w : σ × DefaultParamsProvider (DefaultParams A M R)) :
    σ × DefaultParamsProvider (DefaultParams A M R) :=
  if !S.isRotationNull w.1 page_info.id.imageId then
    w
  else
    let (defaultParams, provider) := w.2.getParams
    let fixOrientationParams := defaultParams.getFixOrientationParams
    (S.applyRotation w.1 page_info.id.imageId fixOrientationParams.getImageRotation, provider)

/-- The entry a child node of the stage element contributes to a load, in the words of the
persistence contract: the node is an element named "image", its "id" attribute parses as an
integer and the id resolves to a non-null `ImageId`.  The entry is that `ImageId` with the
unmarshalled "rotation" child; any other node contributes nothing. -/
def imageEntry {R : Type} (rx : RotationApi R) (qs : QStringApi) (reader : ProjectReader)
    (node : QDomNode) : Option (ImageId × R) :=
  if node.isElement && node.nodeName == "image" then
    match qs.toInt (node.attributeValue "id") with
    | some id =>
      if (reader.imageId id).isNull then none
      else some (reader.imageId id, rx.unmarshal (QDomNode.toElement (node.namedItem "rotation")))
    | none => none
  else
    none

/-- A log of the calls made on a settings object: the settings representation that records
every `applyRotation(image_id, rotation)` in call order and forgets them on `clear()`; it
answers queries from the last recorded call for the image. -/
def callLog {R : Type} (dflt : R) : SettingsApi (List (ImageId × R)) R :=
  ⟨fun _ => [], fun log image_id rotation => log ++ [(image_id, rotation)],
    fun log image_id => (log.reverse.lookup image_id).getD dflt,
    fun log image_id => (log.reverse.lookup image_id).isNone⟩

end fix_orientation

/-! ## Stage objects and the validity chain -/

/-- Modelled from the spec: `Dependencies` is a value made of constituent fields, here `n`
fields with values in `F`; two values are equal iff every constituent field compares equal
(the class itself, Dependencies.h/.cpp, is not part of the development). -/
structure Dependencies (n : Nat) (F : Type) where
  field : Fin n → F

/-- Modelled from the spec: the equality test of `Dependencies`, field by field, with no
partial or fuzzy comparison. -/
def Dependencies.equals {n : Nat} {F : Type} [DecidableEq F] (a b : Dependencies n F) : Bool :=
  decide (∀ i : Fin n, a.field i = b.field i)

/-- Modelled from the spec: the value that differs from `d` in the single field `i`, which
becomes `v`. -/
def Dependencies.setField {n : Nat} {F : Type} (d : Dependencies n F) (i : Fin n) (v : F) :
    Dependencies n F :=
  ⟨fun j => if j = i then v else d.field j⟩

/-- Modelled from the spec: the verdict of a validity unit. -/
inductive Validity where
  | Valid
  | Invalid
  | Missing
  deriving DecidableEq, Repr

/-- Modelled from the spec: the contract `checkValidity(pageId)` of a validity unit, whose
body (`CacheDrivenTask::process`) is not part of the development.  The `Params` of the page
are looked up in the settings the unit holds; `Missing` if there are none, otherwise the
stored `Dependencies` snapshot is compared with the recomputed value: `Valid` on exact match,
`Invalid` on mismatch. -/
def checkValidity {σ P F : Type} {n : Nat} [DecidableEq F] (lookup : σ → PageId → Option P)
    (dependencies : P → Dependencies n F) (settings : σ) (page_id : PageId)
    (recomputed : Dependencies n F) : Validity :=
  match lookup settings page_id with
  | none => Validity.Missing
  | some params =>
    if (dependencies params).equals recomputed then Validity.Valid else Validity.Invalid

namespace deskew

/-- The data members of `deskew::Filter`, as its constructor initialises them: the settings,
the options widget (absent outside GUI mode), the page order options and the selected one. -/
structure Filter (σ W O : Type) where
  m_ptrSettings : σ
  m_ptrOptionsWidget : Option W
  m_pageOrderOptions : List O
  m_selectedPageOrder : Int

/-- The unit `deskew::CacheDrivenTask` as `Filter::createCacheDrivenTask` constructs it:
from the settings and the next unit. -/
structure CacheDrivenTask (σ N : Type) where
  m_ptrSettings : σ
  m_ptrNextTask : N

/-- The function `Filter::createCacheDrivenTask(next_task)`. -/
def Filter.createCacheDrivenTask {σ W O N : Type} (f : Filter σ W O) (next_task : N) :
    CacheDrivenTask σ N :=
  ⟨f.m_ptrSettings, next_task⟩

/-- Modelled from the spec: the validity check of the deskew unit, `checkValidity` on the
`Params` of the page in the settings the unit holds. -/
def CacheDrivenTask.checkValidity {σ P F N : Type} {n : Nat} [DecidableEq F]
    (S : SettingsApi σ P) (dependencies : P → Dependencies n F) (t : CacheDrivenTask σ N)
    (page_id : PageId) (recomputed : Dependencies n F) : Validity :=
  ScanTailor.checkValidity S.getPageParams dependencies t.m_ptrSettings page_id recomputed

end deskew

namespace fix_orientation

/-- The data members of `fix_orientation::Filter`, as its constructor initialises them: the
settings and the options widget (absent outside GUI mode). -/
structure Filter (σ W : Type) where
  m_ptrSettings : σ
  m_ptrOptionsWidget : Option W

/-- The unit `fix_orientation::CacheDrivenTask` as `Filter::createCacheDrivenTask`
constructs it: from the settings and the next unit. -/
structure CacheDrivenTask (σ N : Type) where
  m_ptrSettings : σ
  m_ptrNextTask : N

/-- The function `Filter::createCacheDrivenTask(next_task)`. -/
def Filter.createCacheDrivenTask {σ W N : Type} (f : Filter σ W) (next_task : N) :
    CacheDrivenTask σ N :=
  ⟨f.m_ptrSettings, next_task⟩

/-- The stored entry of the image of a page, if any: the stage is image-scoped, its `Params`
for a page are the rotation entry of the image of the page. -/
def storedRotation {σ R : Type} (S : SettingsApi σ R) (st : σ) (page_id : PageId) : Option R :=
  if S.isRotationNull st page_id.imageId then none else some (S.getRotationFor st page_id.imageId)

/-- Modelled from the spec: the validity check of the fix-orientation unit, `checkValidity`
on the stored entry of the page in the settings the unit holds. -/
def CacheDrivenTask.checkValidity {σ R F N : Type} {n : Nat} [DecidableEq F]
    (S : SettingsApi σ R) (dependencies : R → Dependencies n F) (t : CacheDrivenTask σ N)
    (page_id : PageId) (recomputed : Dependencies n F) : Validity :=
  ScanTailor.checkValidity (storedRotation S) dependencies t.m_ptrSettings page_id recomputed

end fix_orientation

/-! ## Page order by a stored metric -/

/-- Modelled from the spec: the metric a metric-based order strategy uses for a page.  The
metric is looked up per page; when `incompleteHasNoMetric` is set, an incomplete page (one
lacking validated output) counts as having no metric. -/
def effectiveMetric {M : Type} (metric : PageId → Option M) (incompleteHasNoMetric : Bool)
    (page : PageId) (incomplete : Bool) : Option M :=
  if incompleteHasNoMetric && incomplete then none else metric page

/-- Modelled from the spec: the comparison of two pages by metric and document position.
Descending by metric; a page without a metric has lowest priority; pages whose metric is
equal or absent fall back to natural order (the earlier document position first). -/
def metricKeyPrecedes {M : Type} [LinearOrder M] (lhs_metric : Option M) (lhs_position : Nat)
    (rhs_metric : Option M) (rhs_position : Nat) : Bool :=
  match lhs_metric, rhs_metric with
  | some l, some r =>
    if r < l then true
    else if l < r then false
    else decide (lhs_position < rhs_position)
  | some _, none => true
  | none, some _ => false
  | none, none => decide (lhs_position < rhs_position)

/-- Modelled from the spec: `precedes` of a metric-based order strategy (the bodies of
`OrderByHeightProvider::precedes` and `OrderByDeviationProvider::precedes` are not part of
the development): the comparison by the metric looked up for each page, with natural order
given by the position `naturalOrder` of a page in the document. -/
def metricPrecedes {M : Type} [LinearOrder M] (metric : PageId → Option M)
    (naturalOrder : PageId → Nat) (incompleteHasNoMetric : Bool)
    (lhs_page : PageId) (lhs_incomplete : Bool) (rhs_page : PageId) (rhs_incomplete : Bool) :
    Bool :=
  metricKeyPrecedes
    (effectiveMetric metric incompleteHasNoMetric lhs_page lhs_incomplete)
    (naturalOrder lhs_page)
    (effectiveMetric metric incompleteHasNoMetric rhs_page rhs_incomplete)
    (naturalOrder rhs_page)

/-- The properties of a strict weak ordering, for a comparator `precedes` on
(page, incomplete) pairs: irreflexive, asymmetric, transitive, and with transitive
incomparability. -/
def IsStrictWeakOrdering (precedes : PageId → Bool → PageId → Bool → Bool) : Prop :=
  (∀ a ia, precedes a ia a ia = false) ∧
  (∀ a ia b ib, precedes a ia b ib = true → precedes b ib a ia = false) ∧
  (∀ a ia b ib c ic, precedes a ia b ib = true → precedes b ib c ic = true →
    precedes a ia c ic = true) ∧
  (∀ a ia b ib c ic, precedes a ia b ib = false → precedes b ib a ia = false →
    precedes b ib c ic = false → precedes c ic b ib = false →
    precedes a ia c ic = false ∧ precedes c ic a ia = false)

namespace page_layout

/-- The class `page_layout::OrderByHeightProvider` as declared in OrderByHeightProvider.h:
it holds the settings of the page layout stage. -/
structure OrderByHeightProvider (σ : Type) where
  m_ptrSettings : σ

/-- Modelled from the spec: `OrderByHeightProvider::precedes`, the metric-based order on the
height looked up in the settings the provider holds. -/
def OrderByHeightProvider.precedes {σ M : Type} [LinearOrder M]
    (height : σ → PageId → Option M) (naturalOrder : PageId → Nat)
    (incompleteHasNoMetric : Bool) (p : OrderByHeightProvider σ)
    (lhs_page : PageId) (lhs_incomplete : Bool) (rhs_page : PageId) (rhs_incomplete : Bool) :
    Bool :=
  metricPrecedes (height p.m_ptrSettings) naturalOrder incompleteHasNoMetric
    lhs_page lhs_incomplete rhs_page rhs_incomplete

end page_layout

namespace deskew

/-- The class `OrderByDeviationProvider` as the constructor of `deskew::Filter` builds it:
from the deviation provider of the settings. -/
structure OrderByDeviationProvider (δ : Type) where
  m_deviationProvider : δ

/-- Modelled from the spec: `OrderByDeviationProvider::precedes`, the metric-based order on
the deviation looked up in the deviation provider. -/
def OrderByDeviationProvider.precedes {δ M : Type} [LinearOrder M]
    (deviation : δ → PageId → Option M) (naturalOrder : PageId → Nat)
    (incompleteHasNoMetric : Bool) (p : OrderByDeviationProvider δ)
    (lhs_page : PageId) (lhs_incomplete : Bool) (rhs_page : PageId) (rhs_incomplete : Bool) :
    Bool :=
  metricPrecedes (deviation p.m_deviationProvider) naturalOrder incompleteHasNoMetric
    lhs_page lhs_incomplete rhs_page rhs_incomplete

end deskew

/-! ## Stage objects behind shared pointers -/

/-- The address of a settings object: the value of an `intrusive_ptr<Settings>`. -/
abbrev SettingsRef := Nat

/-- The settings objects that exist, by address. -/
abbrev SettingsHeap (σ : Type) := SettingsRef → σ

/-- A member function that mutates the object behind a settings pointer: the object at
`ref` is replaced by `op` of it, every other object is left alone. -/
def SettingsHeap.mutate {σ : Type} (heap : SettingsHeap σ) (ref : SettingsRef) (op : σ → σ) :
    SettingsHeap σ :=
  fun r => if r = ref then op (heap r) else heap r

/-- The enum `FilterUiInterface::Ownership`. -/
inductive Ownership where
  | KEEP_OWNERSHIP
  | TRANSFER_OWNERSHIP
  deriving DecidableEq, Repr

/-- The host side of `FilterUiInterface`: the calls `setOptionsWidget(widget, ownership)`
it has received, oldest first. -/
abbrev FilterUiInterface (W : Type) := List (W × Ownership)

/-- The member `FilterUiInterface::setOptionsWidget(widget, ownership)`. -/
def FilterUiInterface.setOptionsWidget {W : Type} (ui : FilterUiInterface W) (widget : W)
    (ownership : Ownership) : FilterUiInterface W :=
  ui ++ [(widget, ownership)]

/-- The class `PageOrderOption`: a display name and a provider pointer, null for natural
order. -/
structure PageOrderOption (Pr : Type) where
  name : String
  provider : Option Pr

namespace deskew

/-- The unit `deskew::Task` as `Filter::createTask` constructs it: from the filter, the
settings, the next unit, the page and the two flags. -/
structure Task (Φ σ N : Type) where
  m_ptrFilter : Φ
  m_ptrSettings : σ
  m_ptrNextTask : N
  m_pageId : PageId
  m_batchProcessing : Bool
  m_debug : Bool

/-- The constructor `Filter::Filter(page_selection_accessor)`.  `isGui` is
`CommandLine::get().isGui()`, `newSettings` the freshly allocated `Settings`,
`newOptionsWidget` the constructor of `OptionsWidget`, `deviationProvider` the member
`Settings::deviationProvider()` and `tr` the translation of a source text. -/
def Filter.construct {σ W δ A : Type} (isGui : Bool) (tr : String → String) (newSettings : σ)
    (newOptionsWidget : σ → A → W) (deviationProvider : σ → δ) (page_selection_accessor : A) :
    Filter σ W (PageOrderOption (OrderByDeviationProvider δ)) :=
  let m_ptrSettings := newSettings
  let m_ptrOptionsWidget :=
    if isGui then some (newOptionsWidget m_ptrSettings page_selection_accessor) else none
  let default_order : Option (OrderByDeviationProvider δ) := none
  let order_by_deviation : Option (OrderByDeviationProvider δ) :=
    some ⟨deviationProvider m_ptrSettings⟩
  ⟨m_ptrSettings, m_ptrOptionsWidget,
    [⟨tr "Natural order", default_order⟩,
      ⟨tr "Order by decreasing deviation", order_by_deviation⟩],
    0⟩

/-- The function `Filter::pageOrderOptions()`. -/
def Filter.pageOrderOptions {σ W O : Type} (f : Filter σ W O) : List O := f.m_pageOrderOptions

/-- The function `Filter::selectedPageOrder()`. -/
def Filter.selectedPageOrder {σ W O : Type} (f : Filter σ W O) : Int := f.m_selectedPageOrder

/-- The function `Filter::optionsWidget()`: the widget pointer, null outside GUI mode. -/
def Filter.optionsWidget {σ W O : Type} (f : Filter σ W O) : Option W := f.m_ptrOptionsWidget

/-- The function `Filter::createTask(page_id, next_task, batch_processing, debug)`; `self`
is the pointer to the filter itself. -/
def Filter.createTask {Φ σ W O N : Type} (f : Filter σ W O) (self : Φ) (page_id : PageId)
    (next_task : N) (batch_processing : Bool) (debug : Bool) : Task Φ σ N :=
  ⟨self, f.m_ptrSettings, next_task, page_id, batch_processing, debug⟩

/-- The function `Filter::preUpdateUI(ui, page_info)`.  `widgetPreUpdateUI` is
`OptionsWidget::preUpdateUI(page_id)`.  The widget pointer is dereferenced without a test;
dereferencing a null pointer has no defined result, which is `none`. -/
def Filter.preUpdateUI {σ W O : Type} (widgetPreUpdateUI : W → PageId → W)
    (f : Filter σ W O) (ui : FilterUiInterface W) (page_info : PageInfo) :
    Option (Filter σ W O × FilterUiInterface W) :=
  match f.m_ptrOptionsWidget with
  | none => none
  | some widget =>
    let widget := widgetPreUpdateUI widget page_info.id
    some (⟨f.m_ptrSettings, some widget, f.m_pageOrderOptions, f.m_selectedPageOrder⟩,
      ui.setOptionsWidget widget Ownership.KEEP_OWNERSHIP)

/-- The function `Filter::loadSettings(reader, filters_el)` on a filter whose settings
pointer is an address: the object behind `m_ptrSettings` is mutated, the filter itself is
not. -/
def Filter.loadSettings {σ P W O : Type} (S : SettingsApi σ P) (px : ParamsXml P)
    (qs : QStringApi) (f : Filter SettingsRef W O) (reader : ProjectReader)
    (filters_el : QDomNode) (heap : SettingsHeap σ) : Filter SettingsRef W O × SettingsHeap σ :=
  (f, heap.mutate f.m_ptrSettings (deskew.loadSettings S px qs reader filters_el))

/-- The function `Filter::loadDefaultSettings(page_info)` on a filter whose settings
pointer is an address. -/
def Filter.loadDefaultSettings {σ P A D M R W O : Type} (S : SettingsApi σ P)
    (pc : ParamsCtor P A D M) (f : Filter SettingsRef W O) (page_info : PageInfo)
    (w : SettingsHeap σ × DefaultParamsProvider (DefaultParams A M R)) :
    Filter SettingsRef W O × SettingsHeap σ × DefaultParamsProvider (DefaultParams A M R) :=
  let r := deskew.loadDefaultSettings S pc page_info (w.1 f.m_ptrSettings, w.2)
  (f, w.1.mutate f.m_ptrSettings (fun _ => r.1), r.2)

end deskew

namespace fix_orientation

/-- The unit `fix_orientation::Task` as declared in Task.h, built by its constructor
`Task(image_id, filter, settings, next_task, batch_processing)`. -/
structure Task (Φ σ N : Type) where
  m_ptrFilter : Φ
  m_ptrNextTask : N
  m_ptrSettings : σ
  m_imageId : ImageId
  m_batchProcessing : Bool

/-- The function `Filter::createTask(page_id, next_task, batch_processing)`; `self` is the
pointer to the filter itself. -/
def Filter.createTask {Φ σ W N : Type} (f : Filter σ W) (self : Φ) (page_id : PageId)
    (next_task : N) (batch_processing : Bool) : Task Φ σ N :=
  ⟨self, next_task, f.m_ptrSettings, page_id.imageId, batch_processing⟩

/-- The constructor `Filter::Filter(page_selection_accessor)`. -/
def Filter.construct {σ W A : Type} (isGui : Bool) (newSettings : σ)
    (newOptionsWidget : σ → A → W) (page_selection_accessor : A) : Filter σ W :=
  let m_ptrSettings := newSettings
  ⟨m_ptrSettings,
    if isGui then some (newOptionsWidget m_ptrSettings page_selection_accessor) else none⟩

/-- The function `Filter::preUpdateUI(ui, page_info)` with the settings object `st` behind
`m_ptrSettings`.  `widgetPreUpdateUI` is `OptionsWidget::preUpdateUI(page_id, rotation)`.
The result is always defined (`some`): the widget is used only when it exists. -/
def Filter.preUpdateUI {σ τ R W : Type} (S : SettingsApi σ R)
    (widgetPreUpdateUI : W → PageId → R → W) (f : Filter τ W) (st : σ)
    (ui : FilterUiInterface W) (page_info : PageInfo) :
    Option (Filter τ W × FilterUiInterface W) :=
  match f.m_ptrOptionsWidget with
  | some widget =>
    let rotation := S.getRotationFor st page_info.id.imageId
    let widget := widgetPreUpdateUI widget page_info.id rotation
    some (⟨f.m_ptrSettings, some widget⟩, ui.setOptionsWidget widget Ownership.KEEP_OWNERSHIP)
  | none => some (f, ui)

/-- The function `Filter::loadSettings(reader, filters_el)` on a filter whose settings
pointer is an address. -/
def Filter.loadSettings {σ R W : Type} (S : SettingsApi σ R) (rx : RotationApi R)
    (qs : QStringApi) (f : Filter SettingsRef W) (reader : ProjectReader)
    (filters_el : QDomNode) (heap : SettingsHeap σ) : Filter SettingsRef W × SettingsHeap σ :=
  (f, heap.mutate f.m_ptrSettings (fix_orientation.loadSettings S rx qs reader filters_el))

/-- The function `Filter::loadDefaultSettings(page_info)` on a filter whose settings
pointer is an address. -/
def Filter.loadDefaultSettings {σ A M R W : Type} (S : SettingsApi σ R)
    (f : Filter SettingsRef W) (page_info : PageInfo)
    (w : SettingsHeap σ × DefaultParamsProvider (DefaultParams A M R)) :
    Filter SettingsRef W × SettingsHeap σ × DefaultParamsProvider (DefaultParams A M R) :=
  let r := fix_orientation.loadDefaultSettings S page_info (w.1 f.m_ptrSettings, w.2)
  (f, w.1.mutate f.m_ptrSettings (fun _ => r.1), r.2)

end fix_orientation

/-! ## The application object -/

namespace Application

/-- An exception in flight: `std::bad_alloc` (or a class derived from it), or anything
else. -/
inductive Thrown where
  | bad_alloc
  | other (what : String)
  deriving DecidableEq, Repr

/-- The singleton `OutOfMemoryHandler`: the number of times
`handleOutOfMemorySituation()` has been invoked on it. -/
structure OutOfMemoryHandler where
  handled : Nat
  deriving DecidableEq, Repr

/-- The call `OutOfMemoryHandler::instance().handleOutOfMemorySituation()`, which returns
normally. -/
def OutOfMemoryHandler.handleOutOfMemorySituation (h : OutOfMemoryHandler) :
    OutOfMemoryHandler :=
  ⟨h.handled + 1⟩

/-- The function `Application::notify(receiver, e)`.  `baseNotify` is the base dispatch
`QApplication::notify`, which returns a `bool` or throws.  The result is what `notify`
returns or lets escape, with the state of the out-of-memory handler. -/
def notify {Rc Ev : Type} (baseNotify : Rc → Ev → Except Thrown Bool) (receiver : Rc) (e : Ev)
    (oom : OutOfMemoryHandler) : Except Thrown Bool × OutOfMemoryHandler :=
  match baseNotify receiver e with
  | Except.ok result => (Except.ok result, oom)
  | Except.error Thrown.bad_alloc => (Except.ok false, oom.handleOutOfMemorySituation)
  | Except.error (Thrown.other what) => (Except.error (Thrown.other what), oom)

end Application

/-! ## The content selection view

Geometry of `filters/select_content/ImageView.cpp`.  Coordinates (`qreal`) are exact
rationals, and the transform between virtual and widget coordinates is a scaling plus a
translation. -/

namespace select_content

/-- The class `QPointF`. -/
structure QPointF where
  x : ℚ
  y : ℚ
  deriving DecidableEq, Repr

/-- The class `QSizeF`. -/
structure QSizeF where
  width : ℚ
  height : ℚ
  deriving DecidableEq, Repr

/-- The class `QLineF`: its two end points. -/
structure QLineF where
  p1 : QPointF
  p2 : QPointF
  deriving DecidableEq, Repr

/-- The class `QRectF`, stored as Qt stores it: the top-left corner, the width and the
height.  The default-constructed rectangle is `⟨0, 0, 0, 0⟩`. -/
structure QRectF where
  xp : ℚ
  yp : ℚ
  w : ℚ
  h : ℚ
  deriving DecidableEq, Repr

namespace QRectF

/-- The member `QRectF::left()`. -/
def left (r : QRectF) : ℚ := r.xp

/-- The member `QRectF::top()`. -/
def top (r : QRectF) : ℚ := r.yp

/-- The member `QRectF::right()`. -/
def right (r : QRectF) : ℚ := r.xp + r.w

/-- The member `QRectF::bottom()`. -/
def bottom (r : QRectF) : ℚ := r.yp + r.h

/-- The member `QRectF::width()`. -/
def width (r : QRectF) : ℚ := r.w

/-- The member `QRectF::height()`. -/
def height (r : QRectF) : ℚ := r.h

/-- The member `QRectF::size()`. -/
def size (r : QRectF) : QSizeF := ⟨r.w, r.h⟩

/-- The member `QRectF::isNull()`: width and height are both 0. -/
def isNull (r : QRectF) : Bool := r.w == 0 && r.h == 0

/-- The member `QRectF::isEmpty()`: width or height is not positive. -/
def isEmpty (r : QRectF) : Bool := decide (r.w ≤ 0) || decide (r.h ≤ 0)

/-- The member `QRectF::center()`. -/
def center (r : QRectF) : QPointF := ⟨r.xp + r.w / 2, r.yp + r.h / 2⟩

/-- The member `QRectF::moveCenter(p)`: the size is kept. -/
def moveCenter (r : QRectF) (p : QPointF) : QRectF := ⟨p.x - r.w / 2, p.y - r.h / 2, r.w, r.h⟩

/-- The member `QRectF::setLeft(pos)`: the right edge stays. -/
def setLeft (r : QRectF) (pos : ℚ) : QRectF := ⟨pos, r.yp, r.w - (pos - r.xp), r.h⟩

/-- The member `QRectF::setRight(pos)`: the left edge stays. -/
def setRight (r : QRectF) (pos : ℚ) : QRectF := ⟨r.xp, r.yp, pos - r.xp, r.h⟩

/-- The member `QRectF::setTop(pos)`: the bottom edge stays. -/
def setTop (r : QRectF) (pos : ℚ) : QRectF := ⟨r.xp, pos, r.w, r.h - (pos - r.yp)⟩

/-- The member `QRectF::setBottom(pos)`: the top edge stays. -/
def setBottom (r : QRectF) (pos : ℚ) : QRectF := ⟨r.xp, r.yp, r.w, pos - r.yp⟩

/-- The member `QRectF::translate(dx, dy)`. -/
def translate (r : QRectF) (dx dy : ℚ) : QRectF := ⟨r.xp + dx, r.yp + dy, r.w, r.h⟩

/-- The leftmost coordinate of the rectangle, also when its width is negative. -/
def minX (r : QRectF) : ℚ := if r.w < 0 then r.xp + r.w else r.xp

/-- The rightmost coordinate of the rectangle, also when its width is negative. -/
def maxX (r : QRectF) : ℚ := if r.w < 0 then r.xp else r.xp + r.w

/-- The topmost coordinate of the rectangle, also when its height is negative. -/
def minY (r : QRectF) : ℚ := if r.h < 0 then r.yp + r.h else r.yp

/-- The bottommost coordinate of the rectangle, also when its height is negative. -/
def maxY (r : QRectF) : ℚ := if r.h < 0 then r.yp else r.yp + r.h

/-- The operator `QRectF::operator|`: the bounding rectangle of the two, a null operand
being ignored. -/
def united (a b : QRectF) : QRectF :=
  if a.isNull then b
  else if b.isNull then a
  else
    let left := min a.minX b.minX
    let right := max a.maxX b.maxX
    let top := min a.minY b.minY
    let bottom := max a.maxY b.maxY
    ⟨left, top, right - left, bottom - top⟩

/-- The outer rectangle encloses the inner one: the extent of the inner rectangle lies
within the extent of the outer one in both directions. -/
def encloses (outer inner : QRectF) : Prop :=
  outer.minX ≤ inner.minX ∧ inner.maxX ≤ outer.maxX ∧
    outer.minY ≤ inner.minY ∧ inner.maxY ≤ outer.maxY

instance (outer inner : QRectF) : Decidable (outer.encloses inner) := by
  unfold encloses
  infer_instance

end QRectF

/-- The class `QPolygonF`: its points. -/
abbrev QPolygonF := List QPointF

/-- The member `QPolygonF::boundingRect()`: `QRectF(0, 0, 0, 0)` for an empty polygon,
otherwise the rectangle from the least to the greatest coordinates of the points. -/
def QPolygonF.boundingRect : QPolygonF → QRectF
  | [] => ⟨0, 0, 0, 0⟩
  | p :: ps =>
    let minx := ps.foldl (fun m q => min m q.x) p.x
    let maxx := ps.foldl (fun m q => max m q.x) p.x
    let miny := ps.foldl (fun m q => min m q.y) p.y
    let maxy := ps.foldl (fun m q => max m q.y) p.y
    ⟨minx, miny, maxx - minx, maxy - miny⟩

/-- A `QTransform` that is a scaling plus a translation: `x ↦ m11 * x + dx`,
`y ↦ m22 * y + dy`. -/
structure QTransform where
  m11 : ℚ
  m22 : ℚ
  dx : ℚ
  dy : ℚ
  deriving DecidableEq, Repr

/-- The member `QTransform::mapRect(rect)` for a scaling plus translation: corner and size
are mapped, and a negative width or height is turned positive. -/
def QTransform.mapRect (t : QTransform) (rect : QRectF) : QRectF :=
  let x := t.m11 * rect.xp + t.dx
  let y := t.m22 * rect.yp + t.dy
  let w := t.m11 * rect.w
  let h := t.m22 * rect.h
  let x := if w < 0 then x - (-w) else x
  let w := if w < 0 then -w else w
  let y := if h < 0 then y - (-h) else y
  let h := if h < 0 then -h else h
  ⟨x, y, w, h⟩

/-- The member `QTransform::inverted()` for a scaling plus translation. -/
def QTransform.inverted (t : QTransform) : QTransform :=
  ⟨1 / t.m11, 1 / t.m22, -t.dx / t.m11, -t.dy / t.m22⟩

/-- The edges named by an `edge_mask` argument.  The enumerators `TOP`, `BOTTOM`, `LEFT` and
`RIGHT` are declared in ImageView.h, which is not part of the development; the code only
tests single bits (`edge_mask & TOP`), so a mask is the set of edges whose bit is set. -/
structure EdgeMask where
  top : Bool
  bottom : Bool
  left : Bool
  right : Bool
  deriving DecidableEq, Repr

/-- The enumerator `TOP`. -/
def TOP : EdgeMask := ⟨true, false, false, false⟩

/-- The enumerator `BOTTOM`. -/
def BOTTOM : EdgeMask := ⟨false, true, false, false⟩

/-- The enumerator `LEFT`. -/
def LEFT : EdgeMask := ⟨false, false, true, false⟩

/-- The enumerator `RIGHT`. -/
def RIGHT : EdgeMask := ⟨false, false, false, true⟩

/-- The bitwise or of two masks, as in `TOP | LEFT`. -/
def EdgeMask.or (a b : EdgeMask) : EdgeMask :=
  ⟨a.top || b.top, a.bottom || b.bottom, a.left || b.left, a.right || b.right⟩

/-- The signals `ImageView` emits. -/
inductive Signal where
  | manualContentRectSet (content_rect : QRectF)
  | manualPageRectSet (page_rect : QRectF)
  | pageRectSizeChanged (size : QSizeF)
  deriving DecidableEq, Repr

/-- The state of a `select_content::ImageView`: its own data members, what it reads from
its base class `ImageViewBase` (the transform `virtualToWidget()`, the rectangle
`virtualDisplayRect()` and `interactionState().captured()`), and the signals emitted so far,
oldest first.  Repaint requests (`update()`) are not recorded. -/
structure ImageView where
  m_contentRect : QRectF
  m_pageRect : QRectF
  m_minBoxSize : QSizeF
  m_pageRectEnabled : Bool
  m_pageRectReloadRequested : Bool
  virtualToWidget : QTransform
  virtualDisplayRect : QRectF
  captured : Bool
  emitted : List Signal
  deriving DecidableEq, Repr

namespace ImageView

/-- The member `ImageViewBase::widgetToVirtual()`: the inverse of `virtualToWidget()`. -/
def widgetToVirtual (v : ImageView) : QTransform := v.virtualToWidget.inverted

/-- The view with another content rectangle. -/
def withContentRect (v : ImageView) (r : QRectF) : ImageView :=
  ⟨r, v.m_pageRect, v.m_minBoxSize, v.m_pageRectEnabled, v.m_pageRectReloadRequested,
    v.virtualToWidget, v.virtualDisplayRect, v.captured, v.emitted⟩

/-- The view with another page rectangle. -/
def withPageRect (v : ImageView) (r : QRectF) : ImageView :=
  ⟨v.m_contentRect, r, v.m_minBoxSize, v.m_pageRectEnabled, v.m_pageRectReloadRequested,
    v.virtualToWidget, v.virtualDisplayRect, v.captured, v.emitted⟩

/-- The view with the reload flag set to `flag`. -/
def withReloadRequested (v : ImageView) (flag : Bool) : ImageView :=
  ⟨v.m_contentRect, v.m_pageRect, v.m_minBoxSize, v.m_pageRectEnabled, flag,
    v.virtualToWidget, v.virtualDisplayRect, v.captured, v.emitted⟩

/-- The statement `emit signal`. -/
def emit (v : ImageView) (signal : Signal) : ImageView :=
  ⟨v.m_contentRect, v.m_pageRect, v.m_minBoxSize, v.m_pageRectEnabled,
    v.m_pageRectReloadRequested, v.virtualToWidget, v.virtualDisplayRect, v.captured,
    v.emitted ++ [signal]⟩

/-- The function `ImageView::createContentBox()`. -/
def createContentBox (v : ImageView) : ImageView :=
  if !v.m_contentRect.isEmpty then
    v
  else if v.captured then
    v
  else
    let virtual_rect := v.virtualDisplayRect
    let content_rect : QRectF :=
      ⟨0, 0, virtual_rect.width * (7 / 10), virtual_rect.height * (7 / 10)⟩
    let content_rect := content_rect.moveCenter virtual_rect.center
    let v := v.withContentRect content_rect
    v.emit (Signal.manualContentRectSet v.m_contentRect)

/-- The function `ImageView::removeContentBox()`. -/
def removeContentBox (v : ImageView) : ImageView :=
  if v.m_contentRect.isEmpty then
    v
  else if v.captured then
    v
  else
    let v := v.withContentRect ⟨0, 0, 0, 0⟩
    v.emit (Signal.manualContentRectSet v.m_contentRect)

/-- The function `ImageView::forcePageRectDescribeContent()`. -/
def forcePageRectDescribeContent (v : ImageView) : ImageView :=
  let oldPageRect := v.m_pageRect
  let v := v.withPageRect (v.m_pageRect.united v.m_contentRect)
  if v.m_pageRectEnabled && v.m_pageRect != oldPageRect then
    (v.withReloadRequested true).emit (Signal.pageRectSizeChanged v.m_pageRect.size)
  else
    v

/-- The function `ImageView::forceInsideImage(widget_rect, edge_mask)`; the rectangle it
modifies is returned. -/
def forceInsideImage (v : ImageView) (widget_rect : QRectF) (edge_mask : EdgeMask) : QRectF :=
  let minw := v.m_minBoxSize.width
  let minh := v.m_minBoxSize.height
  let image_rect := v.virtualToWidget.mapRect v.virtualDisplayRect
  let widget_rect :=
    if edge_mask.left && decide (widget_rect.left < image_rect.left) then
      let r := widget_rect.setLeft image_rect.left
      r.setRight (max r.right (r.left + minw))
    else widget_rect
  let widget_rect :=
    if edge_mask.right && decide (widget_rect.right > image_rect.right) then
      let r := widget_rect.setRight image_rect.right
      r.setLeft (min r.left (r.right - minw))
    else widget_rect
  let widget_rect :=
    if edge_mask.top && decide (widget_rect.top < image_rect.top) then
      let r := widget_rect.setTop image_rect.top
      r.setBottom (max r.bottom (r.top + minh))
    else widget_rect
  let widget_rect :=
    if edge_mask.bottom && decide (widget_rect.bottom > image_rect.bottom) then
      let r := widget_rect.setBottom image_rect.bottom
      r.setTop (min r.top (r.bottom - minh))
    else widget_rect
  widget_rect

/-- The rectangle `r` after the edge moves at the start of `contentRectCornerMoveRequest`
and `pageRectCornerMoveRequest`: the edges named by the mask follow the pointer, keeping
the minimum box size. -/
def moveEdges (v : ImageView) (r : QRectF) (edge_mask : EdgeMask) (pos : QPointF) : QRectF :=
  let minw := v.m_minBoxSize.width
  let minh := v.m_minBoxSize.height
  let r :=
    if edge_mask.top then r.setTop (min pos.y (r.bottom - minh))
    else if edge_mask.bottom then r.setBottom (max pos.y (r.top + minh))
    else r
  let r :=
    if edge_mask.left then r.setLeft (min pos.x (r.right - minw))
    else if edge_mask.right then r.setRight (max pos.x (r.left + minw))
    else r
  r

/-- The function `ImageView::contentRectCornerMoveRequest(edge_mask, pos)`. -/
def contentRectCornerMoveRequest (v : ImageView) (edge_mask : EdgeMask) (pos : QPointF) :
    ImageView :=
  let r := v.virtualToWidget.mapRect v.m_contentRect
  let r := v.moveEdges r edge_mask pos
  let r := v.forceInsideImage r edge_mask
  let v := v.withContentRect (v.widgetToVirtual.mapRect r)
  v.forcePageRectDescribeContent

/-- The function `ImageView::contentRectEdgeMoveRequest(edge, line)`. -/
def contentRectEdgeMoveRequest (v : ImageView) (edge : EdgeMask) (line : QLineF) : ImageView :=
  v.contentRectCornerMoveRequest edge line.p1

/-- The function `ImageView::pageRectCornerMoveRequest(edge_mask, pos)`. -/
def pageRectCornerMoveRequest (v : ImageView) (edge_mask : EdgeMask) (pos : QPointF) :
    ImageView :=
  let r := v.virtualToWidget.mapRect v.m_pageRect
  let r := v.moveEdges r edge_mask pos
  let v := v.withPageRect (v.widgetToVirtual.mapRect r)
  let v := v.forcePageRectDescribeContent
  v.emit (Signal.pageRectSizeChanged v.m_pageRect.size)

/-- The function `ImageView::pageRectEdgeMoveRequest(edge, line)`. -/
def pageRectEdgeMoveRequest (v : ImageView) (edge : EdgeMask) (line : QLineF) : ImageView :=
  v.pageRectCornerMoveRequest edge line.p1

/-- The function `ImageView::contentRectPosition()`. -/
def contentRectPosition (v : ImageView) : QRectF := v.virtualToWidget.mapRect v.m_contentRect

/-- The function `ImageView::pageRectPosition()`. -/
def pageRectPosition (v : ImageView) : QRectF := v.virtualToWidget.mapRect v.m_pageRect

/-- The rectangle `contentRectInWidget` of `contentRectMoveRequest` after its four
translations into the image rectangle. -/
def contentRectInImage (v : ImageView) (poly_pos : QPolygonF) : QRectF :=
  let contentRectInWidget := poly_pos.boundingRect
  let image_rect := v.virtualToWidget.mapRect v.virtualDisplayRect
  let contentRectInWidget :=
    if contentRectInWidget.left < image_rect.left then
      contentRectInWidget.translate (image_rect.left - contentRectInWidget.left) 0
    else contentRectInWidget
  let contentRectInWidget :=
    if contentRectInWidget.right > image_rect.right then
      contentRectInWidget.translate (image_rect.right - contentRectInWidget.right) 0
    else contentRectInWidget
  let contentRectInWidget :=
    if contentRectInWidget.top < image_rect.top then
      contentRectInWidget.translate 0 (image_rect.top - contentRectInWidget.top)
    else contentRectInWidget
  let contentRectInWidget :=
    if contentRectInWidget.bottom > image_rect.bottom then
      contentRectInWidget.translate 0 (image_rect.bottom - contentRectInWidget.bottom)
    else contentRectInWidget
  contentRectInWidget

/-- The function `ImageView::contentRectMoveRequest(poly_pos)`. -/
def contentRectMoveRequest (v : ImageView) (poly_pos : QPolygonF) : ImageView :=
  let contentRectInWidget := v.contentRectInImage poly_pos
  let v := v.withContentRect (v.widgetToVirtual.mapRect contentRectInWidget)
  v.forcePageRectDescribeContent

/-- The rectangle `pageRectInWidget` of `pageRectMoveRequest` after its four translations
around the content rectangle. -/
def pageRectAroundContent (v : ImageView) (poly_pos : QPolygonF) : QRectF :=
  let pageRectInWidget := poly_pos.boundingRect
  let content_rect := v.virtualToWidget.mapRect v.m_contentRect
  let pageRectInWidget :=
    if pageRectInWidget.left > content_rect.left then
      pageRectInWidget.translate (content_rect.left - pageRectInWidget.left) 0
    else pageRectInWidget
  let pageRectInWidget :=
    if pageRectInWidget.right < content_rect.right then
      pageRectInWidget.translate (content_rect.right - pageRectInWidget.right) 0
    else pageRectInWidget
  let pageRectInWidget :=
    if pageRectInWidget.top > content_rect.top then
      pageRectInWidget.translate 0 (content_rect.top - pageRectInWidget.top)
    else pageRectInWidget
  let pageRectInWidget :=
    if pageRectInWidget.bottom < content_rect.bottom then
      pageRectInWidget.translate 0 (content_rect.bottom - pageRectInWidget.bottom)
    else pageRectInWidget
  pageRectInWidget

/-- The function `ImageView::pageRectMoveRequest(poly_pos)`. -/
def pageRectMoveRequest (v : ImageView) (poly_pos : QPolygonF) : ImageView :=
  let pageRectInWidget := v.pageRectAroundContent poly_pos
  v.withPageRect (v.widgetToVirtual.mapRect pageRectInWidget)

/-- The function `ImageView::pageRectSetExternally(pageRect)`. -/
def pageRectSetExternally (v : ImageView) (pageRect : QRectF) : ImageView :=
  if !v.m_pageRectEnabled then
    v
  else
    let v := v.withPageRect pageRect
    let v := v.forcePageRectDescribeContent
    v.emit (Signal.manualPageRectSet v.m_pageRect)

/-- The page box encloses the content box whenever the content rectangle is not null. -/
def pageEnclosesContent (v : ImageView) : Prop :=
  v.m_contentRect.isNull = false → v.m_pageRect.encloses v.m_contentRect

instance (v : ImageView) : Decidable v.pageEnclosesContent := by
  unfold pageEnclosesContent
  infer_instance

end ImageView

end select_content

/-! ## Dragging the content box, page order selection, translations -/

namespace select_content

/-- The array `masks_by_corner` of the constructor of `ImageView`. -/
def masks_by_corner : List EdgeMask :=
  [TOP.or LEFT, TOP.or RIGHT, BOTTOM.or RIGHT, BOTTOM.or LEFT]

/-- The array `masks_by_edge` of the constructor of `ImageView`. -/
def masks_by_edge : List EdgeMask := [TOP, RIGHT, BOTTOM, LEFT]

/-- The data members as the constructor `ImageView::ImageView(...)` initialises them; the
minimum box size is 10 x 10.  `virtualToWidget`, `virtualDisplayRect` and `captured` come
from the base class, and `reloadRequested` stands for `m_pageRectReloadRequested`, which is
not in the initialiser list. -/
def ImageView.construct (content_rect page_rect : QRectF) (page_rect_enabled : Bool)
    (virtualToWidget : QTransform) (virtualDisplayRect : QRectF) (captured : Bool)
    (reloadRequested : Bool) : ImageView :=
  ⟨content_rect, page_rect, ⟨10, 10⟩, page_rect_enabled, reloadRequested, virtualToWidget,
    virtualDisplayRect, captured, []⟩

/-- The rectangle `r` of `contentRectCornerMoveRequest(edge_mask, pos)` in widget
coordinates after `forceInsideImage(r, edge_mask)`, before it is mapped back and stored,
computed in exact arithmetic.  The same computation in double precision is
`ieee.ImageView.contentRectDragged`. -/
def ImageView.contentRectDragged (v : ImageView) (edge_mask : EdgeMask) (pos : QPointF) :
    QRectF :=
  let r := v.virtualToWidget.mapRect v.m_contentRect
  let r := v.moveEdges r edge_mask pos
  v.forceInsideImage r edge_mask

end select_content

/-! ## Dragging the content box in double precision

The type `qreal` of Qt is `double`.  This section repeats the computation of the dragged
content rectangle in IEEE 754 binary64 arithmetic: every `+`, `-` and `*` of the source is
one operation rounded to nearest, ties to even. -/

namespace select_content

namespace ieee

/-- A finite `double`: the number `m * 2 ^ e`.  The exponent is not bounded, so the
operations below are those of binary64 whenever no result overflows or is subnormal;
infinities, NaN and the sign of zero are not represented. -/
structure qreal where
  m : Int
  e : Int
  deriving DecidableEq, Repr

namespace qreal

/-- The number a `double` stands for. -/
def toRat (a : qreal) : ℚ := a.m * (2 : ℚ) ^ a.e

/-- The number of binary digits of `n`, counted with `fuel` halvings. -/
def bitLengthAux : Nat → Nat → Nat
  | 0, _ => 0
  | fuel + 1, n => if n = 0 then 0 else bitLengthAux fuel (n / 2) + 1

/-- The number of binary digits of `n`. -/
def bitLength (n : Nat) : Nat := bitLengthAux n n

/-- The `double` nearest to `m * 2 ^ e`: a significand of more than 53 binary digits is cut
to 53, rounding to nearest and a tie to the even significand. -/
def round (m e : Int) : qreal :=
  let n := m.natAbs
  let bits := bitLength n
  if bits ≤ 53 then ⟨m, e⟩
  else
    let shift := bits - 53
    let q := n / 2 ^ shift
    let rem := n % 2 ^ shift
    let half := 2 ^ (shift - 1)
    let q := if half < rem ∨ (rem = half ∧ q % 2 = 1) then q + 1 else q
    ⟨m.sign * q, e + shift⟩

/-- The operator `a + b` on `double`. -/
def add (a b : qreal) : qreal :=
  let e := min a.e b.e
  round (a.m * 2 ^ (a.e - e).toNat + b.m * 2 ^ (b.e - e).toNat) e

/-- The operator `-a` on `double`. -/
def neg (a : qreal) : qreal := ⟨-a.m, a.e⟩

/-- The operator `a - b` on `double`. -/
def sub (a b : qreal) : qreal := add a (neg b)

/-- The operator `a * b` on `double`. -/
def mul (a b : qreal) : qreal := round (a.m * b.m) (a.e + b.e)

/-- The operator `a < b` on `double`. -/
def lt (a b : qreal) : Bool :=
  let e := min a.e b.e
  decide (a.m * 2 ^ (a.e - e).toNat < b.m * 2 ^ (b.e - e).toNat)

/-- The function `std::min(a, b)`: `b` when `b < a`, else `a`. -/
def min (a b : qreal) : qreal := if lt b a then b else a

/-- The function `std::max(a, b)`: `b` when `a < b`, else `a`. -/
def max (a b : qreal) : qreal := if lt a b then b else a

end qreal

/-- The class `QPointF` in double precision. -/
structure QPointF where
  x : qreal
  y : qreal
  deriving DecidableEq, Repr

/-- The class `QSizeF` in double precision. -/
structure QSizeF where
  width : qreal
  height : qreal
  deriving DecidableEq, Repr

/-- The class `QRectF` in double precision, stored as Qt stores it. -/
structure QRectF where
  xp : qreal
  yp : qreal
  w : qreal
  h : qreal
  deriving DecidableEq, Repr

namespace QRectF

/-- The member `QRectF::left()`. -/
def left (r : QRectF) : qreal := r.xp

/-- The member `QRectF::top()`. -/
def top (r : QRectF) : qreal := r.yp

/-- The member `QRectF::right()`: `xp + w`. -/
def right (r : QRectF) : qreal := r.xp.add r.w

/-- The member `QRectF::bottom()`: `yp + h`. -/
def bottom (r : QRectF) : qreal := r.yp.add r.h

/-- The member `QRectF::width()`. -/
def width (r : QRectF) : qreal := r.w

/-- The member `QRectF::height()`. -/
def height (r : QRectF) : qreal := r.h

/-- The member `QRectF::setLeft(pos)`: `diff = pos - xp; xp += diff; w -= diff`. -/
def setLeft (r : QRectF) (pos : qreal) : QRectF :=
  let diff := pos.sub r.xp
  ⟨r.xp.add diff, r.yp, r.w.sub diff, r.h⟩

/-- The member `QRectF::setRight(pos)`: `w = pos - xp`. -/
def setRight (r : QRectF) (pos : qreal) : QRectF := ⟨r.xp, r.yp, pos.sub r.xp, r.h⟩

/-- The member `QRectF::setTop(pos)`: `diff = pos - yp; yp += diff; h -= diff`. -/
def setTop (r : QRectF) (pos : qreal) : QRectF :=
  let diff := pos.sub r.yp
  ⟨r.xp, r.yp.add diff, r.w, r.h.sub diff⟩

/-- The member `QRectF::setBottom(pos)`: `h = pos - yp`. -/
def setBottom (r : QRectF) (pos : qreal) : QRectF := ⟨r.xp, r.yp, r.w, pos.sub r.yp⟩

end QRectF

/-- A `QTransform` that is a scaling plus a translation, in double precision. -/
structure QTransform where
  m11 : qreal
  m22 : qreal
  dx : qreal
  dy : qreal
  deriving DecidableEq, Repr

/-- The member `QTransform::mapRect(rect)` for a scaling plus translation: the product and
the sum are rounded one after the other, and a negative width or height is turned
positive (`w = -w; x -= w`). -/
def QTransform.mapRect (t : QTransform) (rect : QRectF) : QRectF :=
  let x := (t.m11.mul rect.xp).add t.dx
  let y := (t.m22.mul rect.yp).add t.dy
  let w := t.m11.mul rect.w
  let h := t.m22.mul rect.h
  let x := if w.lt ⟨0, 0⟩ then x.sub w.neg else x
  let w := if w.lt ⟨0, 0⟩ then w.neg else w
  let y := if h.lt ⟨0, 0⟩ then y.sub h.neg else y
  let h := if h.lt ⟨0, 0⟩ then h.neg else h
  ⟨x, y, w, h⟩

/-- What `contentRectCornerMoveRequest` reads of a `select_content::ImageView` before it
stores the new content rectangle: the content rectangle, the minimum box size, and
`virtualToWidget()` and `virtualDisplayRect()` of the base class. -/
structure ImageView where
  m_contentRect : QRectF
  m_minBoxSize : QSizeF
  virtualToWidget : QTransform
  virtualDisplayRect : QRectF
  deriving DecidableEq, Repr

namespace ImageView

/-- The function `ImageView::forceInsideImage(widget_rect, edge_mask)`; the rectangle it
modifies is returned. -/
def forceInsideImage (v : ImageView) (widget_rect : QRectF) (edge_mask : EdgeMask) : QRectF :=
  let minw := v.m_minBoxSize.width
  let minh := v.m_minBoxSize.height
  let image_rect := v.virtualToWidget.mapRect v.virtualDisplayRect
  let widget_rect :=
    if edge_mask.left && widget_rect.left.lt image_rect.left then
      let r := widget_rect.setLeft image_rect.left
      r.setRight (qreal.max r.right (r.left.add minw))
    else widget_rect
  let widget_rect :=
    if edge_mask.right && image_rect.right.lt widget_rect.right then
      let r := widget_rect.setRight image_rect.right
      r.setLeft (qreal.min r.left (r.right.sub minw))
    else widget_rect
  let widget_rect :=
    if edge_mask.top && widget_rect.top.lt image_rect.top then
      let r := widget_rect.setTop image_rect.top
      r.setBottom (qreal.max r.bottom (r.top.add minh))
    else widget_rect
  let widget_rect :=
    if edge_mask.bottom && image_rect.bottom.lt widget_rect.bottom then
      let r := widget_rect.setBottom image_rect.bottom
      r.setTop (qreal.min r.top (r.bottom.sub minh))
    else widget_rect
  widget_rect

/-- The rectangle `r` after the edge moves at the start of
`contentRectCornerMoveRequest`. -/
def moveEdges (v : ImageView) (r : QRectF) (edge_mask : EdgeMask) (pos : QPointF) : QRectF :=
  let minw := v.m_minBoxSize.width
  let minh := v.m_minBoxSize.height
  let r :=
    if edge_mask.top then r.setTop (qreal.min pos.y (r.bottom.sub minh))
    else if edge_mask.bottom then r.setBottom (qreal.max pos.y (r.top.add minh))
    else r
  let r :=
    if edge_mask.left then r.setLeft (qreal.min pos.x (r.right.sub minw))
    else if edge_mask.right then r.setRight (qreal.max pos.x (r.left.add minw))
    else r
  r

/-- The rectangle `r` of `contentRectCornerMoveRequest(edge_mask, pos)` in widget
coordinates after `forceInsideImage(r, edge_mask)`, before it is mapped back and stored. -/
def contentRectDragged (v : ImageView) (edge_mask : EdgeMask) (pos : QPointF) : QRectF :=
  let r := v.virtualToWidget.mapRect v.m_contentRect
  let r := v.moveEdges r edge_mask pos
  v.forceInsideImage r edge_mask

end ImageView

end ieee

end select_content

namespace deskew

/-- The function `Filter::selectPageOrder(option)`.  The assertion compares
`(unsigned) option`, the value of the `int` modulo 2^32, with the number of options; a
failed assertion has no result, which is `none`. -/
def Filter.selectPageOrder {σ W O : Type} (f : Filter σ W O) (option : Int) :
    Option (Filter σ W O) :=
  if (option % 4294967296).toNat < f.m_pageOrderOptions.length then
    some ⟨f.m_ptrSettings, f.m_ptrOptionsWidget, f.m_pageOrderOptions, option⟩
  else
    none

end deskew

/-- The locale of a translation file name, as `Application::initTranslations` derives it on
the characters of the name: `truncate(lastIndexOf('.'))`, which keeps the characters before
the last '.', or nothing when there is none (a negative position truncates to the empty
string); then `remove(0, indexOf('_') + 1)`, which drops the characters up to and including
the first '_', or nothing when there is none. -/
def localeOfChars (fileName : List Char) : List Char :=
  let lastDot : Int :=
    if '.' ∈ fileName then (fileName.length : Int) - 1 - (fileName.reverse.indexOf '.' : Nat)
    else -1
  let locale := if lastDot < fileName.length then fileName.take lastDot.toNat else fileName
  let firstUnderscore : Int := if '_' ∈ locale then (locale.indexOf '_' : Nat) else -1
  locale.drop (firstUnderscore + 1).toNat

/-- The same derivation on strings. -/
def localeOfFileName (fileName : String) : String := String.mk (localeOfChars fileName.data)

/-- The member `operator[]` of `std::map<QString, QString>` used for assignment,
`m[key] = value`: the entries are kept in ascending key order, one per key. -/
def mapSet : List (String × String) → String → String → List (String × String)
  | [], key, value => [(key, value)]
  | (k, v) :: rest, key, value =>
    if key < k then (key, value) :: (k, v) :: rest
    else if key = k then (key, value) :: rest
    else (k, v) :: mapSet rest key value

/-- The data members of `Application`: the current locale, the translations map (entries in
key order), the file the translator holds (none after a failed load) and whether the
translator is installed. -/
structure Application where
  m_currentLocale : String
  m_translationsMap : List (String × String)
  m_translator : Option String
  translatorInstalled : Bool
  deriving DecidableEq, Repr

namespace Application

/-- The function `Application::initTranslations()`.  `dirs` lists, for every translation
directory that exists, its path and its entries matching "scantailor_*.qm", in the order the
loops visit them; `absoluteFilePath` is `QDir::absoluteFilePath`. -/
def initTranslations (absoluteFilePath : String → String → String)
    (dirs : List (String × List String)) (app : Application) : Application :=
  dirs.foldl
    (fun app dir =>
      dir.2.foldl
        (fun app fileName =>
          let locale := localeOfFileName fileName
          ⟨app.m_currentLocale, mapSet app.m_translationsMap locale
            (absoluteFilePath dir.1 fileName), app.m_translator, app.translatorInstalled⟩)
        app)
    app

/-- The constructor `Application::Application(argc, argv)`: the current locale is "en" and
the translations map is filled by `initTranslations()`. -/
def construct (absoluteFilePath : String → String → String)
    (dirs : List (String × List String)) : Application :=
  initTranslations absoluteFilePath dirs ⟨"en", [], none, false⟩

/-- The function `Application::installLanguage(locale)`.  `translatorLoad` tells whether
`m_translator.load(file)` succeeds. -/
def installLanguage (translatorLoad : String → Bool) (app : Application) (locale : String) :
    Application :=
  if app.m_currentLocale == locale then
    app
  else
    match app.m_translationsMap.lookup locale with
    | some file =>
      let loaded := translatorLoad file
      ⟨if loaded then locale else "en", app.m_translationsMap,
        if loaded then some file else none, true⟩
    | none => ⟨"en", app.m_translationsMap, app.m_translator, false⟩

/-- The function `Application::getCurrentLocale()`. -/
def getCurrentLocale (app : Application) : String := app.m_currentLocale

/-- The function `Application::getLanguagesList()`: the list starts as "en" and every key
of the translations map is appended at the back, in map order. -/
def getLanguagesList (app : Application) : List String :=
  app.m_translationsMap.foldl (fun list val => list ++ [val.1]) ["en"]

end Application

/-! ## A concrete project

A small project on which the conditional theorems are instantiated: three pages on two
image files, `Params` represented by strings, and ids written as one-digit numbers. -/

namespace Sample

/-- A page on the first image. -/
def pageA : PageId := ⟨⟨"a.tif", 0⟩, SubPage.LEFT_PAGE⟩

/-- Another page on the first image. -/
def pageB : PageId := ⟨⟨"a.tif", 0⟩, SubPage.RIGHT_PAGE⟩

/-- A page on the second image. -/
def pageC : PageId := ⟨⟨"b.tif", 0⟩, SubPage.SINGLE_PAGE⟩

/-- The null page id. -/
def nullPage : PageId := ⟨⟨"", 0⟩, SubPage.SINGLE_PAGE⟩

/-- Id texts "1", "2", "3" and "4" are read as numbers, everything else is rejected. -/
def qs : QStringApi :=
  ⟨fun s => if s = "1" then some 1 else if s = "2" then some 2 else if s = "3" then some 3
      else if s = "4" then some 4 else none,
    fun n => if n = 1 then "1" else if n = 2 then "2" else if n = 3 then "3"
      else if n = 4 then "4" else "?"⟩

/-- String-valued `Params` stored in the attribute "v" of their element. -/
def px : deskew.ParamsXml String :=
  ⟨fun el => el.attributeValue "v", fun p name => QDomNode.element name [("v", p)] []⟩

/-- The reader resolving ids 1, 2, 3 to the three pages and nothing else. -/
def reader : ProjectReader :=
  ⟨fun n => if n = 1 then pageA else if n = 2 then pageB else if n = 3 then pageC
      else nullPage,
    fun n => if n = 1 then pageA.imageId else if n = 2 then pageC.imageId else ⟨"", 0⟩⟩

/-- The writer enumerating the three pages under ids 1, 2, 3. -/
def writer : ProjectWriter :=
  ⟨[(pageA, 1), (pageB, 2), (pageC, 3)], [(pageA.imageId, 1), (pageC.imageId, 2)]⟩

/-- A deskew store with `Params` for two of the three pages. -/
def store : deskew.Settings String := ⟨[(pageC, "gamma"), (pageA, "alpha")]⟩

/-- A deskew store left over from an earlier project. -/
def staleStore : deskew.Settings String := ⟨[(pageB, "stale")]⟩

/-- The filters element of a project file holding the saved deskew settings of `store`. -/
def savedFilters : QDomNode :=
  QDomNode.element "filters" []
    [QDomNode.other "#comment",
      deskew.saveSettings (deskew.Settings.api String) px qs store writer]

/-- A filters element with three well-formed page entries, the middle one under an id the
reader cannot resolve, preceded by a text node. -/
def threeEntries : QDomNode :=
  QDomNode.element "filters" []
    [QDomNode.element "deskew" []
      [QDomNode.other "#text",
        QDomNode.element "page" [("id", "1")] [QDomNode.element "params" [("v", "alpha")] []],
        QDomNode.element "page" [("id", "4")] [QDomNode.element "params" [("v", "lost")] []],
        QDomNode.element "page" [("id", "3")] [QDomNode.element "params" [("v", "gamma")] []]]]

/-- The constructor `Params(angle, deps, mode)` of the string-valued `Params`. -/
def pc : deskew.ParamsCtor String Int Unit Bool :=
  ⟨fun angle _ mode => if mode then "auto" else toString angle, ()⟩

/-- A defaults provider that has not been consulted yet. -/
def provider : DefaultParamsProvider (DefaultParams Int Bool Int) :=
  ⟨⟨⟨0, true⟩, ⟨90⟩⟩, 0⟩

/-- Rotations represented by their angle in degrees, stored in the attribute "degrees". -/
def rx : fix_orientation.RotationApi Int :=
  ⟨fun r => r,
    fun el => match el with
      | some e => if e.attributeValue "degrees" = "90" then 90 else 0
      | none => 0,
    fun r name => QDomNode.element name [("degrees", if r = 90 then "90" else "0")] []⟩

/-- A fix-orientation store with a rotation for the first image only. -/
def rotations : fix_orientation.Settings Int := ⟨[(pageA.imageId, 90)]⟩

/-- A filters element without any stage element. -/
def emptyFilters : QDomNode := QDomNode.element "filters" [] [QDomNode.other "#text"]

/-- The dependencies snapshot inside a string-valued `Params`: two fields derived from the
text. -/
def dependenciesOf (p : String) : Dependencies 2 Int :=
  ⟨fun i => if p = "alpha" then i.val else 7⟩

/-- The dependencies snapshot attached to a rotation: the angle in both fields. -/
def dependenciesOfRotation (r : Int) : Dependencies 2 Int := ⟨fun _ => r⟩

/-- A deskew stage object in non-GUI mode holding the sample store. -/
def deskewFilter : deskew.Filter (deskew.Settings String) Unit Unit := ⟨store, none, [], 0⟩

/-- A fix-orientation stage object in non-GUI mode holding the sample rotations. -/
def orientationFilter : fix_orientation.Filter (fix_orientation.Settings Int) Unit :=
  ⟨rotations, none⟩

/-- The settings objects of the sample project: the deskew store at address 0, the stale
store everywhere else. -/
def heap : SettingsHeap (deskew.Settings String) := fun r => if r = 0 then store else staleStore

/-- The rotation objects of the sample project. -/
def rotationHeap : SettingsHeap (fix_orientation.Settings Int) :=
  fun r => if r = 1 then rotations else ⟨[]⟩

/-- A deskew stage object whose settings pointer is address 0. -/
def deskewFilterRef : deskew.Filter SettingsRef Unit Unit := ⟨0, none, [], 0⟩

/-- A fix-orientation stage object whose settings pointer is address 1. -/
def orientationFilterRef : fix_orientation.Filter SettingsRef Unit := ⟨1, none⟩

/-- An options widget that remembers the arguments of the last `preUpdateUI` call. -/
def widgetPreUpdateUI (_widget : Option (PageId × Int)) (page_id : PageId) (rotation : Int) :
    Option (PageId × Int) :=
  some (page_id, rotation)

/-- A fix-orientation stage object in GUI mode, with a widget that has not been updated
yet. -/
def orientationFilterGui :
    fix_orientation.Filter (fix_orientation.Settings Int) (Option (PageId × Int)) :=
  fix_orientation.Filter.construct true rotations (fun _ (_ : Unit) => none) ()

/-- A deskew stage object constructed outside GUI mode. -/
def deskewFilterNoGui :
    deskew.Filter (deskew.Settings String) Unit
      (PageOrderOption (deskew.OrderByDeviationProvider Unit)) :=
  deskew.Filter.construct false id store (fun _ (_ : Unit) => ()) (fun _ => ()) ()

/-- The filters element `threeEntries` with the children of its stage element in reverse
order. -/
def threeEntriesShuffled : QDomNode :=
  QDomNode.element "filters" []
    [QDomNode.element "deskew" []
      [QDomNode.element "page" [("id", "3")] [QDomNode.element "params" [("v", "gamma")] []],
        QDomNode.element "page" [("id", "4")] [QDomNode.element "params" [("v", "lost")] []],
        QDomNode.element "page" [("id", "1")] [QDomNode.element "params" [("v", "alpha")] []],
        QDomNode.other "#text"]]

/-- A base dispatch that runs out of memory on event 0, fails otherwise on event 1 and
handles every other event. -/
def baseNotify (_receiver : Unit) (e : Nat) : Except Application.Thrown Bool :=
  if e = 0 then Except.error Application.Thrown.bad_alloc
  else if e = 1 then Except.error (Application.Thrown.other "logic_error")
  else Except.ok true

/-- A content selection view: a 100 x 100 image shown at scale 2 with offset 5, the content
box inside the page box. -/
def view : select_content.ImageView :=
  ⟨⟨20, 20, 40, 40⟩, ⟨10, 10, 60, 60⟩, ⟨10, 10⟩, true, false, ⟨2, 2, 5, 5⟩, ⟨0, 0, 100, 100⟩,
    false, []⟩

/-- The same view without a content box and with a small page box. -/
def viewWithoutContent : select_content.ImageView :=
  ⟨⟨0, 0, 0, 0⟩, ⟨0, 0, 10, 10⟩, ⟨10, 10⟩, true, false, ⟨2, 2, 5, 5⟩, ⟨0, 0, 100, 100⟩,
    false, []⟩

/-- A requested position smaller than the content box: a 10 x 10 square at the widget
origin. -/
def smallPolygon : select_content.QPolygonF := [⟨0, 0⟩, ⟨10, 0⟩, ⟨10, 10⟩, ⟨0, 10⟩]

/-- A requested position of the size of the page box, dragged off to the lower right. -/
def draggedPagePolygon : select_content.QPolygonF :=
  [⟨100, 100⟩, ⟨220, 100⟩, ⟨220, 220⟩, ⟨100, 220⟩]

/-- A requested position of the size of the content box, dragged beyond the left and top
border of the image. -/
def draggedContentPolygon : select_content.QPolygonF :=
  [⟨-20, -30⟩, ⟨60, -30⟩, ⟨60, 50⟩, ⟨-20, 50⟩]

/-- The translation directories of a sample installation: two directories, the second one
repeating a locale of the first. -/
def translationDirs : List (String × List String) :=
  [("/usr/share/translations", ["scantailor_fr.qm", "scantailor_de.qm"]),
    ("/opt/translations", ["scantailor_pt_BR.qm", "scantailor_de.qm"])]

/-- The absolute path of a file in a directory. -/
def absoluteFilePath (dir fileName : String) : String := dir ++ "/" ++ fileName

/-- The application object of the sample installation. -/
def application : Application :=
  ⟨"en",
    [("de", "/opt/translations/scantailor_de.qm"),
      ("fr", "/usr/share/translations/scantailor_fr.qm"),
      ("pt_BR", "/opt/translations/scantailor_pt_BR.qm")],
    none, false⟩

/-- Only the German translation file can be loaded. -/
def translatorLoad (file : String) : Bool := file == "/opt/translations/scantailor_de.qm"

/-- A content selection view in double precision: an image 117.3199 wide and 100 high
shown at scale 2 with offset 5, the minimum box size 10 x 10 of the constructor, and the
content box with left 13.65, top 21.88, width 40 and height 19.57.  Each number is the
`double` nearest to the decimal: 13.65 is 0x1.b4ccccccccccdp+3, 21.88 is
0x1.5e147ae147ae1p+4, 19.57 is 0x1.391eb851eb852p+4 and 117.3199 is
0x1.d54793dd97f63p+6. -/
def doubleView : select_content.ieee.ImageView :=
  ⟨⟨⟨7684266864200909, -49⟩, ⟨6158672490429153, -48⟩, ⟨5, 3⟩, ⟨2754232647113769, -47⟩⟩,
    ⟨⟨5, 1⟩, ⟨5, 1⟩⟩,
    ⟨⟨1, 1⟩, ⟨1, 1⟩, ⟨5, 0⟩, ⟨5, 0⟩⟩,
    ⟨⟨0, 0⟩, ⟨0, 0⟩, ⟨8255654030049123, -46⟩, ⟨25, 2⟩⟩⟩

/-- The pointer position (1000, 1000) in double precision. -/
def doublePos : select_content.ieee.QPointF := ⟨⟨125, 3⟩, ⟨125, 3⟩⟩

/-- A deskew stage object with two page order options. -/
def deskewFilterTwoOptions : deskew.Filter (deskew.Settings String) Unit String :=
  ⟨store, none, ["natural", "deviation"], 0⟩

end Sample

/-! ## Theorems -/

/-! ### Association lists and DOM folds -/

theorem foldl_appendChild_eq {α : Type} (f : α → Option QDomNode) (t : String)
    (attrs : List (String × String)) (xs : List α) (cs : List QDomNode) :
    xs.foldl (fun el x => match f x with
        | none => el
        | some c => QDomNode.appendChild el c) (QDomNode.element t attrs cs) =
      QDomNode.element t attrs (cs ++ xs.filterMap f) := by
  induction xs generalizing cs with
  | nil => simp
  | cons x xs ih =>
    cases hx : f x with
    | none => simp only [List.foldl_cons, hx, ih, List.filterMap_cons]
    | some c =>
      simp only [List.foldl_cons, hx, List.filterMap_cons]
      have happ : QDomNode.appendChild (QDomNode.element t attrs cs) c =
          QDomNode.element t attrs (cs ++ [c]) := rfl
      rw [happ, ih]
      simp

theorem lookup_filter_ne {K V : Type} [DecidableEq K] (l : List (K × V)) (k k' : K)
    (h : k' ≠ k) :
    (l.filter (fun e => e.1 ≠ k)).lookup k' = l.lookup k' := by
  induction l with
  | nil => rfl
  | cons e l ih =>
    obtain ⟨a, b⟩ := e
    by_cases ha : a = k
    · subst ha
      have hne : (k' == a) = false := by simpa using h
      simp only [List.filter_cons, ne_eq, not_true_eq_false, decide_False, Bool.false_eq_true,
        if_false, List.lookup_cons, hne]
      exact ih
    · simp only [List.filter_cons, ne_eq, ha, not_false_eq_true, decide_True, if_true,
        List.lookup_cons]
      rw [show (List.filter (fun e : K × V => decide ¬e.1 = k) l) =
        List.filter (fun e => e.1 ≠ k) l from rfl, ih]

theorem lookup_cons_filter_ne {K V : Type} [DecidableEq K] (l : List (K × V)) (k k' : K)
    (v : V) :
    ((k, v) :: l.filter (fun e => e.1 ≠ k)).lookup k' =
      if k' = k then some v else l.lookup k' := by
  by_cases h : k' = k
  · subst h
    simp
  · have hne : (k' == k) = false := by simpa using h
    rw [List.lookup_cons, hne, if_neg h]
    exact lookup_filter_ne l k k' h

theorem mem_map_fst_iff_lookup_isSome {K V : Type} [DecidableEq K] (l : List (K × V)) (k : K) :
    k ∈ l.map Prod.fst ↔ (l.lookup k).isSome = true := by
  rw [List.lookup_isSome_iff]
  simp only [List.mem_map, beq_iff_eq]
  constructor
  · rintro ⟨e, he, rfl⟩
    exact ⟨e, he, rfl⟩
  · rintro ⟨e, he, rfl⟩
    exact ⟨e, he, rfl⟩

namespace deskew

theorem getPageParams_setPageParams {P : Type} (s : Settings P) (k k' : PageId) (v : P) :
    (s.setPageParams k v).getPageParams k' =
      if k' = k then some v else s.getPageParams k' :=
  lookup_cons_filter_ne s.perPageParams k k' v

theorem pages_setPageParams {P : Type} (s : Settings P) (k : PageId) (v : P) :
    (s.setPageParams k v).pages = k :: s.pages.filter (fun p => p ≠ k) := by
  simp only [Settings.setPageParams, Settings.pages, List.map_cons, List.filter_map]
  rfl

theorem getPageParams_foldl {P : Type} (es : List (PageId × P)) (s : Settings P)
    (page : PageId) :
    (es.foldl (fun acc e => acc.setPageParams e.1 e.2) s).getPageParams page =
      (es.reverse.lookup page).or (s.getPageParams page) := by
  induction es using List.reverseRecOn with
  | nil => simp
  | append_singleton es e ih =>
    obtain ⟨k, v⟩ := e
    simp only [List.foldl_append, List.foldl_cons, List.foldl_nil, List.reverse_append,
      List.reverse_cons, List.reverse_nil, List.nil_append, List.singleton_append,
      getPageParams_setPageParams, ih, List.lookup_cons]
    by_cases h : page = k
    · simp [h]
    · have hne : (page == k) = false := by simpa using h
      simp [h, hne]

theorem pages_foldl {P : Type} (es : List (PageId × P)) (s : Settings P)
    (hs : s.pages.Nodup) :
    (es.foldl (fun acc e => acc.setPageParams e.1 e.2) s).pages.Nodup ∧
      ∀ page, page ∈ (es.foldl (fun acc e => acc.setPageParams e.1 e.2) s).pages ↔
        page ∈ es.map Prod.fst ∨ page ∈ s.pages := by
  induction es generalizing s with
  | nil => simp [hs]
  | cons e es ih =>
    have hnd : (s.setPageParams e.1 e.2).pages.Nodup := by
      rw [pages_setPageParams]
      refine List.nodup_cons.mpr ⟨?_, hs.filter _⟩
      simp
    obtain ⟨h1, h2⟩ := ih (s.setPageParams e.1 e.2) hnd
    refine ⟨h1, fun page => ?_⟩
    rw [List.foldl_cons, h2 page, pages_setPageParams]
    simp only [List.map_cons, List.mem_cons, List.mem_filter, decide_eq_true_eq]
    by_cases h : page = e.1 <;> simp [h]


theorem loadSettingsLoop_eq_foldl {σ P : Type} (S : SettingsApi σ P) (px : ParamsXml P)
    (qs : QStringApi) (reader : ProjectReader) (nodes : List QDomNode) (st : σ) :
    loadSettingsLoop S px qs reader nodes st =
      (nodes.filterMap (pageEntry px qs reader)).foldl
        (fun acc e => S.setPageParams acc e.1 e.2) st := by
  induction nodes generalizing st with
  | nil => rfl
  | cons node rest ih =>
    rw [loadSettingsLoop]
    cases hel : node.isElement with
    | false => simp [pageEntry, hel, ih]
    | true =>
      by_cases hname : node.nodeName = "page"
      · cases hid : qs.toInt (node.attributeValue "id") with
        | none => simp [pageEntry, hel, hname, hid, ih]
        | some id =>
          cases hnull : (reader.pageId id).isNull with
          | true =>
            cases hp : QDomNode.toElement (node.namedItem "params") <;>
              simp [pageEntry, hel, hname, hid, hnull, hp, ih]
          | false =>
            cases hp : QDomNode.toElement (node.namedItem "params") <;>
              simp [pageEntry, hel, hname, hid, hnull, hp, ih]
      · simp [pageEntry, hel, hname, ih]

/-- Claim C1.  For every reader and every filters element, `loadSettings` leaves the store
equal to the one obtained by starting from the cleared store and calling
`setPageParams(reader.pageId(id), Params(params child))` in document order for exactly the
children of the "deskew" element that are page entries (`pageEntry`: element named "page",
integer id, non-null `PageId`, "params" child element); every other child is skipped.  For
the modelled store the start is the empty store. -/
theorem C1_loadSettings_eq_fold_of_entries {σ P : Type} (S : SettingsApi σ P)
    (px : ParamsXml P) (qs : QStringApi) (reader : ProjectReader) (filters_el : QDomNode) :
    (∀ st : σ, loadSettings S px qs reader filters_el st =
      ((QDomNode.childrenOf (QDomNode.toElement (filters_el.namedItem "deskew"))).filterMap
          (pageEntry px qs reader)).foldl
        (fun acc e => S.setPageParams acc e.1 e.2) (S.clear st)) ∧
    (∀ st : Settings P, loadSettings (Settings.api P) px qs reader filters_el st =
      ((QDomNode.childrenOf (QDomNode.toElement (filters_el.namedItem "deskew"))).filterMap
          (pageEntry px qs reader)).foldl
        (fun acc e => acc.setPageParams e.1 e.2) ⟨[]⟩) := by
  refine ⟨fun st => ?_, fun st => ?_⟩
  · simp only [loadSettings]
    exact loadSettingsLoop_eq_foldl S px qs reader _ _
  · simp only [loadSettings]
    exact loadSettingsLoop_eq_foldl (Settings.api P) px qs reader _ _

theorem saveSettings_eq_element {σ P : Type} (S : SettingsApi σ P) (px : ParamsXml P)
    (qs : QStringApi) (st : σ) (writer : ProjectWriter) :
    saveSettings S px qs st writer =
      QDomNode.element "deskew" []
        (writer.pages.filterMap (fun e =>
          (S.getPageParams st e.1).map (fun params =>
            QDomNode.element "page" [("id", qs.number e.2)] [px.toXml params "params"]))) := by
  have h := foldl_appendChild_eq
    (fun e : PageId × Int => (S.getPageParams st e.1).map (fun params =>
      QDomNode.element "page" [("id", qs.number e.2)] [px.toXml params "params"]))
    "deskew" [] writer.pages []
  simp only [List.nil_append] at h
  rw [← h]
  simp only [saveSettings, ProjectWriter.enumPages, QDomNode.createElement]
  congr 1
  funext el e
  simp only [writePageSettings]
  cases S.getPageParams st e.1 <;>
    simp [QDomNode.createElement, QDomNode.setAttribute, QDomNode.appendChild]

/-- Claim C4.  `saveSettings` returns the element tagged "deskew" whose children are, in
enumeration order, one "page" element for every enumerated page that has stored `Params`:
it carries the numeric id as its "id" attribute and the serialised `Params` as its only
child; an enumerated page without stored `Params` contributes no child. -/
theorem C4_saveSettings_eq {σ P : Type} (S : SettingsApi σ P) (px : ParamsXml P)
    (qs : QStringApi) (st : σ) (writer : ProjectWriter) :
    saveSettings S px qs st writer =
      QDomNode.element "deskew" []
        (writer.pages.filterMap (fun e =>
          (S.getPageParams st e.1).map (fun params =>
            QDomNode.element "page" [("id", qs.number e.2)] [px.toXml params "params"]))) :=
  saveSettings_eq_element S px qs st writer

theorem pageEntry_saved_page {P : Type} (px : ParamsXml P) (qs : QStringApi)
    (reader : ProjectReader) (page : PageId) (n : Int) (v : P)
    (hint : qs.toInt (qs.number n) = some n) (hreader : reader.pageId n = page)
    (hnonnull : page.isNull = false)
    (hel : (px.toXml v "params").isElement = true ∧ (px.toXml v "params").nodeName = "params")
    (hxml : px.fromXml (px.toXml v "params") = v) :
    pageEntry px qs reader
      (QDomNode.element "page" [("id", qs.number n)] [px.toXml v "params"]) =
      some (page, v) := by
  have hattr : (QDomNode.element "page" [("id", qs.number n)]
      [px.toXml v "params"]).attributeValue "id" = qs.number n := by
    simp [QDomNode.attributeValue, List.lookup]
  have hitem : QDomNode.toElement ((QDomNode.element "page" [("id", qs.number n)]
      [px.toXml v "params"]).namedItem "params") = some (px.toXml v "params") := by
    simp [QDomNode.namedItem, QDomNode.children, List.find?, hel.2, QDomNode.toElement, hel.1]
  simp only [pageEntry, hattr, hint, hitem, hreader, hnonnull, hxml]
  simp [QDomNode.isElement, QDomNode.nodeName]

/-- Claim C2.  Save-then-load round trip of the deskew stage on the modelled store.  Let the
writer enumerate every page of the store, each enumerated page being an actual (non-null)
page that the reader returns for its numeric id, let the id text written by `setAttribute`
parse back to the id, and let `toXml(doc, "params")` produce an element named "params" from
which `Params(...)` rebuilds the same `Params`.  Then `loadSettings`, run on a filters element
whose "deskew" child is the element `saveSettings` produced, yields from any prior store a
store with the same page set and the same `Params` for every page.  (Pairwise distinct
numeric ids follow from the assumption on the reader and are not needed separately.) -/
theorem C2_save_load_round_trip {P : Type} (px : ParamsXml P) (qs : QStringApi)
    (reader : ProjectReader) (writer : ProjectWriter) (st st0 : Settings P)
    (filters_el : QDomNode)
    (hfilters : filters_el.namedItem "deskew" =
      some (saveSettings (Settings.api P) px qs st writer))
    (henum : ∀ page ∈ st.pages, page ∈ writer.pages.map Prod.fst)
    (hnonnull : ∀ e ∈ writer.pages, e.1.isNull = false)
    (hreader : ∀ e ∈ writer.pages, reader.pageId e.2 = e.1)
    (hint : ∀ e ∈ writer.pages, qs.toInt (qs.number e.2) = some e.2)
    (hel : ∀ page v, st.getPageParams page = some v →
      (px.toXml v "params").isElement = true ∧ (px.toXml v "params").nodeName = "params")
    (hxml : ∀ page v, st.getPageParams page = some v →
      px.fromXml (px.toXml v "params") = v) :
    (∀ page, page ∈ (loadSettings (Settings.api P) px qs reader filters_el st0).pages ↔
      page ∈ st.pages) ∧
    (∀ page, (loadSettings (Settings.api P) px qs reader filters_el st0).getPageParams page =
      st.getPageParams page) := by
  -- the entries the load applies are the stored entries of the enumerated pages
  have hentries : ((QDomNode.childrenOf (QDomNode.toElement
      (filters_el.namedItem "deskew"))).filterMap (pageEntry px qs reader)) =
      writer.pages.filterMap (fun e => (st.getPageParams e.1).map (fun v => (e.1, v))) := by
    rw [hfilters, saveSettings_eq_element]
    simp only [QDomNode.toElement, QDomNode.isElement, if_true, QDomNode.childrenOf,
      QDomNode.children, List.filterMap_filterMap]
    apply List.filterMap_congr
    intro e he
    cases hv : (Settings.api P).getPageParams st e.1 with
    | none =>
      have hv2 : st.getPageParams e.1 = none := hv
      simp [hv2]
    | some v =>
      have hv2 : st.getPageParams e.1 = some v := hv
      simp only [Option.map_some', Option.bind_some, hv2]
      exact pageEntry_saved_page px qs reader e.1 e.2 v (hint e he) (hreader e he)
        (hnonnull e he) (hel e.1 v hv2) (hxml e.1 v hv2)
  have hload : loadSettings (Settings.api P) px qs reader filters_el st0 =
      (writer.pages.filterMap (fun e => (st.getPageParams e.1).map (fun v => (e.1, v)))).foldl
        (fun acc e => acc.setPageParams e.1 e.2) ⟨[]⟩ := by
    rw [← hentries]
    simp only [loadSettings]
    exact loadSettingsLoop_eq_foldl (Settings.api P) px qs reader _ _
  have hmemL : ∀ page v, (page, v) ∈ writer.pages.filterMap
      (fun e => (st.getPageParams e.1).map (fun v => (e.1, v))) →
      st.getPageParams page = some v := by
    intro page v hm
    simp only [List.mem_filterMap, Option.map_eq_some'] at hm
    obtain ⟨e, _, w, hw, heq⟩ := hm
    cases heq
    exact hw
  have hkeys : ∀ page, page ∈ (writer.pages.filterMap
      (fun e => (st.getPageParams e.1).map (fun v => (e.1, v)))).map Prod.fst ↔
      page ∈ st.pages := by
    intro page
    constructor
    · intro hm
      obtain ⟨⟨k, v⟩, hkv, rfl⟩ := List.mem_map.mp hm
      have := hmemL k v hkv
      rw [Settings.pages, mem_map_fst_iff_lookup_isSome]
      simp only [Settings.getPageParams] at this
      simp [this]
    · intro hm
      have hw := henum page hm
      obtain ⟨e, he, rfl⟩ := List.mem_map.mp hw
      rw [Settings.pages, mem_map_fst_iff_lookup_isSome] at hm
      obtain ⟨v, hv⟩ := Option.isSome_iff_exists.mp hm
      refine List.mem_map.mpr ⟨(e.1, v), ?_, rfl⟩
      simp only [List.mem_filterMap, Option.map_eq_some']
      exact ⟨e, he, v, hv, rfl⟩
  refine ⟨fun page => ?_, fun page => ?_⟩
  · rw [hload, (pages_foldl _ ⟨[]⟩ (by simp [Settings.pages])).2 page, hkeys]
    simp [Settings.pages]
  · rw [hload, getPageParams_foldl]
    cases hl : (List.lookup page (writer.pages.filterMap
        (fun e => (st.getPageParams e.1).map (fun v => (e.1, v)))).reverse) with
    | none =>
      have hnot : page ∉ st.pages := by
        rw [← hkeys]
        intro hm
        obtain ⟨⟨k, v⟩, hkv, hk⟩ := List.mem_map.mp hm
        rw [List.lookup_eq_none_iff] at hl
        have := hl (k, v) (List.mem_reverse.mpr hkv)
        simp at hk
        simp [hk] at this
      have : st.getPageParams page = none := by
        rw [Settings.pages, mem_map_fst_iff_lookup_isSome] at hnot
        exact Option.not_isSome_iff_eq_none.mp hnot
      rw [this]
      simp [Settings.getPageParams]
    | some v =>
      rw [List.lookup_eq_some_iff] at hl
      obtain ⟨l1, l2, hsplit, _⟩ := hl
      have hm : (page, v) ∈ (writer.pages.filterMap
          (fun e => (st.getPageParams e.1).map (fun v => (e.1, v)))) := by
        rw [← List.mem_reverse, hsplit]
        simp
      rw [hmemL page v hm]
      rfl

/-- Witness of C2 on the sample project: the sample store, saved and loaded over a stale
store, comes back with its page set and its `Params`. -/
theorem C2_save_load_round_trip_witness :
    (∀ page, page ∈ (loadSettings (Settings.api String) Sample.px Sample.qs Sample.reader
        Sample.savedFilters Sample.staleStore).pages ↔ page ∈ Sample.store.pages) ∧
    (∀ page, (loadSettings (Settings.api String) Sample.px Sample.qs Sample.reader
        Sample.savedFilters Sample.staleStore).getPageParams page =
      Sample.store.getPageParams page) :=
  C2_save_load_round_trip Sample.px Sample.qs Sample.reader Sample.writer Sample.store
    Sample.staleStore Sample.savedFilters (by rfl) (by decide) (by decide) (by decide)
    (by decide) (fun _ _ _ => ⟨rfl, rfl⟩)
    (fun _ v _ => by simp [Sample.px, QDomNode.attributeValue, List.lookup])

theorem map_fst_filterMap_pageEntry {P : Type} (px : ParamsXml P) (qs : QStringApi)
    (reader : ProjectReader) (nodes : List QDomNode) :
    (nodes.filterMap (pageEntry px qs reader)).map Prod.fst =
      (resolvedPageIds qs reader nodes).filter (fun page => !page.isNull) := by
  induction nodes with
  | nil => rfl
  | cons node rest ih =>
    simp only [resolvedPageIds] at ih
    cases hel : node.isElement with
    | false => simp [resolvedPageIds, pageEntry, isWellFormedPage, hel, ih]
    | true =>
      by_cases hname : node.nodeName = "page"
      · cases hid : qs.toInt (node.attributeValue "id") with
        | none => simp [resolvedPageIds, pageEntry, isWellFormedPage, hel, hname, hid, ih]
        | some id =>
          cases hp : QDomNode.toElement (node.namedItem "params") with
          | none => simp [resolvedPageIds, pageEntry, isWellFormedPage, hel, hname, hid, hp, ih]
          | some params_el =>
            cases hnull : (reader.pageId id).isNull <;>
              simp [resolvedPageIds, pageEntry, isWellFormedPage, hel, hname, hid, hp, hnull,
                ih, List.filter_cons]
      · simp [resolvedPageIds, pageEntry, isWellFormedPage, hel, hname, ih]

theorem size_loadSettings {P : Type} (px : ParamsXml P) (qs : QStringApi)
    (reader : ProjectReader) (filters_el : QDomNode) (st : Settings P) :
    (loadSettings (Settings.api P) px qs reader filters_el st).size =
      ((resolvedPageIds qs reader (QDomNode.childrenOf (QDomNode.toElement
        (filters_el.namedItem "deskew")))).filter (fun page => !page.isNull)).toFinset.card := by
  have hload : loadSettings (Settings.api P) px qs reader filters_el st =
      ((QDomNode.childrenOf (QDomNode.toElement (filters_el.namedItem "deskew"))).filterMap
          (pageEntry px qs reader)).foldl
        (fun acc e => acc.setPageParams e.1 e.2) ⟨[]⟩ := by
    simp only [loadSettings]
    exact loadSettingsLoop_eq_foldl (Settings.api P) px qs reader _ _
  obtain ⟨hnd, hmem⟩ := pages_foldl
    ((QDomNode.childrenOf (QDomNode.toElement (filters_el.namedItem "deskew"))).filterMap
      (pageEntry px qs reader)) (⟨[]⟩ : Settings P) (by simp [Settings.pages])
  rw [← map_fst_filterMap_pageEntry px, hload]
  have hsize : ∀ s : Settings P, s.size = s.pages.length := fun s => by
    simp [Settings.size, Settings.pages]
  rw [hsize, ← List.toFinset_card_of_nodup hnd]
  congr 1
  ext page
  simp only [List.mem_toFinset, hmem page]
  simp [Settings.pages]

/-- Claim C5.  After `loadSettings` the number of `Params` entries of the (modelled) store
equals the number of distinct non-null `PageId`s among the well-formed page entries of the
"deskew" element.  In particular, when the well-formed entries resolve, in some order, to two
distinct non-null `PageId`s and one null `PageId`, the store holds exactly two entries; the
load is a total function, so no error is raised. -/
theorem C5_loadSettings_entry_count {P : Type} (px : ParamsXml P) (qs : QStringApi)
    (reader : ProjectReader) (filters_el : QDomNode) (st : Settings P) :
    (loadSettings (Settings.api P) px qs reader filters_el st).size =
      ((resolvedPageIds qs reader (QDomNode.childrenOf (QDomNode.toElement
        (filters_el.namedItem "deskew")))).filter (fun page => !page.isNull)).toFinset.card ∧
    ∀ p1 p2 p3 : PageId,
      (resolvedPageIds qs reader (QDomNode.childrenOf (QDomNode.toElement
        (filters_el.namedItem "deskew")))).Perm [p1, p2, p3] →
      p1 ≠ p2 → p1.isNull = false → p2.isNull = false → p3.isNull = true →
      (loadSettings (Settings.api P) px qs reader filters_el st).size = 2 := by
  refine ⟨size_loadSettings px qs reader filters_el st, ?_⟩
  intro p1 p2 p3 hperm hne h1 h2 h3
  rw [size_loadSettings, List.toFinset_eq_of_perm _ _ (hperm.filter _)]
  simp [List.filter_cons, h1, h2, h3, hne]

/-- Witness of C5 on the sample project: three well-formed entries with ids 1, 4 and 3, of
which 4 is unresolvable, load into exactly two entries. -/
theorem C5_loadSettings_entry_count_witness :
    (loadSettings (Settings.api String) Sample.px Sample.qs Sample.reader
      Sample.threeEntries Sample.staleStore).size = 2 :=
  (C5_loadSettings_entry_count Sample.px Sample.qs Sample.reader Sample.threeEntries
    Sample.staleStore).2 Sample.pageA Sample.pageC Sample.nullPage
    (by decide) (by decide) (by decide) (by decide) (by decide)

theorem loadSettings_eq_foldl_pageEntries {P : Type} (px : ParamsXml P) (qs : QStringApi)
    (reader : ProjectReader) (filters_el : QDomNode) (st : Settings P) :
    loadSettings (Settings.api P) px qs reader filters_el st =
      (pageEntries px qs reader filters_el).foldl
        (fun acc e => acc.setPageParams e.1 e.2) ⟨[]⟩ := by
  simp only [loadSettings, pageEntries, stageNodes]
  exact loadSettingsLoop_eq_foldl (Settings.api P) px qs reader _ _

theorem lookup_eq_some_iff_mem {K V : Type} [DecidableEq K] (l : List (K × V))
    (hnd : (l.map Prod.fst).Nodup) (k : K) (v : V) :
    l.lookup k = some v ↔ (k, v) ∈ l := by
  induction l with
  | nil => simp
  | cons e l ih =>
    obtain ⟨a, b⟩ := e
    simp only [List.map_cons, List.nodup_cons] at hnd
    by_cases h : k = a
    · subst h
      simp only [List.lookup_cons_self, Option.some.injEq, List.mem_cons, Prod.mk.injEq,
        true_and]
      constructor
      · intro hb
        exact Or.inl hb.symm
      · rintro (hb | hm)
        · exact hb.symm
        · exact absurd (List.mem_map.mpr ⟨(k, v), hm, rfl⟩) hnd.1
    · have hne : (k == a) = false := by simpa using h
      rw [List.lookup_cons, hne]
      simp only [ih hnd.2, List.mem_cons, Prod.mk.injEq, h, false_and, false_or]

theorem lookup_eq_of_perm {K V : Type} [DecidableEq K] (l1 l2 : List (K × V))
    (hperm : l1.Perm l2) (hnd : (l1.map Prod.fst).Nodup) (k : K) :
    l1.lookup k = l2.lookup k := by
  have hnd2 : (l2.map Prod.fst).Nodup := (hperm.map Prod.fst).nodup_iff.mp hnd
  apply Option.ext
  intro v
  simp only [Option.mem_def]
  rw [lookup_eq_some_iff_mem l1 hnd, lookup_eq_some_iff_mem l2 hnd2]
  exact hperm.mem_iff

theorem perPageParams_foldl_of_nodup {P : Type} (es : List (PageId × P))
    (acc : List (PageId × P)) (hnd : (es.map Prod.fst).Nodup)
    (hdisj : ∀ e ∈ es, e.1 ∉ acc.map Prod.fst) :
    (es.foldl (fun s e => s.setPageParams e.1 e.2) (⟨acc⟩ : Settings P)).perPageParams =
      es.reverse ++ acc := by
  induction es generalizing acc with
  | nil => simp
  | cons e es ih =>
    simp only [List.map_cons, List.nodup_cons] at hnd
    have hfilter : acc.filter (fun x => x.1 ≠ e.1) = acc := by
      rw [List.filter_eq_self]
      intro x hx
      have hne : x.1 ≠ e.1 := by
        intro heq
        exact hdisj e (List.mem_cons_self _ _) (heq ▸ List.mem_map.mpr ⟨x, hx, rfl⟩)
      simpa using hne
    have hstep : (⟨acc⟩ : Settings P).setPageParams e.1 e.2 = ⟨e :: acc⟩ := by
      simp only [Settings.setPageParams, hfilter]
    rw [List.foldl_cons, hstep, ih (e :: acc) hnd.2]
    · simp
    · intro x hx
      simp only [List.map_cons, List.mem_cons, not_or]
      refine ⟨?_, hdisj x (List.mem_cons_of_mem _ hx)⟩
      intro heq
      exact hnd.1 (heq ▸ List.mem_map.mpr ⟨x, hx, rfl⟩)

/-- Claim C13.  After `loadSettings` the (modelled) store holds at most one `Params` entry
per `PageId`: its pages are pairwise distinct.  The entry of a page is the one of the last
page entry for that page in document order: when the page entries split as
`before ++ (page, params) :: after` with no entry for `page` in `after`, the store holds
`params` for `page`. -/
theorem C13_loadSettings_single_entry_last_wins {P : Type} (px : ParamsXml P)
    (qs : QStringApi) (reader : ProjectReader) (filters_el : QDomNode) (st : Settings P) :
    (loadSettings (Settings.api P) px qs reader filters_el st).pages.Nodup ∧
    (∀ page, (loadSettings (Settings.api P) px qs reader filters_el st).getPageParams page =
      (pageEntries px qs reader filters_el).reverse.lookup page) ∧
    (∀ (page : PageId) (params : P) (before after : List (PageId × P)),
      pageEntries px qs reader filters_el = before ++ (page, params) :: after →
      page ∉ after.map Prod.fst →
      (loadSettings (Settings.api P) px qs reader filters_el st).getPageParams page =
        some params) := by
  have hget : ∀ page,
      (loadSettings (Settings.api P) px qs reader filters_el st).getPageParams page =
        (pageEntries px qs reader filters_el).reverse.lookup page := by
    intro page
    rw [loadSettings_eq_foldl_pageEntries, getPageParams_foldl]
    simp [Settings.getPageParams]
  refine ⟨?_, hget, ?_⟩
  · rw [loadSettings_eq_foldl_pageEntries]
    exact (pages_foldl _ ⟨[]⟩ (by simp [Settings.pages])).1
  · intro page params before after hsplit hlast
    rw [hget, hsplit]
    simp only [List.reverse_append, List.reverse_cons, List.append_assoc, List.singleton_append]
    rw [List.lookup_append]
    have hnone : after.reverse.lookup page = none := by
      rw [List.lookup_eq_none_iff]
      intro e he
      have : e.1 ≠ page := by
        intro heq
        exact hlast (heq ▸ List.mem_map.mpr ⟨e, List.mem_reverse.mp he, rfl⟩)
      simpa using fun h => this h.symm
    rw [hnone]
    simp

/-- Witness of C13 on a filters element with two entries for page A: the later entry is the
one the store holds. -/
theorem C13_loadSettings_single_entry_last_wins_witness :
    (loadSettings (Settings.api String) Sample.px Sample.qs Sample.reader
      (QDomNode.element "filters" []
        [QDomNode.element "deskew" []
          [QDomNode.element "page" [("id", "1")] [QDomNode.element "params" [("v", "old")] []],
            QDomNode.element "page" [("id", "2")] [QDomNode.element "params" [("v", "b")] []],
            QDomNode.element "page" [("id", "1")]
              [QDomNode.element "params" [("v", "new")] []]]])
      Sample.staleStore).getPageParams Sample.pageA = some "new" :=
  (C13_loadSettings_single_entry_last_wins Sample.px Sample.qs Sample.reader _
    Sample.staleStore).2.2 Sample.pageA "new"
    [(Sample.pageA, "old"), (Sample.pageB, "b")] [] (by rfl) (by simp)

/-- Claim C18.  `loadSettings` is independent of entry order.  When the page entries of a
"deskew" element resolve to pairwise distinct `PageId`s, loading a filters element whose
"deskew" children are a permutation of them produces the same store: the same `Params` for
every page, and the same entries (the modelled store lists them in another order). -/
theorem C18_loadSettings_order_independent {P : Type} (px : ParamsXml P) (qs : QStringApi)
    (reader : ProjectReader) (filters_el permuted_el : QDomNode) (st st' : Settings P)
    (hperm : (stageNodes filters_el).Perm (stageNodes permuted_el))
    (hdistinct : ((pageEntries px qs reader filters_el).map Prod.fst).Nodup) :
    (∀ page, (loadSettings (Settings.api P) px qs reader filters_el st).getPageParams page =
      (loadSettings (Settings.api P) px qs reader permuted_el st').getPageParams page) ∧
    (loadSettings (Settings.api P) px qs reader filters_el st).perPageParams.Perm
      (loadSettings (Settings.api P) px qs reader permuted_el st').perPageParams := by
  have hentries : (pageEntries px qs reader filters_el).Perm
      (pageEntries px qs reader permuted_el) := hperm.filterMap _
  have hdistinct' : ((pageEntries px qs reader permuted_el).map Prod.fst).Nodup :=
    (hentries.map Prod.fst).nodup_iff.mp hdistinct
  have h1 := perPageParams_foldl_of_nodup (pageEntries px qs reader filters_el) [] hdistinct
    (by simp)
  have h2 := perPageParams_foldl_of_nodup (pageEntries px qs reader permuted_el) [] hdistinct'
    (by simp)
  simp only [List.append_nil] at h1 h2
  constructor
  · intro page
    simp only [Settings.getPageParams]
    rw [loadSettings_eq_foldl_pageEntries, loadSettings_eq_foldl_pageEntries, h1, h2]
    apply lookup_eq_of_perm
    · exact (List.reverse_perm _).trans (hentries.trans (List.reverse_perm _).symm)
    · rw [List.map_reverse]
      exact List.nodup_reverse.mpr hdistinct
  · rw [loadSettings_eq_foldl_pageEntries, loadSettings_eq_foldl_pageEntries, h1, h2]
    exact (List.reverse_perm _).trans (hentries.trans (List.reverse_perm _).symm)

/-- Witness of C18 on the sample project: the three entries and their reversal load to the
same `Params` for page A and to the same entries. -/
theorem C18_loadSettings_order_independent_witness :
    (loadSettings (Settings.api String) Sample.px Sample.qs Sample.reader
        Sample.threeEntries Sample.store).getPageParams Sample.pageA =
      (loadSettings (Settings.api String) Sample.px Sample.qs Sample.reader
        Sample.threeEntriesShuffled Sample.staleStore).getPageParams Sample.pageA ∧
    (loadSettings (Settings.api String) Sample.px Sample.qs Sample.reader
        Sample.threeEntries Sample.store).perPageParams.Perm
      (loadSettings (Settings.api String) Sample.px Sample.qs Sample.reader
        Sample.threeEntriesShuffled Sample.staleStore).perPageParams :=
  ⟨(C18_loadSettings_order_independent Sample.px Sample.qs Sample.reader Sample.threeEntries
      Sample.threeEntriesShuffled Sample.store Sample.staleStore
      (List.reverse_perm (stageNodes Sample.threeEntries)).symm (by decide)).1 Sample.pageA,
    (C18_loadSettings_order_independent Sample.px Sample.qs Sample.reader Sample.threeEntries
      Sample.threeEntriesShuffled Sample.store Sample.staleStore
      (List.reverse_perm (stageNodes Sample.threeEntries)).symm (by decide)).2⟩

end deskew

namespace fix_orientation

theorem imageLoop_eq_foldl {σ R : Type} (S : SettingsApi σ R) (rx : RotationApi R)
    (qs : QStringApi) (reader : ProjectReader) (nodes : List QDomNode) (st : σ) :
    loadSettingsLoop S rx qs reader nodes st =
      (nodes.filterMap (imageEntry rx qs reader)).foldl
        (fun acc e => S.applyRotation acc e.1 e.2) st := by
  induction nodes generalizing st with
  | nil => rfl
  | cons node rest ih =>
    rw [loadSettingsLoop]
    cases hel : node.isElement with
    | false => simp [imageEntry, hel, ih]
    | true =>
      by_cases hname : node.nodeName = "image"
      · cases hid : qs.toInt (node.attributeValue "id") with
        | none => simp [imageEntry, hel, hname, hid, ih]
        | some id =>
          cases hnull : (reader.imageId id).isNull <;>
            simp [imageEntry, hel, hname, hid, hnull, ih]
      · simp [imageEntry, hel, hname, ih]

theorem foldl_log_eq {α : Type} (xs log : List α) :
    xs.foldl (fun acc e => acc ++ [e]) log = log ++ xs := by
  induction xs generalizing log with
  | nil => simp
  | cons x xs ih => simp [ih]

theorem saveImageSettings_eq_element {σ R : Type} (S : SettingsApi σ R) (rx : RotationApi R)
    (qs : QStringApi) (st : σ) (writer : ProjectWriter) :
    saveSettings S rx qs st writer =
      QDomNode.element "fix-orientation" []
        (writer.images.filterMap (fun e =>
          if rx.toDegrees (S.getRotationFor st e.1) = 0 then none
          else some (QDomNode.element "image" [("id", qs.number e.2)]
            [rx.marshal (S.getRotationFor st e.1) "rotation"]))) := by
  have h := foldl_appendChild_eq
    (fun e : ImageId × Int =>
      if rx.toDegrees (S.getRotationFor st e.1) = 0 then none
      else some (QDomNode.element "image" [("id", qs.number e.2)]
        [rx.marshal (S.getRotationFor st e.1) "rotation"]))
    "fix-orientation" [] writer.images []
  simp only [List.nil_append] at h
  rw [← h]
  simp only [saveSettings, ProjectWriter.enumImages, QDomNode.createElement]
  congr 1
  funext el e
  simp only [writeImageSettings]
  by_cases hz : rx.toDegrees (S.getRotationFor st e.1) = 0 <;>
    simp [hz, QDomNode.createElement, QDomNode.setAttribute, QDomNode.appendChild]

end fix_orientation

theorem Dependencies.equals_iff {n : Nat} {F : Type} [DecidableEq F] (a b : Dependencies n F) :
    a.equals b = true ↔ a = b := by
  simp only [Dependencies.equals, decide_eq_true_eq]
  constructor
  · intro h
    cases a
    cases b
    simp only [Dependencies.mk.injEq]
    exact funext h
  · rintro rfl i
    rfl

theorem Dependencies.setField_ne {n : Nat} {F : Type} (d : Dependencies n F) (i : Fin n) (v : F)
    (h : v ≠ d.field i) : d ≠ d.setField i v := by
  intro heq
  have := congrArg (fun x => x.field i) heq
  simp [Dependencies.setField] at this
  exact h this.symm

theorem checkValidity_cases {σ P F : Type} {n : Nat} [DecidableEq F]
    (lookup : σ → PageId → Option P) (dependencies : P → Dependencies n F) (settings : σ)
    (page_id : PageId) :
    (∀ params, lookup settings page_id = some params →
      (∀ recomputed, checkValidity lookup dependencies settings page_id recomputed =
          Validity.Valid ↔ dependencies params = recomputed) ∧
      (∀ recomputed, dependencies params ≠ recomputed →
        checkValidity lookup dependencies settings page_id recomputed = Validity.Invalid) ∧
      (∀ recomputed (i : Fin n) (v : F),
        checkValidity lookup dependencies settings page_id recomputed = Validity.Valid →
        v ≠ recomputed.field i →
        checkValidity lookup dependencies settings page_id (recomputed.setField i v) =
          Validity.Invalid)) ∧
    (lookup settings page_id = none →
      ∀ recomputed, checkValidity lookup dependencies settings page_id recomputed =
        Validity.Missing) := by
  have hvalid : ∀ params, lookup settings page_id = some params →
      ∀ recomputed, checkValidity lookup dependencies settings page_id recomputed =
          Validity.Valid ↔ dependencies params = recomputed := by
    intro params hp recomputed
    simp only [checkValidity, hp]
    by_cases h : dependencies params = recomputed
    · simp [h, (Dependencies.equals_iff recomputed recomputed).mpr rfl]
    · have hne : (dependencies params).equals recomputed = false := by
        rw [← Bool.not_eq_true, Dependencies.equals_iff]
        exact h
      simp [h, hne]
  have hinvalid : ∀ params, lookup settings page_id = some params →
      ∀ recomputed, dependencies params ≠ recomputed →
        checkValidity lookup dependencies settings page_id recomputed = Validity.Invalid := by
    intro params hp recomputed h
    have hne : (dependencies params).equals recomputed = false := by
      rw [← Bool.not_eq_true, Dependencies.equals_iff]
      exact h
    simp [checkValidity, hp, hne]
  refine ⟨fun params hp => ⟨hvalid params hp, hinvalid params hp, ?_⟩, fun hnone recomputed => ?_⟩
  · intro recomputed i v hv hne
    have heq := (hvalid params hp recomputed).mp hv
    apply hinvalid params hp
    rw [heq]
    exact Dependencies.setField_ne recomputed i v hne
  · simp [checkValidity, hnone]

theorem metricKeyPrecedes_some_some {M : Type} [LinearOrder M] (l r : M) (n n' : Nat) :
    metricKeyPrecedes (some l) n (some r) n' = true ↔ r < l ∨ (l = r ∧ n < n') := by
  simp only [metricKeyPrecedes]
  rcases lt_trichotomy l r with h | h | h
  · simp [h, lt_asymm h, ne_of_lt h]
  · subst h
    simp
  · simp [h]

theorem metricKeyPrecedes_none_none {M : Type} [LinearOrder M] (n n' : Nat) :
    metricKeyPrecedes (none : Option M) n none n' = true ↔ n < n' := by
  simp [metricKeyPrecedes]

theorem metricKeyPrecedes_irrefl {M : Type} [LinearOrder M] (m : Option M) (n : Nat) :
    metricKeyPrecedes m n m n = false := by
  rw [← Bool.not_eq_true]
  cases m with
  | none => simp [metricKeyPrecedes_none_none]
  | some a => simp [metricKeyPrecedes_some_some]

theorem metricKeyPrecedes_trans {M : Type} [LinearOrder M] (m1 m2 m3 : Option M)
    (n1 n2 n3 : Nat) (h12 : metricKeyPrecedes m1 n1 m2 n2 = true)
    (h23 : metricKeyPrecedes m2 n2 m3 n3 = true) : metricKeyPrecedes m1 n1 m3 n3 = true := by
  cases m1 with
  | none =>
    cases m2 with
    | none =>
      cases m3 with
      | none =>
        rw [metricKeyPrecedes_none_none] at *
        omega
      | some c => simp [metricKeyPrecedes] at h23
    | some b => simp [metricKeyPrecedes] at h12
  | some a =>
    cases m3 with
    | none => simp [metricKeyPrecedes]
    | some c =>
      cases m2 with
      | none => simp [metricKeyPrecedes] at h23
      | some b =>
        rw [metricKeyPrecedes_some_some] at *
        rcases h12 with h | ⟨rfl, h⟩
        · rcases h23 with h' | ⟨rfl, _⟩
          · exact Or.inl (lt_trans h' h)
          · exact Or.inl h
        · rcases h23 with h' | ⟨rfl, h'⟩
          · exact Or.inl h'
          · exact Or.inr ⟨rfl, by omega⟩

theorem metricKeyPrecedes_asymm {M : Type} [LinearOrder M] (m1 m2 : Option M) (n1 n2 : Nat)
    (h : metricKeyPrecedes m1 n1 m2 n2 = true) : metricKeyPrecedes m2 n2 m1 n1 = false := by
  rw [← Bool.not_eq_true]
  intro h'
  have := metricKeyPrecedes_trans m1 m2 m1 n1 n2 n1 h h'
  rw [metricKeyPrecedes_irrefl] at this
  exact Bool.false_ne_true this

theorem metricKeyPrecedes_incomparable {M : Type} [LinearOrder M] (m1 m2 : Option M)
    (n1 n2 : Nat) (h12 : metricKeyPrecedes m1 n1 m2 n2 = false)
    (h21 : metricKeyPrecedes m2 n2 m1 n1 = false) : m1 = m2 ∧ n1 = n2 := by
  rw [← Bool.not_eq_true] at h12 h21
  cases m1 with
  | none =>
    cases m2 with
    | none =>
      rw [metricKeyPrecedes_none_none] at h12 h21
      exact ⟨rfl, by omega⟩
    | some b => simp [metricKeyPrecedes] at h21
  | some a =>
    cases m2 with
    | none => simp [metricKeyPrecedes] at h12
    | some b =>
      rw [metricKeyPrecedes_some_some] at h12 h21
      have hab : a = b :=
        le_antisymm (not_lt.mp fun h => h12 (Or.inl h)) (not_lt.mp fun h => h21 (Or.inl h))
      subst hab
      refine ⟨rfl, ?_⟩
      have h1 : ¬ n1 < n2 := fun h => h12 (Or.inr ⟨rfl, h⟩)
      have h2 : ¬ n2 < n1 := fun h => h21 (Or.inr ⟨rfl, h⟩)
      omega

theorem metricPrecedes_isStrictWeakOrdering {M : Type} [LinearOrder M]
    (metric : PageId → Option M) (naturalOrder : PageId → Nat) (incompleteHasNoMetric : Bool) :
    IsStrictWeakOrdering (metricPrecedes metric naturalOrder incompleteHasNoMetric) := by
  refine ⟨fun a ia => metricKeyPrecedes_irrefl _ _,
    fun a ia b ib h => metricKeyPrecedes_asymm _ _ _ _ h,
    fun a ia b ib c ic h1 h2 => metricKeyPrecedes_trans _ _ _ _ _ _ h1 h2, ?_⟩
  intro a ia b ib c ic hab hba hbc hcb
  simp only [metricPrecedes] at *
  obtain ⟨hm1, hn1⟩ := metricKeyPrecedes_incomparable _ _ _ _ hab hba
  obtain ⟨hm2, hn2⟩ := metricKeyPrecedes_incomparable _ _ _ _ hbc hcb
  rw [hm1, hn1, hm2, hn2]
  exact ⟨metricKeyPrecedes_irrefl _ _, metricKeyPrecedes_irrefl _ _⟩

theorem metricPrecedes_tie {M : Type} [LinearOrder M]
    (metric : PageId → Option M) (naturalOrder : PageId → Nat) (incompleteHasNoMetric : Bool)
    (a : PageId) (ia : Bool) (b : PageId) (ib : Bool)
    (h : effectiveMetric metric incompleteHasNoMetric a ia =
      effectiveMetric metric incompleteHasNoMetric b ib) :
    metricPrecedes metric naturalOrder incompleteHasNoMetric a ia b ib = true ↔
      naturalOrder a < naturalOrder b := by
  simp only [metricPrecedes, h]
  cases effectiveMetric metric incompleteHasNoMetric b ib with
  | none => exact metricKeyPrecedes_none_none _ _
  | some m => simp [metricKeyPrecedes_some_some]

/-- Claim C3.  `loadDefaultSettings` never overwrites.  In the deskew stage, for a page whose
`Params` exist (`isParamsNull` is false) the call returns the settings and the defaults
provider exactly as they were: the store is unchanged and the provider has not been
consulted.  In the fix-orientation stage the same holds for a page whose image has a rotation
entry (`isRotationNull` is false). -/
theorem C3_loadDefaultSettings_never_overwrites {σ P A D M R τ : Type} :
    (∀ (S : deskew.SettingsApi σ P) (pc : deskew.ParamsCtor P A D M) (page_info : PageInfo)
        (w : σ × DefaultParamsProvider (DefaultParams A M R)),
      S.isParamsNull w.1 page_info.id = false →
        deskew.loadDefaultSettings S pc page_info w = w) ∧
    (∀ (S : fix_orientation.SettingsApi τ R) (page_info : PageInfo)
        (w : τ × DefaultParamsProvider (DefaultParams A M R)),
      S.isRotationNull w.1 page_info.id.imageId = false →
        fix_orientation.loadDefaultSettings S page_info w = w) := by
  constructor
  · intro S pc page_info w h
    simp [deskew.loadDefaultSettings, h]
  · intro S page_info w h
    simp [fix_orientation.loadDefaultSettings, h]

/-- Witness of C3 on the sample project: page A has deskew `Params` and its image has a
rotation, so both calls return their input. -/
theorem C3_loadDefaultSettings_never_overwrites_witness :
    deskew.loadDefaultSettings (deskew.Settings.api String) Sample.pc ⟨Sample.pageA⟩
        (Sample.store, Sample.provider) = (Sample.store, Sample.provider) ∧
    fix_orientation.loadDefaultSettings (fix_orientation.Settings.api (0 : Int))
        ⟨Sample.pageB⟩ (Sample.rotations, Sample.provider) =
      (Sample.rotations, Sample.provider) :=
  ⟨(@C3_loadDefaultSettings_never_overwrites (deskew.Settings String) String Int Unit Bool
      Int (fix_orientation.Settings Int)).1
      (deskew.Settings.api String) Sample.pc ⟨Sample.pageA⟩ (Sample.store, Sample.provider)
      (by decide),
    (@C3_loadDefaultSettings_never_overwrites (deskew.Settings String) String Int Unit Bool
      Int (fix_orientation.Settings Int)).2
      (fix_orientation.Settings.api (0 : Int)) ⟨Sample.pageB⟩
      (Sample.rotations, Sample.provider) (by decide)⟩

/-- Claim C6.  `loadSettings` replaces rather than merges.  On the modelled stores the
result of either stage does not depend on the store held before the call, and when the
filters element has no child named after the stage ("deskew" / "fix-orientation") the store
is empty afterwards. -/
theorem C6_loadSettings_replaces {P R : Type} (px : deskew.ParamsXml P)
    (rx : fix_orientation.RotationApi R) (dflt : R) (qs : QStringApi) (reader : ProjectReader)
    (filters_el : QDomNode) :
    (∀ s1 s2 : deskew.Settings P,
      deskew.loadSettings (deskew.Settings.api P) px qs reader filters_el s1 =
        deskew.loadSettings (deskew.Settings.api P) px qs reader filters_el s2) ∧
    (∀ s : deskew.Settings P, filters_el.namedItem "deskew" = none →
      deskew.loadSettings (deskew.Settings.api P) px qs reader filters_el s = ⟨[]⟩) ∧
    (∀ s1 s2 : fix_orientation.Settings R,
      fix_orientation.loadSettings (fix_orientation.Settings.api dflt) rx qs reader
          filters_el s1 =
        fix_orientation.loadSettings (fix_orientation.Settings.api dflt) rx qs reader
          filters_el s2) ∧
    (∀ s : fix_orientation.Settings R, filters_el.namedItem "fix-orientation" = none →
      fix_orientation.loadSettings (fix_orientation.Settings.api dflt) rx qs reader
        filters_el s = ⟨[]⟩) := by
  refine ⟨fun _ _ => rfl, fun s h => ?_, fun _ _ => rfl, fun s h => ?_⟩
  · simp only [deskew.loadSettings, h, QDomNode.toElement, QDomNode.childrenOf]
    rfl
  · simp only [fix_orientation.loadSettings, h, QDomNode.toElement, QDomNode.childrenOf]
    rfl

/-- Witness of C6 on the sample project: loading a filters element without stage elements
empties both stores. -/
theorem C6_loadSettings_replaces_witness :
    deskew.loadSettings (deskew.Settings.api String) Sample.px Sample.qs Sample.reader
        Sample.emptyFilters Sample.store = ⟨[]⟩ ∧
    fix_orientation.loadSettings (fix_orientation.Settings.api (0 : Int)) Sample.rx Sample.qs
        Sample.reader Sample.emptyFilters Sample.rotations = ⟨[]⟩ :=
  ⟨(C6_loadSettings_replaces Sample.px Sample.rx 0 Sample.qs Sample.reader
      Sample.emptyFilters).2.1 Sample.store (by rfl),
    (C6_loadSettings_replaces Sample.px Sample.rx 0 Sample.qs Sample.reader
      Sample.emptyFilters).2.2.2 Sample.rotations (by rfl)⟩

/-- Claim C7.  For every reader and every filters element, `loadSettings` of the
fix-orientation stage clears the store and then calls
`applyRotation(reader.imageId(id), unmarshalled "rotation" child)` once per image entry
(`imageEntry`: element named "image", integer id, non-null `ImageId`) of the
"fix-orientation" element, in document order; any other child causes no call and does not
stop the walk.  On the call log the recorded calls are exactly those entries. -/
theorem C7_loadSettings_applies_entries {σ R : Type} (S : fix_orientation.SettingsApi σ R)
    (rx : fix_orientation.RotationApi R) (dflt : R) (qs : QStringApi) (reader : ProjectReader)
    (filters_el : QDomNode) :
    (∀ st : σ, fix_orientation.loadSettings S rx qs reader filters_el st =
      ((QDomNode.childrenOf (QDomNode.toElement
          (filters_el.namedItem "fix-orientation"))).filterMap
          (fix_orientation.imageEntry rx qs reader)).foldl
        (fun acc e => S.applyRotation acc e.1 e.2) (S.clear st)) ∧
    (∀ log : List (ImageId × R),
      fix_orientation.loadSettings (fix_orientation.callLog dflt) rx qs reader filters_el log =
        (QDomNode.childrenOf (QDomNode.toElement
          (filters_el.namedItem "fix-orientation"))).filterMap
          (fix_orientation.imageEntry rx qs reader)) := by
  refine ⟨fun st => ?_, fun log => ?_⟩
  · simp only [fix_orientation.loadSettings]
    exact fix_orientation.imageLoop_eq_foldl S rx qs reader _ _
  · simp only [fix_orientation.loadSettings]
    rw [fix_orientation.imageLoop_eq_foldl]
    simp only [fix_orientation.callLog]
    rw [fix_orientation.foldl_log_eq]
    rfl

/-- Claim C8.  `saveSettings` of the fix-orientation stage returns the element tagged
"fix-orientation" whose children are, in enumeration order, one "image" element (numeric id
as "id", rotation as its "rotation" child) for every enumerated image whose
`getRotationFor(image_id).toDegrees()` is not 0; an image whose rotation is 0 degrees
contributes no child. -/
theorem C8_saveSettings_nonzero_rotations {σ R : Type} (S : fix_orientation.SettingsApi σ R)
    (rx : fix_orientation.RotationApi R) (qs : QStringApi) (st : σ)
    (writer : ProjectWriter) :
    fix_orientation.saveSettings S rx qs st writer =
      QDomNode.element "fix-orientation" []
        (writer.images.filterMap (fun e =>
          if rx.toDegrees (S.getRotationFor st e.1) = 0 then none
          else some (QDomNode.element "image" [("id", qs.number e.2)]
            [rx.marshal (S.getRotationFor st e.1) "rotation"]))) :=
  fix_orientation.saveImageSettings_eq_element S rx qs st writer

/-- Claim C9.  The validity unit built by `createCacheDrivenTask` of the deskew stage and of
the fix-orientation stage, checked by the validity contract of the specification on the
settings the unit received from its stage.  For a page with stored `Params` the verdict is
`Valid` iff the recomputed `Dependencies` equal the stored snapshot, `Invalid` whenever they
differ, and changing any single field of a value that is `Valid` gives `Invalid`; a page
with no stored `Params` is reported `Missing`. -/
theorem C9_validity_unit {σ τ P R F W W2 O N : Type} {n : Nat} [DecidableEq F]
    (S : deskew.SettingsApi σ P) (T : fix_orientation.SettingsApi τ R)
    (dependencies : P → Dependencies n F) (rotationDependencies : R → Dependencies n F)
    (f : deskew.Filter σ W O) (g : fix_orientation.Filter τ W2) (next_task : N)
    (page_id : PageId) :
    ((∀ params, S.getPageParams f.m_ptrSettings page_id = some params →
      (∀ recomputed, (f.createCacheDrivenTask next_task).checkValidity S dependencies page_id
          recomputed = Validity.Valid ↔ dependencies params = recomputed) ∧
      (∀ recomputed, dependencies params ≠ recomputed →
        (f.createCacheDrivenTask next_task).checkValidity S dependencies page_id recomputed =
          Validity.Invalid) ∧
      (∀ recomputed (i : Fin n) (v : F),
        (f.createCacheDrivenTask next_task).checkValidity S dependencies page_id recomputed =
          Validity.Valid →
        v ≠ recomputed.field i →
        (f.createCacheDrivenTask next_task).checkValidity S dependencies page_id
          (recomputed.setField i v) = Validity.Invalid)) ∧
    (S.getPageParams f.m_ptrSettings page_id = none →
      ∀ recomputed, (f.createCacheDrivenTask next_task).checkValidity S dependencies page_id
        recomputed = Validity.Missing)) ∧
    ((∀ rotation, fix_orientation.storedRotation T g.m_ptrSettings page_id = some rotation →
      (∀ recomputed, (g.createCacheDrivenTask next_task).checkValidity T rotationDependencies
          page_id recomputed = Validity.Valid ↔ rotationDependencies rotation = recomputed) ∧
      (∀ recomputed, rotationDependencies rotation ≠ recomputed →
        (g.createCacheDrivenTask next_task).checkValidity T rotationDependencies page_id
          recomputed = Validity.Invalid) ∧
      (∀ recomputed (i : Fin n) (v : F),
        (g.createCacheDrivenTask next_task).checkValidity T rotationDependencies page_id
          recomputed = Validity.Valid →
        v ≠ recomputed.field i →
        (g.createCacheDrivenTask next_task).checkValidity T rotationDependencies page_id
          (recomputed.setField i v) = Validity.Invalid)) ∧
    (fix_orientation.storedRotation T g.m_ptrSettings page_id = none →
      ∀ recomputed, (g.createCacheDrivenTask next_task).checkValidity T rotationDependencies
        page_id recomputed = Validity.Missing)) :=
  ⟨checkValidity_cases S.getPageParams dependencies f.m_ptrSettings page_id,
    checkValidity_cases (fix_orientation.storedRotation T) rotationDependencies
      g.m_ptrSettings page_id⟩

/-- Witness of C9 on the sample project: page A has `Params` "alpha" in the deskew store and
rotation 90 on its image; the matching recomputed dependencies are valid, changing field 1
makes them invalid; page B, without deskew `Params`, is missing. -/
theorem C9_validity_unit_witness :
    (Sample.deskewFilter.createCacheDrivenTask ()).checkValidity (deskew.Settings.api String)
        Sample.dependenciesOf Sample.pageA
        ((Sample.dependenciesOf "alpha").setField 1 5) = Validity.Invalid ∧
    (Sample.orientationFilter.createCacheDrivenTask ()).checkValidity
        (fix_orientation.Settings.api (0 : Int)) Sample.dependenciesOfRotation Sample.pageA
        ((Sample.dependenciesOfRotation 90).setField 1 5) = Validity.Invalid :=
  ⟨((C9_validity_unit (deskew.Settings.api String) (fix_orientation.Settings.api (0 : Int))
      Sample.dependenciesOf Sample.dependenciesOfRotation Sample.deskewFilter
      Sample.orientationFilter () Sample.pageA).1.1 "alpha" (by decide)).2.2
      (Sample.dependenciesOf "alpha") 1 5 (by decide) (by decide),
    ((C9_validity_unit (deskew.Settings.api String) (fix_orientation.Settings.api (0 : Int))
      Sample.dependenciesOf Sample.dependenciesOfRotation Sample.deskewFilter
      Sample.orientationFilter () Sample.pageB).2.1 90 (by decide)).2.2
      (Sample.dependenciesOfRotation 90) 1 5 (by decide) (by decide)⟩

/-- Claim C10.  `precedes` of the order-by-height and order-by-deviation strategies, as the
specification describes metric-based strategies, is a strict weak ordering on
(page, incomplete) pairs for every fixed settings object: irreflexive, asymmetric,
transitive, with transitive incomparability; and two pages whose metric is equal or absent
are ordered by natural page order. -/
theorem C10_precedes_strict_weak_ordering {σ δ M : Type} [LinearOrder M]
    (height : σ → PageId → Option M) (deviation : δ → PageId → Option M)
    (naturalOrder : PageId → Nat) (incompleteHasNoMetric : Bool)
    (byHeight : page_layout.OrderByHeightProvider σ)
    (byDeviation : deskew.OrderByDeviationProvider δ) :
    (IsStrictWeakOrdering
        (byHeight.precedes height naturalOrder incompleteHasNoMetric) ∧
      ∀ a ia b ib,
        effectiveMetric (height byHeight.m_ptrSettings) incompleteHasNoMetric a ia =
          effectiveMetric (height byHeight.m_ptrSettings) incompleteHasNoMetric b ib →
        (byHeight.precedes height naturalOrder incompleteHasNoMetric a ia b ib = true ↔
          naturalOrder a < naturalOrder b)) ∧
    (IsStrictWeakOrdering
        (byDeviation.precedes deviation naturalOrder incompleteHasNoMetric) ∧
      ∀ a ia b ib,
        effectiveMetric (deviation byDeviation.m_deviationProvider) incompleteHasNoMetric a ia =
          effectiveMetric (deviation byDeviation.m_deviationProvider) incompleteHasNoMetric
            b ib →
        (byDeviation.precedes deviation naturalOrder incompleteHasNoMetric a ia b ib = true ↔
          naturalOrder a < naturalOrder b)) :=
  ⟨⟨metricPrecedes_isStrictWeakOrdering _ _ _, fun a ia b ib h =>
      metricPrecedes_tie _ _ _ a ia b ib h⟩,
    ⟨metricPrecedes_isStrictWeakOrdering _ _ _, fun a ia b ib h =>
      metricPrecedes_tie _ _ _ a ia b ib h⟩⟩

/-- Claim C11.  For every receiver and event, `Application::notify` returns the result of
the base dispatch when that completes normally; when the base dispatch raises
`std::bad_alloc` it invokes the out-of-memory handler exactly once and returns false; and
what escapes `notify` is never `std::bad_alloc`. -/
theorem C11_notify_catches_bad_alloc {Rc Ev : Type}
    (baseNotify : Rc → Ev → Except Application.Thrown Bool) (receiver : Rc) (e : Ev)
    (oom : Application.OutOfMemoryHandler) :
    (∀ result, baseNotify receiver e = Except.ok result →
      Application.notify baseNotify receiver e oom = (Except.ok result, oom)) ∧
    (baseNotify receiver e = Except.error Application.Thrown.bad_alloc →
      Application.notify baseNotify receiver e oom = (Except.ok false, ⟨oom.handled + 1⟩)) ∧
    (Application.notify baseNotify receiver e oom).1 ≠
      Except.error Application.Thrown.bad_alloc := by
  refine ⟨fun result h => ?_, fun h => ?_, ?_⟩
  · simp [Application.notify, h]
  · simp [Application.notify, h, Application.OutOfMemoryHandler.handleOutOfMemorySituation]
  · cases h : baseNotify receiver e with
    | ok result => simp [Application.notify, h]
    | error ex =>
      cases ex with
      | bad_alloc => simp [Application.notify, h]
      | other what => simp [Application.notify, h]

/-- Witness of C11 on the sample dispatch: event 0 runs out of memory, the handler is
invoked once and `notify` returns false; event 2 is handled and its result returned. -/
theorem C11_notify_catches_bad_alloc_witness :
    Application.notify Sample.baseNotify () 0 ⟨0⟩ = (Except.ok false, ⟨1⟩) ∧
    Application.notify Sample.baseNotify () 2 ⟨0⟩ = (Except.ok true, ⟨0⟩) :=
  ⟨(C11_notify_catches_bad_alloc Sample.baseNotify () 0 ⟨0⟩).2.1 (by rfl),
    (C11_notify_catches_bad_alloc Sample.baseNotify () 2 ⟨0⟩).1 true (by rfl)⟩

/-- Claim C12.  When a page has no `Params` in the deskew store (`isParamsNull` is true),
`loadDefaultSettings` stores for that page exactly
`Params(default deskew angle, Dependencies(), default mode)` from the defaults provider,
consulting the provider once; on the modelled store the entry of no other page changes.
The provider is consulted only in this case: its call count changes iff `isParamsNull` was
true. -/
theorem C12_loadDefaultSettings_stores_defaults {σ P A D M R : Type}
    (S : deskew.SettingsApi σ P) (pc : deskew.ParamsCtor P A D M) (page_info : PageInfo) :
    (∀ w : σ × DefaultParamsProvider (DefaultParams A M R),
      S.isParamsNull w.1 page_info.id = true →
      deskew.loadDefaultSettings S pc page_info w =
        (S.setPageParams w.1 page_info.id
          (pc.make w.2.params.getDeskewParams.getDeskewAngleDeg pc.noDependencies
            w.2.params.getDeskewParams.getMode),
          ⟨w.2.params, w.2.consulted + 1⟩)) ∧
    (∀ w : deskew.Settings P × DefaultParamsProvider (DefaultParams A M R),
      w.1.isParamsNull page_info.id = true →
      (deskew.loadDefaultSettings (deskew.Settings.api P) pc page_info w).1.getPageParams
          page_info.id =
        some (pc.make w.2.params.getDeskewParams.getDeskewAngleDeg pc.noDependencies
          w.2.params.getDeskewParams.getMode) ∧
      ∀ other, other ≠ page_info.id →
        (deskew.loadDefaultSettings (deskew.Settings.api P) pc page_info w).1.getPageParams
          other = w.1.getPageParams other) ∧
    (∀ w : σ × DefaultParamsProvider (DefaultParams A M R),
      (deskew.loadDefaultSettings S pc page_info w).2.consulted ≠ w.2.consulted ↔
        S.isParamsNull w.1 page_info.id = true) := by
  have hmain : ∀ (τ : Type) (T : deskew.SettingsApi τ P)
      (w : τ × DefaultParamsProvider (DefaultParams A M R)),
      T.isParamsNull w.1 page_info.id = true →
      deskew.loadDefaultSettings T pc page_info w =
        (T.setPageParams w.1 page_info.id
          (pc.make w.2.params.getDeskewParams.getDeskewAngleDeg pc.noDependencies
            w.2.params.getDeskewParams.getMode),
          ⟨w.2.params, w.2.consulted + 1⟩) := by
    intro τ T w h
    simp [deskew.loadDefaultSettings, h, DefaultParamsProvider.getParams]
  refine ⟨hmain σ S, fun w h => ?_, fun w => ?_⟩
  · rw [hmain _ (deskew.Settings.api P) w h]
    constructor
    · exact (deskew.getPageParams_setPageParams w.1 page_info.id page_info.id _).trans
        (if_pos rfl)
    · intro other hne
      exact (deskew.getPageParams_setPageParams w.1 page_info.id other _).trans (if_neg hne)
  · cases h : S.isParamsNull w.1 page_info.id with
    | true =>
      rw [hmain σ S w h]
      simp
    | false => simp [deskew.loadDefaultSettings, h]

/-- Witness of C12 on the sample project: page B has no `Params`, so the defaults (mode
auto) are stored for it and the provider is consulted once. -/
theorem C12_loadDefaultSettings_stores_defaults_witness :
    deskew.loadDefaultSettings (deskew.Settings.api String) Sample.pc ⟨Sample.pageB⟩
        (Sample.store, Sample.provider) =
      (Sample.store.setPageParams Sample.pageB "auto", ⟨Sample.provider.params, 1⟩) :=
  (C12_loadDefaultSettings_stores_defaults (deskew.Settings.api String) Sample.pc
    ⟨Sample.pageB⟩).1 (Sample.store, Sample.provider) (by decide)

/-- Claim C14.  Every unit built by `createTask` / `createCacheDrivenTask` of the deskew
and fix-orientation stages holds the settings pointer of the filter, and the filter keeps
that pointer through `loadSettings` and `loadDefaultSettings`; so what these write through
the filter after the unit was created is what the unit finds behind its pointer.  The next
unit, the page identity (the image id in the fix-orientation stage) and the batch / debug
flags reach the unit unchanged. -/
theorem C14_units_share_filter_settings {σ τ P R A D M W W2 O Φ N N2 : Type}
    (S : deskew.SettingsApi σ P) (px : deskew.ParamsXml P) (pc : deskew.ParamsCtor P A D M)
    (T : fix_orientation.SettingsApi τ R) (rx : fix_orientation.RotationApi R)
    (qs : QStringApi) (f : deskew.Filter SettingsRef W O)
    (g : fix_orientation.Filter SettingsRef W2) (self : Φ) (page_id : PageId)
    (next_task : N) (next_cache_task : N2) (batch_processing debug : Bool)
    (reader : ProjectReader) (filters_el : QDomNode) (page_info : PageInfo)
    (heap : SettingsHeap σ) (rotations : SettingsHeap τ)
    (provider : DefaultParamsProvider (DefaultParams A M R)) :
    ((f.createTask self page_id next_task batch_processing debug).m_ptrSettings =
        f.m_ptrSettings ∧
      (f.createTask self page_id next_task batch_processing debug).m_ptrNextTask = next_task ∧
      (f.createTask self page_id next_task batch_processing debug).m_pageId = page_id ∧
      (f.createTask self page_id next_task batch_processing debug).m_batchProcessing =
        batch_processing ∧
      (f.createTask self page_id next_task batch_processing debug).m_debug = debug ∧
      (f.createCacheDrivenTask next_cache_task).m_ptrSettings = f.m_ptrSettings ∧
      (f.createCacheDrivenTask next_cache_task).m_ptrNextTask = next_cache_task) ∧
    ((deskew.Filter.loadSettings S px qs f reader filters_el heap).1 = f ∧
      (deskew.Filter.loadSettings S px qs f reader filters_el heap).2
          (f.createTask self page_id next_task batch_processing debug).m_ptrSettings =
        deskew.loadSettings S px qs reader filters_el (heap f.m_ptrSettings) ∧
      (deskew.Filter.loadSettings S px qs f reader filters_el heap).2
          (f.createCacheDrivenTask next_cache_task).m_ptrSettings =
        deskew.loadSettings S px qs reader filters_el (heap f.m_ptrSettings) ∧
      (deskew.Filter.loadDefaultSettings S pc f page_info (heap, provider)).1 = f ∧
      (deskew.Filter.loadDefaultSettings S pc f page_info (heap, provider)).2.1
          (f.createTask self page_id next_task batch_processing debug).m_ptrSettings =
        (deskew.loadDefaultSettings S pc page_info (heap f.m_ptrSettings, provider)).1 ∧
      (deskew.Filter.loadDefaultSettings S pc f page_info (heap, provider)).2.1
          (f.createCacheDrivenTask next_cache_task).m_ptrSettings =
        (deskew.loadDefaultSettings S pc page_info (heap f.m_ptrSettings, provider)).1) ∧
    ((g.createTask self page_id next_task batch_processing).m_ptrSettings = g.m_ptrSettings ∧
      (g.createTask self page_id next_task batch_processing).m_ptrNextTask = next_task ∧
      (g.createTask self page_id next_task batch_processing).m_imageId = page_id.imageId ∧
      (g.createTask self page_id next_task batch_processing).m_batchProcessing =
        batch_processing ∧
      (g.createCacheDrivenTask next_cache_task).m_ptrSettings = g.m_ptrSettings ∧
      (g.createCacheDrivenTask next_cache_task).m_ptrNextTask = next_cache_task) ∧
    ((fix_orientation.Filter.loadSettings T rx qs g reader filters_el rotations).1 = g ∧
      (fix_orientation.Filter.loadSettings T rx qs g reader filters_el rotations).2
          (g.createTask self page_id next_task batch_processing).m_ptrSettings =
        fix_orientation.loadSettings T rx qs reader filters_el (rotations g.m_ptrSettings) ∧
      (fix_orientation.Filter.loadSettings T rx qs g reader filters_el rotations).2
          (g.createCacheDrivenTask next_cache_task).m_ptrSettings =
        fix_orientation.loadSettings T rx qs reader filters_el (rotations g.m_ptrSettings) ∧
      (fix_orientation.Filter.loadDefaultSettings T g page_info (rotations, provider)).1 = g ∧
      (fix_orientation.Filter.loadDefaultSettings T g page_info (rotations, provider)).2.1
          (g.createTask self page_id next_task batch_processing).m_ptrSettings =
        (fix_orientation.loadDefaultSettings T page_info
          (rotations g.m_ptrSettings, provider)).1 ∧
      (fix_orientation.Filter.loadDefaultSettings T g page_info (rotations, provider)).2.1
          (g.createCacheDrivenTask next_cache_task).m_ptrSettings =
        (fix_orientation.loadDefaultSettings T page_info
          (rotations g.m_ptrSettings, provider)).1) := by
  refine ⟨⟨rfl, rfl, rfl, rfl, rfl, rfl, rfl⟩, ⟨rfl, ?_, ?_, rfl, ?_, ?_⟩,
    ⟨rfl, rfl, rfl, rfl, rfl, rfl⟩, ⟨rfl, ?_, ?_, rfl, ?_, ?_⟩⟩ <;>
  simp [deskew.Filter.loadSettings, deskew.Filter.loadDefaultSettings,
    fix_orientation.Filter.loadSettings, fix_orientation.Filter.loadDefaultSettings,
    SettingsHeap.mutate, deskew.Filter.createTask, deskew.Filter.createCacheDrivenTask,
    fix_orientation.Filter.createTask, fix_orientation.Filter.createCacheDrivenTask]

/-- Claim C15.  A newly constructed `deskew::Filter` offers exactly two page order options,
in this order: the one named by the text "Natural order" with a null provider, and the one
named by the text "Order by decreasing deviation" with a provider built over the deviation
provider of the settings of the stage itself; `selectedPageOrder()` is 0. -/
theorem C15_constructed_filter_page_order {σ W δ A : Type} (isGui : Bool)
    (tr : String → String) (newSettings : σ) (newOptionsWidget : σ → A → W)
    (deviationProvider : σ → δ) (page_selection_accessor : A) :
    (deskew.Filter.construct isGui tr newSettings newOptionsWidget deviationProvider
        page_selection_accessor).pageOrderOptions =
      [⟨tr "Natural order", none⟩,
        ⟨tr "Order by decreasing deviation",
          some ⟨deviationProvider
            (deskew.Filter.construct isGui tr newSettings newOptionsWidget deviationProvider
              page_selection_accessor).m_ptrSettings⟩⟩] ∧
    (deskew.Filter.construct isGui tr newSettings newOptionsWidget deviationProvider
        page_selection_accessor).pageOrderOptions.length = 2 ∧
    (deskew.Filter.construct isGui tr newSettings newOptionsWidget deviationProvider
        page_selection_accessor).selectedPageOrder = 0 :=
  ⟨rfl, rfl, rfl⟩

/-- Claim C16, evaluated on the code.  A `deskew::Filter` constructed outside GUI mode has
no options widget, and its `preUpdateUI` dereferences the null widget pointer: the call has
no defined result.  The same call on a `fix_orientation::Filter` constructed outside GUI
mode is defined and changes nothing, and in GUI mode both hand the host the widget once with
`KEEP_OWNERSHIP`. -/
theorem C16_deskew_preUpdateUI_dereferences_null {σ τ R W W2 δ A : Type}
    (T : fix_orientation.SettingsApi τ R) (tr : String → String) (newSettings : σ)
    (newRotations : τ) (newOptionsWidget : σ → A → W) (newRotationWidget : τ → A → W2)
    (deviationProvider : σ → δ) (page_selection_accessor : A)
    (widgetPreUpdateUI : W → PageId → W) (rotationWidgetPreUpdateUI : W2 → PageId → R → W2)
    (ui : FilterUiInterface W) (ui2 : FilterUiInterface W2) (page_info : PageInfo) :
    (deskew.Filter.construct false tr newSettings newOptionsWidget deviationProvider
        page_selection_accessor).optionsWidget = none ∧
    deskew.Filter.preUpdateUI widgetPreUpdateUI
        (deskew.Filter.construct false tr newSettings newOptionsWidget deviationProvider
          page_selection_accessor) ui page_info = none ∧
    fix_orientation.Filter.preUpdateUI T rotationWidgetPreUpdateUI
        (fix_orientation.Filter.construct false newRotations newRotationWidget
          page_selection_accessor) newRotations ui2 page_info =
      some (fix_orientation.Filter.construct false newRotations newRotationWidget
        page_selection_accessor, ui2) ∧
    (deskew.Filter.preUpdateUI widgetPreUpdateUI
        (deskew.Filter.construct true tr newSettings newOptionsWidget deviationProvider
          page_selection_accessor) ui page_info).map (fun r => r.2) =
      some (ui ++ [(widgetPreUpdateUI (newOptionsWidget newSettings page_selection_accessor)
        page_info.id, Ownership.KEEP_OWNERSHIP)]) ∧
    (fix_orientation.Filter.preUpdateUI T rotationWidgetPreUpdateUI
        (fix_orientation.Filter.construct true newRotations newRotationWidget
          page_selection_accessor) newRotations ui2 page_info).map (fun r => r.2) =
      some (ui2 ++ [(rotationWidgetPreUpdateUI
        (newRotationWidget newRotations page_selection_accessor) page_info.id
        (T.getRotationFor newRotations page_info.id.imageId), Ownership.KEEP_OWNERSHIP)]) :=
  ⟨rfl, rfl, rfl, rfl, rfl⟩

/-- Counterexample to C17 as stated: pages A and B lie on the same image, yet `preUpdateUI`
of the fix-orientation stage hands the options widget a different page id for each, so it
does not use `page_id.imageId()` only. -/
theorem C17_preUpdateUI_uses_page_id :
    Sample.pageA.imageId = Sample.pageB.imageId ∧
    (fix_orientation.Filter.preUpdateUI (fix_orientation.Settings.api (0 : Int))
        Sample.widgetPreUpdateUI Sample.orientationFilterGui Sample.rotations []
        ⟨Sample.pageA⟩).map (fun r => r.1.m_ptrOptionsWidget) ≠
      (fix_orientation.Filter.preUpdateUI (fix_orientation.Settings.api (0 : Int))
        Sample.widgetPreUpdateUI Sample.orientationFilterGui Sample.rotations []
        ⟨Sample.pageB⟩).map (fun r => r.1.m_ptrOptionsWidget) := by
  constructor
  · decide
  · decide

/-- Claim C17, amended.  For two pages `p` and `q` with the same `ImageId`: `createTask`
builds the same unit for both; `preUpdateUI` for `q` is `preUpdateUI` for `p` except for the
page id it hands the options widget, in particular the rotation shown is the same; and
`loadDefaultSettings` does the same for both, so it changes nothing for `q` once the image
of `p` has a rotation entry. -/
theorem C17_image_scoped {σ τ R A M W Φ N : Type} (S : fix_orientation.SettingsApi σ R)
    (widgetPreUpdateUI : W → PageId → R → W) (f : fix_orientation.Filter τ W) (self : Φ)
    (next_task : N) (batch_processing : Bool) (st : σ) (ui : FilterUiInterface W)
    (w : σ × DefaultParamsProvider (DefaultParams A M R)) (p q : PageId)
    (h : p.imageId = q.imageId) :
    f.createTask self p next_task batch_processing =
      f.createTask self q next_task batch_processing ∧
    (f.createTask self p next_task batch_processing).m_imageId = q.imageId ∧
    fix_orientation.Filter.preUpdateUI S widgetPreUpdateUI f st ui ⟨q⟩ =
      fix_orientation.Filter.preUpdateUI S
        (fun widget _ rotation => widgetPreUpdateUI widget q rotation) f st ui ⟨p⟩ ∧
    S.getRotationFor st p.imageId = S.getRotationFor st q.imageId ∧
    fix_orientation.loadDefaultSettings S ⟨p⟩ w = fix_orientation.loadDefaultSettings S ⟨q⟩ w ∧
    (S.isRotationNull w.1 p.imageId = false →
      fix_orientation.loadDefaultSettings S ⟨q⟩ w = w) := by
  refine ⟨?_, ?_, ?_, ?_, ?_, ?_⟩
  · simp [fix_orientation.Filter.createTask, h]
  · simp [fix_orientation.Filter.createTask, h]
  · simp [fix_orientation.Filter.preUpdateUI, h]
  · rw [h]
  · simp [fix_orientation.loadDefaultSettings, h]
  · intro hnull
    rw [h] at hnull
    simp [fix_orientation.loadDefaultSettings, hnull]

/-- Witness of the amended C17 on the sample project: pages A and B share their image, which
has a rotation entry, so loading defaults for page B changes nothing. -/
theorem C17_image_scoped_witness :
    fix_orientation.loadDefaultSettings (fix_orientation.Settings.api (0 : Int))
        ⟨Sample.pageB⟩ (Sample.rotations, Sample.provider) =
      (Sample.rotations, Sample.provider) :=
  (C17_image_scoped (fix_orientation.Settings.api (0 : Int)) Sample.widgetPreUpdateUI
    Sample.orientationFilterGui () () false Sample.rotations []
    (Sample.rotations, Sample.provider) Sample.pageA Sample.pageB (by decide)).2.2.2.2.2
    (by decide)

namespace select_content

theorem QRectF.minX_of_nonneg (r : QRectF) (h : 0 ≤ r.w) : r.minX = r.xp := by
  unfold QRectF.minX
  rw [if_neg (not_lt.mpr h)]

theorem QRectF.maxX_of_nonneg (r : QRectF) (h : 0 ≤ r.w) : r.maxX = r.xp + r.w := by
  unfold QRectF.maxX
  rw [if_neg (not_lt.mpr h)]

theorem QRectF.minY_of_nonneg (r : QRectF) (h : 0 ≤ r.h) : r.minY = r.yp := by
  unfold QRectF.minY
  rw [if_neg (not_lt.mpr h)]

theorem QRectF.maxY_of_nonneg (r : QRectF) (h : 0 ≤ r.h) : r.maxY = r.yp + r.h := by
  unfold QRectF.maxY
  rw [if_neg (not_lt.mpr h)]

theorem QRectF.minX_mk (x y w h : ℚ) (hw : 0 ≤ w) : (QRectF.mk x y w h).minX = x :=
  QRectF.minX_of_nonneg _ hw

theorem QRectF.maxX_mk (x y w h : ℚ) (hw : 0 ≤ w) : (QRectF.mk x y w h).maxX = x + w :=
  QRectF.maxX_of_nonneg _ hw

theorem QRectF.minY_mk (x y w h : ℚ) (hh : 0 ≤ h) : (QRectF.mk x y w h).minY = y :=
  QRectF.minY_of_nonneg _ hh

theorem QRectF.maxY_mk (x y w h : ℚ) (hh : 0 ≤ h) : (QRectF.mk x y w h).maxY = y + h :=
  QRectF.maxY_of_nonneg _ hh

theorem QRectF.minX_le_maxX (r : QRectF) : r.minX ≤ r.maxX := by
  unfold QRectF.minX QRectF.maxX
  by_cases h : r.w < 0
  · rw [if_pos h, if_pos h]
    linarith
  · rw [if_neg h, if_neg h]
    linarith [not_lt.mp h]

theorem QRectF.minY_le_maxY (r : QRectF) : r.minY ≤ r.maxY := by
  unfold QRectF.minY QRectF.maxY
  by_cases h : r.h < 0
  · rw [if_pos h, if_pos h]
    linarith
  · rw [if_neg h, if_neg h]
    linarith [not_lt.mp h]

theorem QRectF.encloses_refl (r : QRectF) : r.encloses r :=
  ⟨le_refl _, le_refl _, le_refl _, le_refl _⟩

theorem QRectF.united_encloses_right (a b : QRectF) (hb : b.isNull = false) :
    (a.united b).encloses b := by
  unfold QRectF.united
  by_cases ha : a.isNull = true
  · simp only [ha, if_true]
    exact QRectF.encloses_refl b
  · simp only [ha, hb, if_false, Bool.false_eq_true]
    have hx := QRectF.minX_le_maxX b
    have hy := QRectF.minY_le_maxY b
    have h1 : min a.minX b.minX ≤ b.minX := min_le_right _ _
    have h2 : b.maxX ≤ max a.maxX b.maxX := le_max_right _ _
    have h3 : min a.minY b.minY ≤ b.minY := min_le_right _ _
    have h4 : b.maxY ≤ max a.maxY b.maxY := le_max_right _ _
    have hw : 0 ≤ max a.maxX b.maxX - min a.minX b.minX := by linarith
    have hh : 0 ≤ max a.maxY b.maxY - min a.minY b.minY := by linarith
    refine ⟨?_, ?_, ?_, ?_⟩
    · rw [QRectF.minX_of_nonneg
        (⟨min a.minX b.minX, min a.minY b.minY, max a.maxX b.maxX - min a.minX b.minX,
        max a.maxY b.maxY - min a.minY b.minY⟩ : QRectF) hw]
      exact h1
    · rw [QRectF.maxX_of_nonneg
        (⟨min a.minX b.minX, min a.minY b.minY, max a.maxX b.maxX - min a.minX b.minX,
        max a.maxY b.maxY - min a.minY b.minY⟩ : QRectF) hw]
      show b.maxX ≤ min a.minX b.minX + (max a.maxX b.maxX - min a.minX b.minX)
      linarith
    · rw [QRectF.minY_of_nonneg
        (⟨min a.minX b.minX, min a.minY b.minY, max a.maxX b.maxX - min a.minX b.minX,
        max a.maxY b.maxY - min a.minY b.minY⟩ : QRectF) hh]
      exact h3
    · rw [QRectF.maxY_of_nonneg
        (⟨min a.minX b.minX, min a.minY b.minY, max a.maxX b.maxX - min a.minX b.minX,
        max a.maxY b.maxY - min a.minY b.minY⟩ : QRectF) hh]
      show b.maxY ≤ min a.minY b.minY + (max a.maxY b.maxY - min a.minY b.minY)
      linarith

theorem QTransform.mapRect_of_pos (t : QTransform) (h1 : 0 < t.m11) (h2 : 0 < t.m22)
    (r : QRectF) :
    t.mapRect r = ⟨t.m11 * r.minX + t.dx, t.m22 * r.minY + t.dy,
      t.m11 * (r.maxX - r.minX), t.m22 * (r.maxY - r.minY)⟩ := by
  unfold QTransform.mapRect QRectF.minX QRectF.maxX QRectF.minY QRectF.maxY
  by_cases hw : r.w < 0
  · have hw' : t.m11 * r.w < 0 := mul_neg_of_pos_of_neg h1 hw
    by_cases hh : r.h < 0
    · have hh' : t.m22 * r.h < 0 := mul_neg_of_pos_of_neg h2 hh
      simp only [hw, hh, hw', hh', if_true, QRectF.mk.injEq]
      refine ⟨?_, ?_, ?_, ?_⟩ <;> first | trivial | ring
    · have hh' : ¬ t.m22 * r.h < 0 := not_lt.mpr (mul_nonneg h2.le (not_lt.mp hh))
      simp only [hw, hh, hw', hh', if_true, if_false, QRectF.mk.injEq]
      refine ⟨?_, ?_, ?_, ?_⟩ <;> first | trivial | ring
  · have hw' : ¬ t.m11 * r.w < 0 := not_lt.mpr (mul_nonneg h1.le (not_lt.mp hw))
    by_cases hh : r.h < 0
    · have hh' : t.m22 * r.h < 0 := mul_neg_of_pos_of_neg h2 hh
      simp only [hw, hh, hw', hh', if_true, if_false, QRectF.mk.injEq]
      refine ⟨?_, ?_, ?_, ?_⟩ <;> first | trivial | ring
    · have hh' : ¬ t.m22 * r.h < 0 := not_lt.mpr (mul_nonneg h2.le (not_lt.mp hh))
      simp only [hw, hh, hw', hh', if_false, QRectF.mk.injEq]
      refine ⟨?_, ?_, ?_, ?_⟩ <;> first | trivial | ring

theorem QTransform.inverted_pos (t : QTransform) (h1 : 0 < t.m11) (h2 : 0 < t.m22) :
    0 < t.inverted.m11 ∧ 0 < t.inverted.m22 := by
  unfold QTransform.inverted
  exact ⟨one_div_pos.mpr h1, one_div_pos.mpr h2⟩

theorem QTransform.mapRect_inverted_mapRect (t : QTransform) (h1 : 0 < t.m11)
    (h2 : 0 < t.m22) (r : QRectF) (hw : 0 ≤ r.w) (hh : 0 ≤ r.h) :
    t.mapRect (t.inverted.mapRect r) = r := by
  obtain ⟨i1, i2⟩ := t.inverted_pos h1 h2
  rw [QTransform.mapRect_of_pos t.inverted i1 i2 r]
  rw [QTransform.mapRect_of_pos t h1 h2]
  have hw' : 0 ≤ t.inverted.m11 * (r.maxX - r.minX) :=
    mul_nonneg i1.le (sub_nonneg.mpr r.minX_le_maxX)
  have hh' : 0 ≤ t.inverted.m22 * (r.maxY - r.minY) :=
    mul_nonneg i2.le (sub_nonneg.mpr r.minY_le_maxY)
  rw [QRectF.minX_mk _ _ _ _ hw', QRectF.maxX_mk _ _ _ _ hw', QRectF.minY_mk _ _ _ _ hh',
    QRectF.maxY_mk _ _ _ _ hh', QRectF.minX_of_nonneg r hw, QRectF.maxX_of_nonneg r hw,
    QRectF.minY_of_nonneg r hh, QRectF.maxY_of_nonneg r hh]
  have e1 : t.m11 ≠ 0 := ne_of_gt h1
  have e2 : t.m22 ≠ 0 := ne_of_gt h2
  cases r with
  | mk x y w h =>
    simp only [QTransform.inverted, QRectF.mk.injEq]
    refine ⟨?_, ?_, ?_, ?_⟩ <;> field_simp

theorem QTransform.encloses_inverted_mapRect (t : QTransform) (h1 : 0 < t.m11)
    (h2 : 0 < t.m22) (pw c : QRectF) (hw : 0 ≤ pw.w) (hh : 0 ≤ pw.h)
    (hl : pw.xp ≤ (t.mapRect c).xp) (hr : (t.mapRect c).xp + (t.mapRect c).w ≤ pw.xp + pw.w)
    (ht : pw.yp ≤ (t.mapRect c).yp)
    (hb : (t.mapRect c).yp + (t.mapRect c).h ≤ pw.yp + pw.h) :
    (t.inverted.mapRect pw).encloses c := by
  obtain ⟨i1, i2⟩ := t.inverted_pos h1 h2
  rw [QTransform.mapRect_of_pos t h1 h2] at hl hr ht hb
  simp only at hl hr ht hb
  rw [QTransform.mapRect_of_pos t.inverted i1 i2 pw]
  have hw' : 0 ≤ t.inverted.m11 * (pw.maxX - pw.minX) :=
    mul_nonneg i1.le (sub_nonneg.mpr pw.minX_le_maxX)
  have hh' : 0 ≤ t.inverted.m22 * (pw.maxY - pw.minY) :=
    mul_nonneg i2.le (sub_nonneg.mpr pw.minY_le_maxY)
  have e1 : t.m11 ≠ 0 := ne_of_gt h1
  have e2 : t.m22 ≠ 0 := ne_of_gt h2
  unfold QRectF.encloses
  rw [QRectF.minX_mk _ _ _ _ hw', QRectF.maxX_mk _ _ _ _ hw', QRectF.minY_mk _ _ _ _ hh',
    QRectF.maxY_mk _ _ _ _ hh', QRectF.minX_of_nonneg pw hw, QRectF.maxX_of_nonneg pw hw,
    QRectF.minY_of_nonneg pw hh, QRectF.maxY_of_nonneg pw hh]
  simp only [QTransform.inverted]
  refine ⟨?_, ?_, ?_, ?_⟩
  · rw [show 1 / t.m11 * pw.xp + -t.dx / t.m11 = (pw.xp - t.dx) / t.m11 by ring]
    rw [div_le_iff₀ h1]
    linarith
  · rw [show 1 / t.m11 * pw.xp + -t.dx / t.m11 + 1 / t.m11 * (pw.xp + pw.w - pw.xp) =
      (pw.xp + pw.w - t.dx) / t.m11 by ring]
    rw [le_div_iff₀ h1]
    linarith
  · rw [show 1 / t.m22 * pw.yp + -t.dy / t.m22 = (pw.yp - t.dy) / t.m22 by ring]
    rw [div_le_iff₀ h2]
    linarith
  · rw [show 1 / t.m22 * pw.yp + -t.dy / t.m22 + 1 / t.m22 * (pw.yp + pw.h - pw.yp) =
      (pw.yp + pw.h - t.dy) / t.m22 by ring]
    rw [le_div_iff₀ h2]
    linarith

theorem foldl_min_le_foldl_max {α : Type} (f : α → ℚ) (ps : List α) (a b : ℚ) (h : a ≤ b) :
    ps.foldl (fun m q => min m (f q)) a ≤ ps.foldl (fun m q => max m (f q)) b := by
  induction ps generalizing a b with
  | nil => exact h
  | cons p ps ih =>
    simp only [List.foldl_cons]
    exact ih _ _ (le_trans (min_le_left _ _) (le_trans h (le_max_left _ _)))

theorem QPolygonF.boundingRect_nonneg (poly : QPolygonF) :
    0 ≤ (QPolygonF.boundingRect poly).w ∧ 0 ≤ (QPolygonF.boundingRect poly).h := by
  cases poly with
  | nil => exact ⟨le_refl _, le_refl _⟩
  | cons p ps =>
    have hx := foldl_min_le_foldl_max (fun q : QPointF => q.x) ps p.x p.x (le_refl _)
    have hy := foldl_min_le_foldl_max (fun q : QPointF => q.y) ps p.y p.y (le_refl _)
    dsimp only [QPolygonF.boundingRect] at hx hy ⊢
    constructor <;> linarith

theorem ImageView.pageRectAroundContent_spec (v : ImageView) (poly_pos : QPolygonF)
    (hw : v.contentRectPosition.width ≤ (QPolygonF.boundingRect poly_pos).width)
    (hh : v.contentRectPosition.height ≤ (QPolygonF.boundingRect poly_pos).height) :
    (v.pageRectAroundContent poly_pos).w = (QPolygonF.boundingRect poly_pos).w ∧
    (v.pageRectAroundContent poly_pos).h = (QPolygonF.boundingRect poly_pos).h ∧
    (v.pageRectAroundContent poly_pos).xp ≤ (v.virtualToWidget.mapRect v.m_contentRect).xp ∧
    (v.virtualToWidget.mapRect v.m_contentRect).xp +
        (v.virtualToWidget.mapRect v.m_contentRect).w ≤
      (v.pageRectAroundContent poly_pos).xp + (v.pageRectAroundContent poly_pos).w ∧
    (v.pageRectAroundContent poly_pos).yp ≤ (v.virtualToWidget.mapRect v.m_contentRect).yp ∧
    (v.virtualToWidget.mapRect v.m_contentRect).yp +
        (v.virtualToWidget.mapRect v.m_contentRect).h ≤
      (v.pageRectAroundContent poly_pos).yp + (v.pageRectAroundContent poly_pos).h := by
  simp only [ImageView.contentRectPosition, QRectF.width, QRectF.height] at hw hh
  simp only [ImageView.pageRectAroundContent, QRectF.left, QRectF.right, QRectF.top,
    QRectF.bottom, QRectF.translate]
  generalize QPolygonF.boundingRect poly_pos = br at hw hh ⊢
  generalize v.virtualToWidget.mapRect v.m_contentRect = c at hw hh ⊢
  split_ifs <;> (try dsimp only at *) <;> refine ⟨?_, ?_, ?_, ?_, ?_, ?_⟩ <;> linarith

theorem ImageView.contentRectInImage_spec (v : ImageView) (poly_pos : QPolygonF)
    (hw : (QPolygonF.boundingRect poly_pos).width ≤
      (v.virtualToWidget.mapRect v.virtualDisplayRect).width)
    (hh : (QPolygonF.boundingRect poly_pos).height ≤
      (v.virtualToWidget.mapRect v.virtualDisplayRect).height) :
    (v.contentRectInImage poly_pos).w = (QPolygonF.boundingRect poly_pos).w ∧
    (v.contentRectInImage poly_pos).h = (QPolygonF.boundingRect poly_pos).h ∧
    (v.virtualToWidget.mapRect v.virtualDisplayRect).left ≤
      (v.contentRectInImage poly_pos).left ∧
    (v.contentRectInImage poly_pos).right ≤
      (v.virtualToWidget.mapRect v.virtualDisplayRect).right ∧
    (v.virtualToWidget.mapRect v.virtualDisplayRect).top ≤
      (v.contentRectInImage poly_pos).top ∧
    (v.contentRectInImage poly_pos).bottom ≤
      (v.virtualToWidget.mapRect v.virtualDisplayRect).bottom := by
  simp only [QRectF.width, QRectF.height] at hw hh
  simp only [ImageView.contentRectInImage, QRectF.left, QRectF.right, QRectF.top,
    QRectF.bottom, QRectF.translate]
  generalize QPolygonF.boundingRect poly_pos = br at hw hh ⊢
  generalize v.virtualToWidget.mapRect v.virtualDisplayRect = img at hw hh ⊢
  split_ifs <;> (try dsimp only at *) <;> refine ⟨?_, ?_, ?_, ?_, ?_, ?_⟩ <;> linarith

theorem ImageView.contentRectInImage_of_inside (v : ImageView) (poly_pos : QPolygonF)
    (hl : (v.virtualToWidget.mapRect v.virtualDisplayRect).left ≤
      (QPolygonF.boundingRect poly_pos).left)
    (hr : (QPolygonF.boundingRect poly_pos).right ≤
      (v.virtualToWidget.mapRect v.virtualDisplayRect).right)
    (ht : (v.virtualToWidget.mapRect v.virtualDisplayRect).top ≤
      (QPolygonF.boundingRect poly_pos).top)
    (hb : (QPolygonF.boundingRect poly_pos).bottom ≤
      (v.virtualToWidget.mapRect v.virtualDisplayRect).bottom) :
    v.contentRectInImage poly_pos = QPolygonF.boundingRect poly_pos := by
  simp only [ImageView.contentRectInImage, gt_iff_lt, not_lt.mpr hl, not_lt.mpr hr,
    not_lt.mpr ht, not_lt.mpr hb, if_false]

theorem ImageView.forcePageRectDescribeContent_encloses (v : ImageView) :
    v.forcePageRectDescribeContent.pageEnclosesContent := by
  intro hnull
  have hrects : v.forcePageRectDescribeContent.m_contentRect = v.m_contentRect ∧
      v.forcePageRectDescribeContent.m_pageRect = v.m_pageRect.united v.m_contentRect := by
    unfold ImageView.forcePageRectDescribeContent
    simp only [ImageView.withPageRect]
    split_ifs <;> exact ⟨rfl, rfl⟩
  rw [hrects.1] at hnull
  rw [hrects.1, hrects.2]
  exact QRectF.united_encloses_right _ _ hnull

theorem ImageView.forcePageRectDescribeContent_frame (v : ImageView) :
    v.forcePageRectDescribeContent.m_contentRect = v.m_contentRect ∧
    v.forcePageRectDescribeContent.virtualToWidget = v.virtualToWidget ∧
    v.forcePageRectDescribeContent.virtualDisplayRect = v.virtualDisplayRect := by
  unfold ImageView.forcePageRectDescribeContent
  simp only [ImageView.withPageRect]
  split_ifs <;> exact ⟨rfl, rfl, rfl⟩

theorem ImageView.pageRectMoveRequest_encloses (v : ImageView) (poly_pos : QPolygonF)
    (hx : 0 < v.virtualToWidget.m11) (hy : 0 < v.virtualToWidget.m22)
    (hw : v.contentRectPosition.width ≤ (QPolygonF.boundingRect poly_pos).width)
    (hh : v.contentRectPosition.height ≤ (QPolygonF.boundingRect poly_pos).height) :
    (v.pageRectMoveRequest poly_pos).pageEnclosesContent := by
  intro _
  obtain ⟨h1, h2, h3, h4, h5, h6⟩ := v.pageRectAroundContent_spec poly_pos hw hh
  have hcw : 0 ≤ (v.virtualToWidget.mapRect v.m_contentRect).w := by
    rw [QTransform.mapRect_of_pos _ hx hy]
    exact mul_nonneg hx.le (sub_nonneg.mpr (QRectF.minX_le_maxX _))
  have hch : 0 ≤ (v.virtualToWidget.mapRect v.m_contentRect).h := by
    rw [QTransform.mapRect_of_pos _ hx hy]
    exact mul_nonneg hy.le (sub_nonneg.mpr (QRectF.minY_le_maxY _))
  simp only [ImageView.contentRectPosition, QRectF.width, QRectF.height] at hw hh
  exact QTransform.encloses_inverted_mapRect v.virtualToWidget hx hy _ v.m_contentRect
    (by rw [h1]; linarith) (by rw [h2]; linarith) h3 h4 h5 h6

theorem ImageView.contentRectPosition_contentRectMoveRequest (v : ImageView)
    (poly_pos : QPolygonF) (hx : 0 < v.virtualToWidget.m11) (hy : 0 < v.virtualToWidget.m22)
    (hw : (QPolygonF.boundingRect poly_pos).width ≤
      (v.virtualToWidget.mapRect v.virtualDisplayRect).width)
    (hh : (QPolygonF.boundingRect poly_pos).height ≤
      (v.virtualToWidget.mapRect v.virtualDisplayRect).height) :
    (v.contentRectMoveRequest poly_pos).contentRectPosition =
      v.contentRectInImage poly_pos := by
  obtain ⟨h1, h2, _⟩ := v.contentRectInImage_spec poly_pos hw hh
  obtain ⟨b1, b2⟩ := QPolygonF.boundingRect_nonneg poly_pos
  obtain ⟨f1, f2, _⟩ := ImageView.forcePageRectDescribeContent_frame
    (v.withContentRect (v.widgetToVirtual.mapRect (v.contentRectInImage poly_pos)))
  unfold ImageView.contentRectPosition ImageView.contentRectMoveRequest
  simp only []
  rw [f1, f2]
  exact QTransform.mapRect_inverted_mapRect v.virtualToWidget hx hy _
    (by rw [h1]; exact b1) (by rw [h2]; exact b2)

end select_content

/-- Counterexample to C19 as stated.  In a view without a content box whose page box is
small, `createContentBox` creates a content box that the unchanged page box does not
enclose.  And in a view whose page box encloses the content box, `pageRectMoveRequest` with
a requested position smaller than the content box leaves a page box that does not enclose
it. -/
theorem C19_page_box_not_always_enclosing :
    (Sample.viewWithoutContent.pageEnclosesContent ∧
      ¬ Sample.viewWithoutContent.createContentBox.pageEnclosesContent) ∧
    (Sample.view.pageEnclosesContent ∧
      ¬ (Sample.view.pageRectMoveRequest Sample.smallPolygon).pageEnclosesContent) := by
  refine ⟨⟨?_, ?_⟩, ?_, ?_⟩
  · norm_num [Sample.viewWithoutContent, select_content.ImageView.pageEnclosesContent,
      select_content.QRectF.isNull]
  · norm_num [Sample.viewWithoutContent, select_content.ImageView.pageEnclosesContent,
      select_content.ImageView.createContentBox, select_content.ImageView.withContentRect,
      select_content.ImageView.emit, select_content.QRectF.isNull,
      select_content.QRectF.isEmpty, select_content.QRectF.moveCenter,
      select_content.QRectF.center, select_content.QRectF.width,
      select_content.QRectF.height, select_content.QRectF.encloses,
      select_content.QRectF.minX, select_content.QRectF.maxX, select_content.QRectF.minY,
      select_content.QRectF.maxY]
  · norm_num [Sample.view, select_content.ImageView.pageEnclosesContent,
      select_content.QRectF.isNull, select_content.QRectF.encloses,
      select_content.QRectF.minX, select_content.QRectF.maxX, select_content.QRectF.minY,
      select_content.QRectF.maxY]
  · norm_num [Sample.view, Sample.smallPolygon, select_content.ImageView.pageEnclosesContent,
      select_content.ImageView.pageRectMoveRequest,
      select_content.ImageView.pageRectAroundContent, select_content.ImageView.withPageRect,
      select_content.ImageView.widgetToVirtual, select_content.QTransform.inverted,
      select_content.QTransform.mapRect, select_content.QPolygonF.boundingRect,
      select_content.QRectF.translate, select_content.QRectF.left,
      select_content.QRectF.right, select_content.QRectF.top, select_content.QRectF.bottom,
      select_content.QRectF.isNull, select_content.QRectF.encloses,
      select_content.QRectF.minX, select_content.QRectF.maxX, select_content.QRectF.minY,
      select_content.QRectF.maxY]

/-- Claim C19, amended.  The page box encloses the content box (whenever the content
rectangle is not null) after each of `contentRectCornerMoveRequest`,
`contentRectEdgeMoveRequest`, `contentRectMoveRequest`, `pageRectCornerMoveRequest` and
`pageRectEdgeMoveRequest`; after `removeContentBox` and `pageRectSetExternally` if it did
before; and after `pageRectMoveRequest` when the transform is a positive scaling plus
translation and the requested position is at least as wide and as tall as the content box
in widget coordinates.  Nothing is said about `createContentBox`. -/
theorem C19_page_encloses_content (v : select_content.ImageView) :
    (v.pageEnclosesContent → v.removeContentBox.pageEnclosesContent) ∧
    (∀ edge_mask pos, (v.contentRectCornerMoveRequest edge_mask pos).pageEnclosesContent) ∧
    (∀ edge line, (v.contentRectEdgeMoveRequest edge line).pageEnclosesContent) ∧
    (∀ poly_pos, (v.contentRectMoveRequest poly_pos).pageEnclosesContent) ∧
    (∀ edge_mask pos, (v.pageRectCornerMoveRequest edge_mask pos).pageEnclosesContent) ∧
    (∀ edge line, (v.pageRectEdgeMoveRequest edge line).pageEnclosesContent) ∧
    (∀ poly_pos, 0 < v.virtualToWidget.m11 → 0 < v.virtualToWidget.m22 →
      v.contentRectPosition.width ≤ (select_content.QPolygonF.boundingRect poly_pos).width →
      v.contentRectPosition.height ≤ (select_content.QPolygonF.boundingRect poly_pos).height →
      (v.pageRectMoveRequest poly_pos).pageEnclosesContent) ∧
    (∀ pageRect, v.pageEnclosesContent → (v.pageRectSetExternally pageRect).pageEnclosesContent) := by
  refine ⟨?_, ?_, ?_, ?_, ?_, ?_, ?_, ?_⟩
  · intro h
    unfold select_content.ImageView.removeContentBox
    split_ifs
    · exact h
    · exact h
    · intro hnull
      simp [select_content.ImageView.emit, select_content.ImageView.withContentRect,
        select_content.QRectF.isNull] at hnull
  · intro edge_mask pos
    exact select_content.ImageView.forcePageRectDescribeContent_encloses _
  · intro edge line
    exact select_content.ImageView.forcePageRectDescribeContent_encloses _
  · intro poly_pos
    exact select_content.ImageView.forcePageRectDescribeContent_encloses _
  · intro edge_mask pos
    exact select_content.ImageView.forcePageRectDescribeContent_encloses _
  · intro edge line
    exact select_content.ImageView.forcePageRectDescribeContent_encloses _
  · intro poly_pos hx hy hw hh
    exact select_content.ImageView.pageRectMoveRequest_encloses v poly_pos hx hy hw hh
  · intro pageRect h
    unfold select_content.ImageView.pageRectSetExternally
    split_ifs
    · exact h
    · exact select_content.ImageView.forcePageRectDescribeContent_encloses _

/-- Witness of the amended C19 on the sample view: dragging the page box, at its own size,
off to the lower right leaves a page box that encloses the content box, and so does
removing the content box. -/
theorem C19_page_encloses_content_witness :
    (Sample.view.pageRectMoveRequest Sample.draggedPagePolygon).pageEnclosesContent ∧
    Sample.view.removeContentBox.pageEnclosesContent ∧
    (Sample.view.pageRectSetExternally ⟨0, 0, 5, 5⟩).pageEnclosesContent :=
  ⟨(C19_page_encloses_content Sample.view).2.2.2.2.2.2.1 Sample.draggedPagePolygon
      (by norm_num [Sample.view]) (by norm_num [Sample.view])
      (by norm_num [Sample.view, Sample.draggedPagePolygon,
        select_content.ImageView.contentRectPosition, select_content.QTransform.mapRect,
        select_content.QPolygonF.boundingRect, select_content.QRectF.width])
      (by norm_num [Sample.view, Sample.draggedPagePolygon,
        select_content.ImageView.contentRectPosition, select_content.QTransform.mapRect,
        select_content.QPolygonF.boundingRect, select_content.QRectF.height]),
    (C19_page_encloses_content Sample.view).1
      (by norm_num [Sample.view, select_content.ImageView.pageEnclosesContent,
        select_content.QRectF.isNull, select_content.QRectF.encloses,
        select_content.QRectF.minX, select_content.QRectF.maxX, select_content.QRectF.minY,
        select_content.QRectF.maxY]),
    (C19_page_encloses_content Sample.view).2.2.2.2.2.2.2 ⟨0, 0, 5, 5⟩
      (by norm_num [Sample.view, select_content.ImageView.pageEnclosesContent,
        select_content.QRectF.isNull, select_content.QRectF.encloses,
        select_content.QRectF.minX, select_content.QRectF.maxX, select_content.QRectF.minY,
        select_content.QRectF.maxY])⟩

/-- Claim C20.  `contentRectMoveRequest` keeps a dragged content box inside the image.  With
a positive scaling plus translation between virtual and widget coordinates, and a requested
position whose bounding rectangle is no wider and no taller than the displayed image
rectangle, the rectangle stored, seen in widget coordinates (`contentRectPosition()`), has
the width and height of the requested one and lies within the image rectangle; a requested
rectangle already inside the image is stored unmoved. -/
theorem C20_contentRectMoveRequest_inside_image (v : select_content.ImageView)
    (poly_pos : select_content.QPolygonF)
    (hx : 0 < v.virtualToWidget.m11) (hy : 0 < v.virtualToWidget.m22)
    (hw : (select_content.QPolygonF.boundingRect poly_pos).width ≤
      (v.virtualToWidget.mapRect v.virtualDisplayRect).width)
    (hh : (select_content.QPolygonF.boundingRect poly_pos).height ≤
      (v.virtualToWidget.mapRect v.virtualDisplayRect).height) :
    (v.contentRectMoveRequest poly_pos).contentRectPosition.width =
      (select_content.QPolygonF.boundingRect poly_pos).width ∧
    (v.contentRectMoveRequest poly_pos).contentRectPosition.height =
      (select_content.QPolygonF.boundingRect poly_pos).height ∧
    (v.virtualToWidget.mapRect v.virtualDisplayRect).left ≤
      (v.contentRectMoveRequest poly_pos).contentRectPosition.left ∧
    (v.contentRectMoveRequest poly_pos).contentRectPosition.right ≤
      (v.virtualToWidget.mapRect v.virtualDisplayRect).right ∧
    (v.virtualToWidget.mapRect v.virtualDisplayRect).top ≤
      (v.contentRectMoveRequest poly_pos).contentRectPosition.top ∧
    (v.contentRectMoveRequest poly_pos).contentRectPosition.bottom ≤
      (v.virtualToWidget.mapRect v.virtualDisplayRect).bottom ∧
    ((v.virtualToWidget.mapRect v.virtualDisplayRect).left ≤
        (select_content.QPolygonF.boundingRect poly_pos).left →
      (select_content.QPolygonF.boundingRect poly_pos).right ≤
        (v.virtualToWidget.mapRect v.virtualDisplayRect).right →
      (v.virtualToWidget.mapRect v.virtualDisplayRect).top ≤
        (select_content.QPolygonF.boundingRect poly_pos).top →
      (select_content.QPolygonF.boundingRect poly_pos).bottom ≤
        (v.virtualToWidget.mapRect v.virtualDisplayRect).bottom →
      (v.contentRectMoveRequest poly_pos).contentRectPosition =
        select_content.QPolygonF.boundingRect poly_pos) := by
  rw [select_content.ImageView.contentRectPosition_contentRectMoveRequest v poly_pos hx hy
    hw hh]
  obtain ⟨h1, h2, h3, h4, h5, h6⟩ := v.contentRectInImage_spec poly_pos hw hh
  exact ⟨h1, h2, h3, h4, h5, h6, fun hl hr ht hb =>
    v.contentRectInImage_of_inside poly_pos hl hr ht hb⟩

/-- Witness of C20 on the sample view: a content box dragged beyond the left and top border
of the image is stored at the left top corner of the image, at its own size. -/
theorem C20_contentRectMoveRequest_inside_image_witness :
    (Sample.view.contentRectMoveRequest Sample.draggedContentPolygon).contentRectPosition.width
      = (select_content.QPolygonF.boundingRect Sample.draggedContentPolygon).width ∧
    (Sample.view.virtualToWidget.mapRect Sample.view.virtualDisplayRect).left ≤
      (Sample.view.contentRectMoveRequest
        Sample.draggedContentPolygon).contentRectPosition.left :=
  ⟨(C20_contentRectMoveRequest_inside_image Sample.view Sample.draggedContentPolygon
      (by norm_num [Sample.view]) (by norm_num [Sample.view])
      (by norm_num [Sample.view, Sample.draggedContentPolygon,
        select_content.QTransform.mapRect, select_content.QPolygonF.boundingRect,
        select_content.QRectF.width])
      (by norm_num [Sample.view, Sample.draggedContentPolygon,
        select_content.QTransform.mapRect, select_content.QPolygonF.boundingRect,
        select_content.QRectF.height])).1,
    (C20_contentRectMoveRequest_inside_image Sample.view Sample.draggedContentPolygon
      (by norm_num [Sample.view]) (by norm_num [Sample.view])
      (by norm_num [Sample.view, Sample.draggedContentPolygon,
        select_content.QTransform.mapRect, select_content.QPolygonF.boundingRect,
        select_content.QRectF.width])
      (by norm_num [Sample.view, Sample.draggedContentPolygon,
        select_content.QTransform.mapRect, select_content.QPolygonF.boundingRect,
        select_content.QRectF.height])).2.2.1⟩


namespace select_content

theorem ImageView.moveEdges_TOP (v : ImageView) (r : QRectF) (pos : QPointF) :
    (v.moveEdges r TOP pos).xp = r.xp ∧ (v.moveEdges r TOP pos).w = r.w ∧
      v.m_minBoxSize.height ≤ (v.moveEdges r TOP pos).h := by
  simp only [ImageView.moveEdges, TOP, if_true, if_false, Bool.false_eq_true, QRectF.setTop,
    QRectF.bottom, true_and]
  have := min_le_right pos.y (r.yp + r.h - v.m_minBoxSize.height)
  linarith

theorem ImageView.moveEdges_BOTTOM (v : ImageView) (r : QRectF) (pos : QPointF) :
    (v.moveEdges r BOTTOM pos).xp = r.xp ∧ (v.moveEdges r BOTTOM pos).w = r.w ∧
      v.m_minBoxSize.height ≤ (v.moveEdges r BOTTOM pos).h := by
  simp only [ImageView.moveEdges, BOTTOM, if_true, if_false, Bool.false_eq_true,
    QRectF.setBottom, QRectF.top, true_and]
  have := le_max_right pos.y (r.yp + v.m_minBoxSize.height)
  linarith

theorem ImageView.moveEdges_LEFT (v : ImageView) (r : QRectF) (pos : QPointF) :
    (v.moveEdges r LEFT pos).yp = r.yp ∧ (v.moveEdges r LEFT pos).h = r.h ∧
      v.m_minBoxSize.width ≤ (v.moveEdges r LEFT pos).w := by
  simp only [ImageView.moveEdges, LEFT, if_true, if_false, Bool.false_eq_true, QRectF.setLeft,
    QRectF.right, true_and]
  have := min_le_right pos.x (r.xp + r.w - v.m_minBoxSize.width)
  linarith

theorem ImageView.moveEdges_RIGHT (v : ImageView) (r : QRectF) (pos : QPointF) :
    (v.moveEdges r RIGHT pos).yp = r.yp ∧ (v.moveEdges r RIGHT pos).h = r.h ∧
      v.m_minBoxSize.width ≤ (v.moveEdges r RIGHT pos).w := by
  simp only [ImageView.moveEdges, RIGHT, if_true, if_false, Bool.false_eq_true,
    QRectF.setRight, QRectF.left, true_and]
  have := le_max_right pos.x (r.xp + v.m_minBoxSize.width)
  linarith

theorem ImageView.forceInsideImage_TOP (v : ImageView) (r : QRectF) :
    (v.forceInsideImage r TOP).xp = r.xp ∧ (v.forceInsideImage r TOP).w = r.w ∧
      (v.m_minBoxSize.height ≤ r.h → v.m_minBoxSize.height ≤ (v.forceInsideImage r TOP).h) ∧
      (v.virtualToWidget.mapRect v.virtualDisplayRect).top ≤ (v.forceInsideImage r TOP).top := by
  simp only [ImageView.forceInsideImage, TOP, Bool.false_and, Bool.true_and, if_false,
    Bool.false_eq_true, decide_eq_true_eq, QRectF.setTop, QRectF.setBottom, QRectF.top,
    QRectF.bottom]
  split_ifs with h
  · have := le_max_right ((v.virtualToWidget.mapRect v.virtualDisplayRect).yp +
      (r.h - ((v.virtualToWidget.mapRect v.virtualDisplayRect).yp - r.yp)))
      ((v.virtualToWidget.mapRect v.virtualDisplayRect).yp + v.m_minBoxSize.height)
    refine ⟨rfl, rfl, fun _ => ?_, le_refl _⟩
    dsimp only
    linarith
  · exact ⟨rfl, rfl, fun hh => hh, not_lt.mp h⟩

theorem ImageView.forceInsideImage_BOTTOM (v : ImageView) (r : QRectF) :
    (v.forceInsideImage r BOTTOM).xp = r.xp ∧ (v.forceInsideImage r BOTTOM).w = r.w ∧
      (v.m_minBoxSize.height ≤ r.h →
        v.m_minBoxSize.height ≤ (v.forceInsideImage r BOTTOM).h) ∧
      (v.forceInsideImage r BOTTOM).bottom ≤
        (v.virtualToWidget.mapRect v.virtualDisplayRect).bottom := by
  simp only [ImageView.forceInsideImage, BOTTOM, Bool.false_and, Bool.true_and, if_false,
    Bool.false_eq_true, decide_eq_true_eq, gt_iff_lt, QRectF.setTop, QRectF.setBottom,
    QRectF.top, QRectF.bottom]
  split_ifs with h
  · have := min_le_right r.yp (r.yp + ((v.virtualToWidget.mapRect v.virtualDisplayRect).yp +
      (v.virtualToWidget.mapRect v.virtualDisplayRect).h - r.yp) - v.m_minBoxSize.height)
    refine ⟨rfl, rfl, fun _ => ?_, ?_⟩ <;> dsimp only <;> linarith
  · exact ⟨rfl, rfl, fun hh => hh, not_lt.mp h⟩

theorem ImageView.forceInsideImage_LEFT (v : ImageView) (r : QRectF) :
    (v.forceInsideImage r LEFT).yp = r.yp ∧ (v.forceInsideImage r LEFT).h = r.h ∧
      (v.m_minBoxSize.width ≤ r.w → v.m_minBoxSize.width ≤ (v.forceInsideImage r LEFT).w) ∧
      (v.virtualToWidget.mapRect v.virtualDisplayRect).left ≤
        (v.forceInsideImage r LEFT).left := by
  simp only [ImageView.forceInsideImage, LEFT, Bool.false_and, Bool.true_and, if_false,
    Bool.false_eq_true, decide_eq_true_eq, QRectF.setLeft, QRectF.setRight, QRectF.left,
    QRectF.right]
  split_ifs with h
  · have := le_max_right ((v.virtualToWidget.mapRect v.virtualDisplayRect).xp +
      (r.w - ((v.virtualToWidget.mapRect v.virtualDisplayRect).xp - r.xp)))
      ((v.virtualToWidget.mapRect v.virtualDisplayRect).xp + v.m_minBoxSize.width)
    refine ⟨rfl, rfl, fun _ => ?_, le_refl _⟩
    dsimp only
    linarith
  · exact ⟨rfl, rfl, fun hh => hh, not_lt.mp h⟩

theorem ImageView.forceInsideImage_RIGHT (v : ImageView) (r : QRectF) :
    (v.forceInsideImage r RIGHT).yp = r.yp ∧ (v.forceInsideImage r RIGHT).h = r.h ∧
      (v.m_minBoxSize.width ≤ r.w → v.m_minBoxSize.width ≤ (v.forceInsideImage r RIGHT).w) ∧
      (v.forceInsideImage r RIGHT).right ≤
        (v.virtualToWidget.mapRect v.virtualDisplayRect).right := by
  simp only [ImageView.forceInsideImage, RIGHT, Bool.false_and, Bool.true_and, if_false,
    Bool.false_eq_true, decide_eq_true_eq, gt_iff_lt, QRectF.setLeft, QRectF.setRight,
    QRectF.left, QRectF.right]
  split_ifs with h
  · have := min_le_right r.xp (r.xp + ((v.virtualToWidget.mapRect v.virtualDisplayRect).xp +
      (v.virtualToWidget.mapRect v.virtualDisplayRect).w - r.xp) - v.m_minBoxSize.width)
    refine ⟨rfl, rfl, fun _ => ?_, ?_⟩ <;> dsimp only <;> linarith
  · exact ⟨rfl, rfl, fun hh => hh, not_lt.mp h⟩

end select_content

namespace select_content

theorem ImageView.contentRectDragged_TOP_LEFT (v : ImageView) (pos : QPointF) :
    ((TOP.or LEFT).top = true ∨ (TOP.or LEFT).bottom = true → v.m_minBoxSize.height ≤ (v.contentRectDragged (TOP.or LEFT) pos).height) ∧
    ((TOP.or LEFT).left = true ∨ (TOP.or LEFT).right = true → v.m_minBoxSize.width ≤ (v.contentRectDragged (TOP.or LEFT) pos).width) ∧
    ((TOP.or LEFT).top = true → (v.virtualToWidget.mapRect v.virtualDisplayRect).top ≤ (v.contentRectDragged (TOP.or LEFT) pos).top) ∧
    ((TOP.or LEFT).bottom = true → (v.contentRectDragged (TOP.or LEFT) pos).bottom ≤ (v.virtualToWidget.mapRect v.virtualDisplayRect).bottom) ∧
    ((TOP.or LEFT).left = true → (v.virtualToWidget.mapRect v.virtualDisplayRect).left ≤ (v.contentRectDragged (TOP.or LEFT) pos).left) ∧
    ((TOP.or LEFT).right = true → (v.contentRectDragged (TOP.or LEFT) pos).right ≤ (v.virtualToWidget.mapRect v.virtualDisplayRect).right) ∧
    ((TOP.or LEFT).top = false ∧ (TOP.or LEFT).bottom = false →
      (v.contentRectDragged (TOP.or LEFT) pos).yp = (v.virtualToWidget.mapRect v.m_contentRect).yp ∧
      (v.contentRectDragged (TOP.or LEFT) pos).h = (v.virtualToWidget.mapRect v.m_contentRect).h) ∧
    ((TOP.or LEFT).left = false ∧ (TOP.or LEFT).right = false →
      (v.contentRectDragged (TOP.or LEFT) pos).xp = (v.virtualToWidget.mapRect v.m_contentRect).xp ∧
      (v.contentRectDragged (TOP.or LEFT) pos).w = (v.virtualToWidget.mapRect v.m_contentRect).w) := by
  have hr : v.contentRectDragged (TOP.or LEFT) pos =
      v.forceInsideImage (v.forceInsideImage (v.moveEdges (v.moveEdges
        (v.virtualToWidget.mapRect v.m_contentRect) TOP pos) LEFT pos) LEFT) TOP := rfl
  obtain ⟨mv1, mv2, mv3⟩ := v.moveEdges_TOP (v.virtualToWidget.mapRect v.m_contentRect) pos
  obtain ⟨mh1, mh2, mh3⟩ := v.moveEdges_LEFT (v.moveEdges (v.virtualToWidget.mapRect v.m_contentRect) TOP pos) pos
  obtain ⟨fh1, fh2, fh3, fh4⟩ := v.forceInsideImage_LEFT
    (v.moveEdges (v.moveEdges (v.virtualToWidget.mapRect v.m_contentRect) TOP pos) LEFT pos)
  obtain ⟨fv1, fv2, fv3, fv4⟩ := v.forceInsideImage_TOP (v.forceInsideImage
    (v.moveEdges (v.moveEdges (v.virtualToWidget.mapRect v.m_contentRect) TOP pos) LEFT pos) LEFT)
  rw [hr]
  refine ⟨?_, ?_, ?_, ?_, ?_, ?_, ?_, ?_⟩
  · exact fun _ => fv3 (by rw [fh2, mh2]; exact mv3)
  · exact fun _ => by
      show _ ≤ QRectF.w _
      rw [fv2]
      exact fh3 mh3
  · exact fun _ => fv4
  · exact fun h => absurd h (by decide)
  · exact fun _ => by
      show _ ≤ QRectF.xp _
      rw [fv1]
      exact fh4
  · exact fun h => absurd h (by decide)
  · exact fun h => absurd h.1 (by decide)
  · exact fun h => absurd h.1 (by decide)

theorem ImageView.contentRectDragged_TOP_RIGHT (v : ImageView) (pos : QPointF) :
    ((TOP.or RIGHT).top = true ∨ (TOP.or RIGHT).bottom = true → v.m_minBoxSize.height ≤ (v.contentRectDragged (TOP.or RIGHT) pos).height) ∧
    ((TOP.or RIGHT).left = true ∨ (TOP.or RIGHT).right = true → v.m_minBoxSize.width ≤ (v.contentRectDragged (TOP.or RIGHT) pos).width) ∧
    ((TOP.or RIGHT).top = true → (v.virtualToWidget.mapRect v.virtualDisplayRect).top ≤ (v.contentRectDragged (TOP.or RIGHT) pos).top) ∧
    ((TOP.or RIGHT).bottom = true → (v.contentRectDragged (TOP.or RIGHT) pos).bottom ≤ (v.virtualToWidget.mapRect v.virtualDisplayRect).bottom) ∧
    ((TOP.or RIGHT).left = true → (v.virtualToWidget.mapRect v.virtualDisplayRect).left ≤ (v.contentRectDragged (TOP.or RIGHT) pos).left) ∧
    ((TOP.or RIGHT).right = true → (v.contentRectDragged (TOP.or RIGHT) pos).right ≤ (v.virtualToWidget.mapRect v.virtualDisplayRect).right) ∧
    ((TOP.or RIGHT).top = false ∧ (TOP.or RIGHT).bottom = false →
      (v.contentRectDragged (TOP.or RIGHT) pos).yp = (v.virtualToWidget.mapRect v.m_contentRect).yp ∧
      (v.contentRectDragged (TOP.or RIGHT) pos).h = (v.virtualToWidget.mapRect v.m_contentRect).h) ∧
    ((TOP.or RIGHT).left = false ∧ (TOP.or RIGHT).right = false →
      (v.contentRectDragged (TOP.or RIGHT) pos).xp = (v.virtualToWidget.mapRect v.m_contentRect).xp ∧
      (v.contentRectDragged (TOP.or RIGHT) pos).w = (v.virtualToWidget.mapRect v.m_contentRect).w) := by
  have hr : v.contentRectDragged (TOP.or RIGHT) pos =
      v.forceInsideImage (v.forceInsideImage (v.moveEdges (v.moveEdges
        (v.virtualToWidget.mapRect v.m_contentRect) TOP pos) RIGHT pos) RIGHT) TOP := rfl
  obtain ⟨mv1, mv2, mv3⟩ := v.moveEdges_TOP (v.virtualToWidget.mapRect v.m_contentRect) pos
  obtain ⟨mh1, mh2, mh3⟩ := v.moveEdges_RIGHT (v.moveEdges (v.virtualToWidget.mapRect v.m_contentRect) TOP pos) pos
  obtain ⟨fh1, fh2, fh3, fh4⟩ := v.forceInsideImage_RIGHT
    (v.moveEdges (v.moveEdges (v.virtualToWidget.mapRect v.m_contentRect) TOP pos) RIGHT pos)
  obtain ⟨fv1, fv2, fv3, fv4⟩ := v.forceInsideImage_TOP (v.forceInsideImage
    (v.moveEdges (v.moveEdges (v.virtualToWidget.mapRect v.m_contentRect) TOP pos) RIGHT pos) RIGHT)
  rw [hr]
  refine ⟨?_, ?_, ?_, ?_, ?_, ?_, ?_, ?_⟩
  · exact fun _ => fv3 (by rw [fh2, mh2]; exact mv3)
  · exact fun _ => by
      show _ ≤ QRectF.w _
      rw [fv2]
      exact fh3 mh3
  · exact fun _ => fv4
  · exact fun h => absurd h (by decide)
  · exact fun h => absurd h (by decide)
  · exact fun _ => by
      show QRectF.xp _ + QRectF.w _ ≤ _
      rw [fv1, fv2]
      exact fh4
  · exact fun h => absurd h.1 (by decide)
  · exact fun h => absurd h.2 (by decide)

theorem ImageView.contentRectDragged_BOTTOM_RIGHT (v : ImageView) (pos : QPointF) :
    ((BOTTOM.or RIGHT).top = true ∨ (BOTTOM.or RIGHT).bottom = true → v.m_minBoxSize.height ≤ (v.contentRectDragged (BOTTOM.or RIGHT) pos).height) ∧
    ((BOTTOM.or RIGHT).left = true ∨ (BOTTOM.or RIGHT).right = true → v.m_minBoxSize.width ≤ (v.contentRectDragged (BOTTOM.or RIGHT) pos).width) ∧
    ((BOTTOM.or RIGHT).top = true → (v.virtualToWidget.mapRect v.virtualDisplayRect).top ≤ (v.contentRectDragged (BOTTOM.or RIGHT) pos).top) ∧
    ((BOTTOM.or RIGHT).bottom = true → (v.contentRectDragged (BOTTOM.or RIGHT) pos).bottom ≤ (v.virtualToWidget.mapRect v.virtualDisplayRect).bottom) ∧
    ((BOTTOM.or RIGHT).left = true → (v.virtualToWidget.mapRect v.virtualDisplayRect).left ≤ (v.contentRectDragged (BOTTOM.or RIGHT) pos).left) ∧
    ((BOTTOM.or RIGHT).right = true → (v.contentRectDragged (BOTTOM.or RIGHT) pos).right ≤ (v.virtualToWidget.mapRect v.virtualDisplayRect).right) ∧
    ((BOTTOM.or RIGHT).top = false ∧ (BOTTOM.or RIGHT).bottom = false →
      (v.contentRectDragged (BOTTOM.or RIGHT) pos).yp = (v.virtualToWidget.mapRect v.m_contentRect).yp ∧
      (v.contentRectDragged (BOTTOM.or RIGHT) pos).h = (v.virtualToWidget.mapRect v.m_contentRect).h) ∧
    ((BOTTOM.or RIGHT).left = false ∧ (BOTTOM.or RIGHT).right = false →
      (v.contentRectDragged (BOTTOM.or RIGHT) pos).xp = (v.virtualToWidget.mapRect v.m_contentRect).xp ∧
      (v.contentRectDragged (BOTTOM.or RIGHT) pos).w = (v.virtualToWidget.mapRect v.m_contentRect).w) := by
  have hr : v.contentRectDragged (BOTTOM.or RIGHT) pos =
      v.forceInsideImage (v.forceInsideImage (v.moveEdges (v.moveEdges
        (v.virtualToWidget.mapRect v.m_contentRect) BOTTOM pos) RIGHT pos) RIGHT) BOTTOM := rfl
  obtain ⟨mv1, mv2, mv3⟩ := v.moveEdges_BOTTOM (v.virtualToWidget.mapRect v.m_contentRect) pos
  obtain ⟨mh1, mh2, mh3⟩ := v.moveEdges_RIGHT (v.moveEdges (v.virtualToWidget.mapRect v.m_contentRect) BOTTOM pos) pos
  obtain ⟨fh1, fh2, fh3, fh4⟩ := v.forceInsideImage_RIGHT
    (v.moveEdges (v.moveEdges (v.virtualToWidget.mapRect v.m_contentRect) BOTTOM pos) RIGHT pos)
  obtain ⟨fv1, fv2, fv3, fv4⟩ := v.forceInsideImage_BOTTOM (v.forceInsideImage
    (v.moveEdges (v.moveEdges (v.virtualToWidget.mapRect v.m_contentRect) BOTTOM pos) RIGHT pos) RIGHT)
  rw [hr]
  refine ⟨?_, ?_, ?_, ?_, ?_, ?_, ?_, ?_⟩
  · exact fun _ => fv3 (by rw [fh2, mh2]; exact mv3)
  · exact fun _ => by
      show _ ≤ QRectF.w _
      rw [fv2]
      exact fh3 mh3
  · exact fun h => absurd h (by decide)
  · exact fun _ => fv4
  · exact fun h => absurd h (by decide)
  · exact fun _ => by
      show QRectF.xp _ + QRectF.w _ ≤ _
      rw [fv1, fv2]
      exact fh4
  · exact fun h => absurd h.2 (by decide)
  · exact fun h => absurd h.2 (by decide)

theorem ImageView.contentRectDragged_BOTTOM_LEFT (v : ImageView) (pos : QPointF) :
    ((BOTTOM.or LEFT).top = true ∨ (BOTTOM.or LEFT).bottom = true → v.m_minBoxSize.height ≤ (v.contentRectDragged (BOTTOM.or LEFT) pos).height) ∧
    ((BOTTOM.or LEFT).left = true ∨ (BOTTOM.or LEFT).right = true → v.m_minBoxSize.width ≤ (v.contentRectDragged (BOTTOM.or LEFT) pos).width) ∧
    ((BOTTOM.or LEFT).top = true → (v.virtualToWidget.mapRect v.virtualDisplayRect).top ≤ (v.contentRectDragged (BOTTOM.or LEFT) pos).top) ∧
    ((BOTTOM.or LEFT).bottom = true → (v.contentRectDragged (BOTTOM.or LEFT) pos).bottom ≤ (v.virtualToWidget.mapRect v.virtualDisplayRect).bottom) ∧
    ((BOTTOM.or LEFT).left = true → (v.virtualToWidget.mapRect v.virtualDisplayRect).left ≤ (v.contentRectDragged (BOTTOM.or LEFT) pos).left) ∧
    ((BOTTOM.or LEFT).right = true → (v.contentRectDragged (BOTTOM.or LEFT) pos).right ≤ (v.virtualToWidget.mapRect v.virtualDisplayRect).right) ∧
    ((BOTTOM.or LEFT).top = false ∧ (BOTTOM.or LEFT).bottom = false →
      (v.contentRectDragged (BOTTOM.or LEFT) pos).yp = (v.virtualToWidget.mapRect v.m_contentRect).yp ∧
      (v.contentRectDragged (BOTTOM.or LEFT) pos).h = (v.virtualToWidget.mapRect v.m_contentRect).h) ∧
    ((BOTTOM.or LEFT).left = false ∧ (BOTTOM.or LEFT).right = false →
      (v.contentRectDragged (BOTTOM.or LEFT) pos).xp = (v.virtualToWidget.mapRect v.m_contentRect).xp ∧
      (v.contentRectDragged (BOTTOM.or LEFT) pos).w = (v.virtualToWidget.mapRect v.m_contentRect).w) := by
  have hr : v.contentRectDragged (BOTTOM.or LEFT) pos =
      v.forceInsideImage (v.forceInsideImage (v.moveEdges (v.moveEdges
        (v.virtualToWidget.mapRect v.m_contentRect) BOTTOM pos) LEFT pos) LEFT) BOTTOM := rfl
  obtain ⟨mv1, mv2, mv3⟩ := v.moveEdges_BOTTOM (v.virtualToWidget.mapRect v.m_contentRect) pos
  obtain ⟨mh1, mh2, mh3⟩ := v.moveEdges_LEFT (v.moveEdges (v.virtualToWidget.mapRect v.m_contentRect) BOTTOM pos) pos
  obtain ⟨fh1, fh2, fh3, fh4⟩ := v.forceInsideImage_LEFT
    (v.moveEdges (v.moveEdges (v.virtualToWidget.mapRect v.m_contentRect) BOTTOM pos) LEFT pos)
  obtain ⟨fv1, fv2, fv3, fv4⟩ := v.forceInsideImage_BOTTOM (v.forceInsideImage
    (v.moveEdges (v.moveEdges (v.virtualToWidget.mapRect v.m_contentRect) BOTTOM pos) LEFT pos) LEFT)
  rw [hr]
  refine ⟨?_, ?_, ?_, ?_, ?_, ?_, ?_, ?_⟩
  · exact fun _ => fv3 (by rw [fh2, mh2]; exact mv3)
  · exact fun _ => by
      show _ ≤ QRectF.w _
      rw [fv2]
      exact fh3 mh3
  · exact fun h => absurd h (by decide)
  · exact fun _ => fv4
  · exact fun _ => by
      show _ ≤ QRectF.xp _
      rw [fv1]
      exact fh4
  · exact fun h => absurd h (by decide)
  · exact fun h => absurd h.2 (by decide)
  · exact fun h => absurd h.1 (by decide)

theorem ImageView.contentRectDragged_TOP (v : ImageView) (pos : QPointF) :
    (TOP.top = true ∨ TOP.bottom = true → v.m_minBoxSize.height ≤ (v.contentRectDragged TOP pos).height) ∧
    (TOP.left = true ∨ TOP.right = true → v.m_minBoxSize.width ≤ (v.contentRectDragged TOP pos).width) ∧
    (TOP.top = true → (v.virtualToWidget.mapRect v.virtualDisplayRect).top ≤ (v.contentRectDragged TOP pos).top) ∧
    (TOP.bottom = true → (v.contentRectDragged TOP pos).bottom ≤ (v.virtualToWidget.mapRect v.virtualDisplayRect).bottom) ∧
    (TOP.left = true → (v.virtualToWidget.mapRect v.virtualDisplayRect).left ≤ (v.contentRectDragged TOP pos).left) ∧
    (TOP.right = true → (v.contentRectDragged TOP pos).right ≤ (v.virtualToWidget.mapRect v.virtualDisplayRect).right) ∧
    (TOP.top = false ∧ TOP.bottom = false →
      (v.contentRectDragged TOP pos).yp = (v.virtualToWidget.mapRect v.m_contentRect).yp ∧
      (v.contentRectDragged TOP pos).h = (v.virtualToWidget.mapRect v.m_contentRect).h) ∧
    (TOP.left = false ∧ TOP.right = false →
      (v.contentRectDragged TOP pos).xp = (v.virtualToWidget.mapRect v.m_contentRect).xp ∧
      (v.contentRectDragged TOP pos).w = (v.virtualToWidget.mapRect v.m_contentRect).w) := by
  have hr : v.contentRectDragged TOP pos =
      v.forceInsideImage (v.moveEdges (v.virtualToWidget.mapRect v.m_contentRect) TOP pos) TOP := rfl
  obtain ⟨mv1, mv2, mv3⟩ := v.moveEdges_TOP (v.virtualToWidget.mapRect v.m_contentRect) pos
  obtain ⟨fv1, fv2, fv3, fv4⟩ := v.forceInsideImage_TOP (v.moveEdges (v.virtualToWidget.mapRect v.m_contentRect) TOP pos)
  rw [hr]
  refine ⟨?_, ?_, ?_, ?_, ?_, ?_, ?_, ?_⟩
  · exact fun _ => fv3 mv3
  · exact fun h => h.elim (fun h => absurd h (by decide)) (fun h => absurd h (by decide))
  · exact fun _ => fv4
  · exact fun h => absurd h (by decide)
  · exact fun h => absurd h (by decide)
  · exact fun h => absurd h (by decide)
  · exact fun h => absurd h.1 (by decide)
  · exact fun _ => ⟨fv1.trans mv1, fv2.trans mv2⟩

theorem ImageView.contentRectDragged_RIGHT (v : ImageView) (pos : QPointF) :
    (RIGHT.top = true ∨ RIGHT.bottom = true → v.m_minBoxSize.height ≤ (v.contentRectDragged RIGHT pos).height) ∧
    (RIGHT.left = true ∨ RIGHT.right = true → v.m_minBoxSize.width ≤ (v.contentRectDragged RIGHT pos).width) ∧
    (RIGHT.top = true → (v.virtualToWidget.mapRect v.virtualDisplayRect).top ≤ (v.contentRectDragged RIGHT pos).top) ∧
    (RIGHT.bottom = true → (v.contentRectDragged RIGHT pos).bottom ≤ (v.virtualToWidget.mapRect v.virtualDisplayRect).bottom) ∧
    (RIGHT.left = true → (v.virtualToWidget.mapRect v.virtualDisplayRect).left ≤ (v.contentRectDragged RIGHT pos).left) ∧
    (RIGHT.right = true → (v.contentRectDragged RIGHT pos).right ≤ (v.virtualToWidget.mapRect v.virtualDisplayRect).right) ∧
    (RIGHT.top = false ∧ RIGHT.bottom = false →
      (v.contentRectDragged RIGHT pos).yp = (v.virtualToWidget.mapRect v.m_contentRect).yp ∧
      (v.contentRectDragged RIGHT pos).h = (v.virtualToWidget.mapRect v.m_contentRect).h) ∧
    (RIGHT.left = false ∧ RIGHT.right = false →
      (v.contentRectDragged RIGHT pos).xp = (v.virtualToWidget.mapRect v.m_contentRect).xp ∧
      (v.contentRectDragged RIGHT pos).w = (v.virtualToWidget.mapRect v.m_contentRect).w) := by
  have hr : v.contentRectDragged RIGHT pos =
      v.forceInsideImage (v.moveEdges (v.virtualToWidget.mapRect v.m_contentRect) RIGHT pos) RIGHT := rfl
  obtain ⟨mh1, mh2, mh3⟩ := v.moveEdges_RIGHT (v.virtualToWidget.mapRect v.m_contentRect) pos
  obtain ⟨fh1, fh2, fh3, fh4⟩ := v.forceInsideImage_RIGHT (v.moveEdges (v.virtualToWidget.mapRect v.m_contentRect) RIGHT pos)
  rw [hr]
  refine ⟨?_, ?_, ?_, ?_, ?_, ?_, ?_, ?_⟩
  · exact fun h => h.elim (fun h => absurd h (by decide)) (fun h => absurd h (by decide))
  · exact fun _ => fh3 mh3
  · exact fun h => absurd h (by decide)
  · exact fun h => absurd h (by decide)
  · exact fun h => absurd h (by decide)
  · exact fun _ => fh4
  · exact fun _ => ⟨fh1.trans mh1, fh2.trans mh2⟩
  · exact fun h => absurd h.2 (by decide)

theorem ImageView.contentRectDragged_BOTTOM (v : ImageView) (pos : QPointF) :
    (BOTTOM.top = true ∨ BOTTOM.bottom = true → v.m_minBoxSize.height ≤ (v.contentRectDragged BOTTOM pos).height) ∧
    (BOTTOM.left = true ∨ BOTTOM.right = true → v.m_minBoxSize.width ≤ (v.contentRectDragged BOTTOM pos).width) ∧
    (BOTTOM.top = true → (v.virtualToWidget.mapRect v.virtualDisplayRect).top ≤ (v.contentRectDragged BOTTOM pos).top) ∧
    (BOTTOM.bottom = true → (v.contentRectDragged BOTTOM pos).bottom ≤ (v.virtualToWidget.mapRect v.virtualDisplayRect).bottom) ∧
    (BOTTOM.left = true → (v.virtualToWidget.mapRect v.virtualDisplayRect).left ≤ (v.contentRectDragged BOTTOM pos).left) ∧
    (BOTTOM.right = true → (v.contentRectDragged BOTTOM pos).right ≤ (v.virtualToWidget.mapRect v.virtualDisplayRect).right) ∧
    (BOTTOM.top = false ∧ BOTTOM.bottom = false →
      (v.contentRectDragged BOTTOM pos).yp = (v.virtualToWidget.mapRect v.m_contentRect).yp ∧
      (v.contentRectDragged BOTTOM pos).h = (v.virtualToWidget.mapRect v.m_contentRect).h) ∧
    (BOTTOM.left = false ∧ BOTTOM.right = false →
      (v.contentRectDragged BOTTOM pos).xp = (v.virtualToWidget.mapRect v.m_contentRect).xp ∧
      (v.contentRectDragged BOTTOM pos).w = (v.virtualToWidget.mapRect v.m_contentRect).w) := by
  have hr : v.contentRectDragged BOTTOM pos =
      v.forceInsideImage (v.moveEdges (v.virtualToWidget.mapRect v.m_contentRect) BOTTOM pos) BOTTOM := rfl
  obtain ⟨mv1, mv2, mv3⟩ := v.moveEdges_BOTTOM (v.virtualToWidget.mapRect v.m_contentRect) pos
  obtain ⟨fv1, fv2, fv3, fv4⟩ := v.forceInsideImage_BOTTOM (v.moveEdges (v.virtualToWidget.mapRect v.m_contentRect) BOTTOM pos)
  rw [hr]
  refine ⟨?_, ?_, ?_, ?_, ?_, ?_, ?_, ?_⟩
  · exact fun _ => fv3 mv3
  · exact fun h => h.elim (fun h => absurd h (by decide)) (fun h => absurd h (by decide))
  · exact fun h => absurd h (by decide)
  · exact fun _ => fv4
  · exact fun h => absurd h (by decide)
  · exact fun h => absurd h (by decide)
  · exact fun h => absurd h.2 (by decide)
  · exact fun _ => ⟨fv1.trans mv1, fv2.trans mv2⟩

theorem ImageView.contentRectDragged_LEFT (v : ImageView) (pos : QPointF) :
    (LEFT.top = true ∨ LEFT.bottom = true → v.m_minBoxSize.height ≤ (v.contentRectDragged LEFT pos).height) ∧
    (LEFT.left = true ∨ LEFT.right = true → v.m_minBoxSize.width ≤ (v.contentRectDragged LEFT pos).width) ∧
    (LEFT.top = true → (v.virtualToWidget.mapRect v.virtualDisplayRect).top ≤ (v.contentRectDragged LEFT pos).top) ∧
    (LEFT.bottom = true → (v.contentRectDragged LEFT pos).bottom ≤ (v.virtualToWidget.mapRect v.virtualDisplayRect).bottom) ∧
    (LEFT.left = true → (v.virtualToWidget.mapRect v.virtualDisplayRect).left ≤ (v.contentRectDragged LEFT pos).left) ∧
    (LEFT.right = true → (v.contentRectDragged LEFT pos).right ≤ (v.virtualToWidget.mapRect v.virtualDisplayRect).right) ∧
    (LEFT.top = false ∧ LEFT.bottom = false →
      (v.contentRectDragged LEFT pos).yp = (v.virtualToWidget.mapRect v.m_contentRect).yp ∧
      (v.contentRectDragged LEFT pos).h = (v.virtualToWidget.mapRect v.m_contentRect).h) ∧
    (LEFT.left = false ∧ LEFT.right = false →
      (v.contentRectDragged LEFT pos).xp = (v.virtualToWidget.mapRect v.m_contentRect).xp ∧
      (v.contentRectDragged LEFT pos).w = (v.virtualToWidget.mapRect v.m_contentRect).w) := by
  have hr : v.contentRectDragged LEFT pos =
      v.forceInsideImage (v.moveEdges (v.virtualToWidget.mapRect v.m_contentRect) LEFT pos) LEFT := rfl
  obtain ⟨mh1, mh2, mh3⟩ := v.moveEdges_LEFT (v.virtualToWidget.mapRect v.m_contentRect) pos
  obtain ⟨fh1, fh2, fh3, fh4⟩ := v.forceInsideImage_LEFT (v.moveEdges (v.virtualToWidget.mapRect v.m_contentRect) LEFT pos)
  rw [hr]
  refine ⟨?_, ?_, ?_, ?_, ?_, ?_, ?_, ?_⟩
  · exact fun h => h.elim (fun h => absurd h (by decide)) (fun h => absurd h (by decide))
  · exact fun _ => fh3 mh3
  · exact fun h => absurd h (by decide)
  · exact fun h => absurd h (by decide)
  · exact fun _ => fh4
  · exact fun h => absurd h (by decide)
  · exact fun _ => ⟨fh1.trans mh1, fh2.trans mh2⟩
  · exact fun h => absurd h.1 (by decide)

end select_content

/-! ### Dragging the content box in double precision

The operations on `qreal` are those of binary64 without bounds on the exponent: the exact
result is rounded to 53 significant digits, to nearest, and a tie to the even significand. -/

namespace select_content

namespace ieee

namespace qreal

/-- With enough fuel the count is the number of binary digits. -/
theorem bitLengthAux_spec (fuel n : Nat) (h : n < 2 ^ fuel) :
    n < 2 ^ bitLengthAux fuel n ∧ (n ≠ 0 → 2 ^ (bitLengthAux fuel n - 1) ≤ n) := by
  induction fuel generalizing n with
  | zero =>
    have h0 : n = 0 := by simpa using h
    subst h0
    simp [bitLengthAux]
  | succ fuel ih =>
    unfold bitLengthAux
    by_cases hn : n = 0
    · simp [hn]
    · rw [if_neg hn]
      have hhalf : n / 2 < 2 ^ fuel := by
        rw [pow_succ] at h
        omega
      obtain ⟨h1, h2⟩ := ih (n / 2) hhalf
      refine ⟨?_, fun _ => ?_⟩
      · rw [pow_succ]
        omega
      · simp only [Nat.add_sub_cancel]
        by_cases hz : n / 2 = 0
        · have hb : bitLengthAux fuel (n / 2) = 0 := by
            rw [hz]
            cases fuel <;> simp [bitLengthAux]
          rw [hb]
          simp
          omega
        · have h3 := h2 hz
          have hpos : bitLengthAux fuel (n / 2) ≠ 0 := by
            intro h0
            rw [h0] at h1
            simp at h1
            exact hz h1
          obtain ⟨k, hk⟩ := Nat.exists_eq_succ_of_ne_zero hpos
          rw [hk] at h3 ⊢
          simp only [Nat.succ_sub_one] at h3
          rw [pow_succ]
          omega

/-- The number of binary digits of `n`: `2 ^ (bits - 1) ≤ n < 2 ^ bits`. -/
theorem bitLength_spec (n : Nat) :
    n < 2 ^ bitLength n ∧ (n ≠ 0 → 2 ^ (bitLength n - 1) ≤ n) :=
  bitLengthAux_spec n n (Nat.lt_two_pow n)

/-- A significand of at most 53 digits is not changed. -/
theorem round_of_fits (m e : Int) (h : bitLength m.natAbs ≤ 53) : round m e = ⟨m, e⟩ := by
  unfold round
  simp only [h, if_true]

/-- A longer significand is cut to 53 digits: the result is within half a unit of the
last kept digit of the exact number, and in a tie its significand is even. -/
theorem round_spec (m e : Int) (h : 53 < bitLength m.natAbs) :
    (round m e).e = e + ((bitLength m.natAbs - 53 : Nat) : Int) ∧
    2 ^ 52 ≤ (round m e).m.natAbs ∧ (round m e).m.natAbs ≤ 2 ^ 53 ∧
    2 * |m - (round m e).m * 2 ^ (bitLength m.natAbs - 53)| ≤
      2 ^ (bitLength m.natAbs - 53) ∧
    (2 * |m - (round m e).m * 2 ^ (bitLength m.natAbs - 53)| =
      2 ^ (bitLength m.natAbs - 53) → 2 ∣ (round m e).m) := by
  have hb := bitLength_spec m.natAbs
  have hn0 : m.natAbs ≠ 0 := by
    intro h0
    rw [h0] at h
    simp [bitLength, bitLengthAux] at h
  have hm0 : m ≠ 0 := fun h0 => hn0 (by simp [h0])
  obtain ⟨s, hs⟩ : ∃ s, bitLength m.natAbs = 53 + (s + 1) := ⟨bitLength m.natAbs - 54, by omega⟩
  have hlow := hb.2 hn0
  have hhigh := hb.1
  rw [hs] at hlow hhigh
  have hlow2 : 2 ^ 52 * 2 ^ (s + 1) ≤ m.natAbs := by
    have : 53 + (s + 1) - 1 = 52 + (s + 1) := by omega
    rw [this, pow_add] at hlow
    exact hlow
  have hhigh2 : m.natAbs < 2 ^ 53 * 2 ^ (s + 1) := by
    rw [pow_add] at hhigh
    exact hhigh
  have hpos : 0 < 2 ^ (s + 1) := Nat.two_pow_pos (s + 1)
  have hdm := Nat.div_add_mod m.natAbs (2 ^ (s + 1))
  have hmod := Nat.mod_lt m.natAbs hpos
  have hqlow : 2 ^ 52 ≤ m.natAbs / 2 ^ (s + 1) := (Nat.le_div_iff_mul_le hpos).mpr hlow2
  have hqhigh : m.natAbs / 2 ^ (s + 1) < 2 ^ 53 := (Nat.div_lt_iff_lt_mul hpos).mpr hhigh2
  have hhalf : 2 ^ (s + 1) = 2 * 2 ^ s := by rw [pow_succ]; ring
  have hnot : ¬ bitLength m.natAbs ≤ 53 := by omega
  have hshift : bitLength m.natAbs - 53 = s + 1 := by omega
  unfold round
  simp only [hnot, if_false, hshift, Nat.add_sub_cancel]
  have hsign : (m.sign).natAbs = 1 := Int.natAbs_sign_of_nonzero hm0
  have hmabs : m = m.sign * (m.natAbs : Int) := (Int.sign_mul_natAbs m).symm
  have habs : ∀ q : Nat, |m - m.sign * (q : Int) * 2 ^ (s + 1)| =
      |(m.natAbs : Int) - (q : Int) * 2 ^ (s + 1)| := by
    intro q
    have : m - m.sign * (q : Int) * 2 ^ (s + 1) =
        m.sign * ((m.natAbs : Int) - (q : Int) * 2 ^ (s + 1)) := by
      rw [mul_sub, ← hmabs]
      ring
    rw [this, abs_mul, Int.abs_eq_natAbs m.sign, hsign]
    simp
  have hdm2 : (m.natAbs : Int) =
      (2 : Int) ^ (s + 1) * ((m.natAbs / 2 ^ (s + 1) : Nat) : Int) +
        ((m.natAbs % 2 ^ (s + 1) : Nat) : Int) := by
    exact_mod_cast hdm.symm
  have hhalfZ : ((2 : Int) ^ (s + 1)) = 2 * 2 ^ s := by rw [pow_succ]; ring
  have hmodZ : ((m.natAbs % 2 ^ (s + 1) : Nat) : Int) < 2 * 2 ^ s := by
    rw [← hhalfZ]
    exact_mod_cast hmod
  have hmod0 : (0 : Int) ≤ ((m.natAbs % 2 ^ (s + 1) : Nat) : Int) := Int.natCast_nonneg _
  rw [hhalfZ] at hdm2
  have hupVal : |(m.natAbs : Int) - ((m.natAbs / 2 ^ (s + 1) + 1 : Nat) : Int) * 2 ^ (s + 1)| =
      2 * 2 ^ s - ((m.natAbs % 2 ^ (s + 1) : Nat) : Int) := by
    have : (m.natAbs : Int) - ((m.natAbs / 2 ^ (s + 1) + 1 : Nat) : Int) * 2 ^ (s + 1) =
        -(2 * 2 ^ s - ((m.natAbs % 2 ^ (s + 1) : Nat) : Int)) := by
      rw [Nat.cast_add, Nat.cast_one, hhalfZ]
      linear_combination hdm2
    rw [this, abs_neg, abs_of_nonneg (by linarith)]
  have hdownVal : |(m.natAbs : Int) - ((m.natAbs / 2 ^ (s + 1) : Nat) : Int) * 2 ^ (s + 1)| =
      ((m.natAbs % 2 ^ (s + 1) : Nat) : Int) := by
    have : (m.natAbs : Int) - ((m.natAbs / 2 ^ (s + 1) : Nat) : Int) * 2 ^ (s + 1) =
        ((m.natAbs % 2 ^ (s + 1) : Nat) : Int) := by
      rw [hhalfZ]
      linear_combination hdm2
    rw [this, abs_of_nonneg hmod0]
  refine ⟨trivial, ?_, ?_, ?_, ?_⟩
  · rw [Int.natAbs_mul, hsign, one_mul, Int.natAbs_ofNat]
    split_ifs <;> omega
  · rw [Int.natAbs_mul, hsign, one_mul, Int.natAbs_ofNat]
    split_ifs <;> omega
  · rw [habs]
    split_ifs with hup
    · have hge : (2 : Int) ^ s ≤ ((m.natAbs % 2 ^ (s + 1) : Nat) : Int) := by
        rcases hup with hup | hup
        · exact_mod_cast hup.le
        · exact_mod_cast hup.1.ge
      rw [hupVal, hhalfZ]
      linarith
    · have hle : ((m.natAbs % 2 ^ (s + 1) : Nat) : Int) ≤ (2 : Int) ^ s := by
        have : ¬ 2 ^ s < m.natAbs % 2 ^ (s + 1) := fun h => hup (Or.inl h)
        exact_mod_cast Nat.le_of_not_lt this
      rw [hdownVal, hhalfZ]
      linarith
  · rw [habs]
    intro htie
    apply Dvd.dvd.mul_left
    split_ifs at htie ⊢ with hup
    · rw [hupVal, hhalfZ] at htie
      have hR : ((m.natAbs % 2 ^ (s + 1) : Nat) : Int) = (2 : Int) ^ s := by linarith
      have hRn : m.natAbs % 2 ^ (s + 1) = 2 ^ s := by exact_mod_cast hR
      have hodd : m.natAbs / 2 ^ (s + 1) % 2 = 1 := by
        rcases hup with hup | hup
        · exact absurd hup (by rw [hRn]; exact lt_irrefl _)
        · exact hup.2
      have hq : ∀ q : Nat, q % 2 = 1 → 2 ∣ q + 1 := fun q hq => by omega
      exact Int.natCast_dvd_natCast.mpr (hq _ hodd)
    · rw [hdownVal, hhalfZ] at htie
      have hR : ((m.natAbs % 2 ^ (s + 1) : Nat) : Int) = (2 : Int) ^ s := by linarith
      have hRn : m.natAbs % 2 ^ (s + 1) = 2 ^ s := by exact_mod_cast hR
      have heven : ¬ m.natAbs / 2 ^ (s + 1) % 2 = 1 := fun h => hup (Or.inr ⟨hRn, h⟩)
      have hq : ∀ q : Nat, ¬ q % 2 = 1 → 2 ∣ q := fun q hq => by omega
      exact Int.natCast_dvd_natCast.mpr (hq _ heven)

/-- Aligning a significand to a smaller exponent keeps the number. -/
theorem scaled_toRat (m x e : Int) (h : e ≤ x) :
    ((m * 2 ^ (x - e).toNat : Int) : ℚ) * 2 ^ e = m * 2 ^ x := by
  have h1 : ((x - e).toNat : Int) = x - e := Int.toNat_of_nonneg (by omega)
  have h2 : (2 : ℚ) ^ x = 2 ^ ((x - e).toNat : Int) * 2 ^ e := by
    rw [← zpow_add₀ (by norm_num : (2 : ℚ) ≠ 0), h1]
    congr 1
    ring
  rw [h2, zpow_natCast]
  push_cast
  ring

/-- The sum is the rounding of the exact sum. -/
theorem add_exact (a b : qreal) :
    add a b = round (a.m * 2 ^ (a.e - Min.min a.e b.e).toNat + b.m * 2 ^ (b.e - Min.min a.e b.e).toNat)
      (Min.min a.e b.e) ∧
    ((a.m * 2 ^ (a.e - Min.min a.e b.e).toNat + b.m * 2 ^ (b.e - Min.min a.e b.e).toNat : Int) : ℚ) *
      2 ^ (Min.min a.e b.e) = a.toRat + b.toRat := by
  refine ⟨rfl, ?_⟩
  have ha := scaled_toRat a.m a.e (Min.min a.e b.e) (min_le_left _ _)
  have hb := scaled_toRat b.m b.e (Min.min a.e b.e) (min_le_right _ _)
  unfold toRat
  rw [← ha, ← hb]
  push_cast
  ring

/-- The negation is exact. -/
theorem neg_exact (a : qreal) : (neg a).toRat = -a.toRat := by
  simp [neg, toRat]

/-- The product is the rounding of the exact product. -/
theorem mul_exact (a b : qreal) :
    mul a b = round (a.m * b.m) (a.e + b.e) ∧
    ((a.m * b.m : Int) : ℚ) * 2 ^ (a.e + b.e) = a.toRat * b.toRat := by
  refine ⟨rfl, ?_⟩
  unfold toRat
  rw [zpow_add₀ (by norm_num : (2 : ℚ) ≠ 0)]
  push_cast
  ring

/-- The comparison is that of the numbers. -/
theorem lt_iff_toRat_lt (a b : qreal) : lt a b = true ↔ a.toRat < b.toRat := by
  have ha := scaled_toRat a.m a.e (Min.min a.e b.e) (min_le_left _ _)
  have hb := scaled_toRat b.m b.e (Min.min a.e b.e) (min_le_right _ _)
  have hpos : (0 : ℚ) < 2 ^ (Min.min a.e b.e) := zpow_pos (by norm_num) _
  unfold lt toRat
  simp only [decide_eq_true_eq]
  rw [← ha, ← hb, mul_lt_mul_right hpos]
  exact Int.cast_lt.symm

end qreal

end ieee

end select_content


set_option maxRecDepth 100000 in
/-- Checks of the rounding: 0.1 + 0.2 is 0.30000000000000004, a tie goes to the even
significand in both directions, and 3 * 0.1 is 0.30000000000000004. -/
theorem select_content.ieee.qreal.round_checks :
    (select_content.ieee.qreal.add ⟨3602879701896397, -55⟩ ⟨3602879701896397, -54⟩).toRat =
      (1351079888211149 : ℚ) / 2 ^ 52 ∧
    (select_content.ieee.qreal.add ⟨1, 0⟩ ⟨1, -53⟩).toRat = 1 ∧
    (select_content.ieee.qreal.add ⟨1, 0⟩ ⟨3, -53⟩).toRat = 1 + 1 / 2 ^ 51 ∧
    (select_content.ieee.qreal.add ⟨1, 0⟩ ⟨-1, -54⟩).toRat = 1 ∧
    (select_content.ieee.qreal.mul ⟨3, 0⟩ ⟨3602879701896397, -55⟩).toRat =
      (1351079888211149 : ℚ) / 2 ^ 52 ∧
    select_content.ieee.qreal.lt ⟨5, 1⟩ ⟨1407374883553279, -47⟩ = false := by
  have h1 : select_content.ieee.qreal.add ⟨3602879701896397, -55⟩ ⟨3602879701896397, -54⟩ =
      ⟨5404319552844596, -54⟩ := by decide
  have h2 : select_content.ieee.qreal.add ⟨1, 0⟩ ⟨1, -53⟩ = ⟨4503599627370496, -52⟩ := by
    decide
  have h3 : select_content.ieee.qreal.add ⟨1, 0⟩ ⟨3, -53⟩ = ⟨4503599627370498, -52⟩ := by
    decide
  have h4 : select_content.ieee.qreal.add ⟨1, 0⟩ ⟨-1, -54⟩ = ⟨9007199254740992, -53⟩ := by
    decide
  have h5 : select_content.ieee.qreal.mul ⟨3, 0⟩ ⟨3602879701896397, -55⟩ =
      ⟨5404319552844596, -54⟩ := by decide
  rw [h1, h2, h3, h4, h5]
  refine ⟨?_, ?_, ?_, ?_, ?_, by decide⟩ <;> norm_num [select_content.ieee.qreal.toRat]

/-- The numbers of the sample view in double precision are within half a unit in the last
place of the decimals 13.65, 21.88, 19.57 and 117.3199. -/
theorem Sample.doubleView_nearest :
    |Sample.doubleView.m_contentRect.xp.toRat - 1365 / 100| ≤ 1 / 2 ^ 50 ∧
    |Sample.doubleView.m_contentRect.yp.toRat - 2188 / 100| ≤ 1 / 2 ^ 49 ∧
    Sample.doubleView.m_contentRect.w.toRat = 40 ∧
    |Sample.doubleView.m_contentRect.h.toRat - 1957 / 100| ≤ 1 / 2 ^ 49 ∧
    |Sample.doubleView.virtualDisplayRect.w.toRat - 1173199 / 10000| ≤ 1 / 2 ^ 47 ∧
    Sample.doubleView.virtualDisplayRect.h.toRat = 100 ∧
    Sample.doubleView.m_minBoxSize.width.toRat = 10 ∧
    Sample.doubleView.m_minBoxSize.height.toRat = 10 ∧
    Sample.doubleView.virtualToWidget.m11.toRat = 2 ∧
    Sample.doubleView.virtualToWidget.dx.toRat = 5 ∧
    Sample.doublePos.x.toRat = 1000 ∧ Sample.doublePos.y.toRat = 1000 := by
  refine ⟨?_, ?_, ?_, ?_, ?_, ?_, ?_, ?_, ?_, ?_, ?_, ?_⟩ <;>
    norm_num [Sample.doubleView, Sample.doublePos, select_content.ieee.qreal.toRat, abs_le]

set_option maxRecDepth 100000 in
/-- Counterexample to C21 as stated: the code computes in `double`, and there rounding
loses the minimum box size.  In the sample view (content box at 13.65, 21.88 of size
40 x 19.57, image 117.3199 x 100, scale 2, offset 5, minimum box size 10 x 10) the top right
corner, mask TOP|RIGHT, is dragged to (1000, 1000).  The rectangle after `forceInsideImage`
is 9.999999999999993 high, less than 10, and its right edge, 239.63980000000004, lies to the
right of the right edge of the image, 239.6398. -/
theorem C21_minimum_box_size_lost_to_rounding :
    select_content.TOP.or select_content.RIGHT ∈ select_content.masks_by_corner ∧
    (Sample.doubleView.contentRectDragged (select_content.TOP.or select_content.RIGHT)
        Sample.doublePos).height.toRat = (1407374883553279 : ℚ) / 2 ^ 47 ∧
    (Sample.doubleView.contentRectDragged (select_content.TOP.or select_content.RIGHT)
        Sample.doublePos).height.toRat < Sample.doubleView.m_minBoxSize.height.toRat ∧
    (Sample.doubleView.virtualToWidget.mapRect Sample.doubleView.virtualDisplayRect).right.toRat
      = (8431575890493283 : ℚ) / 2 ^ 45 ∧
    (Sample.doubleView.contentRectDragged (select_content.TOP.or select_content.RIGHT)
        Sample.doublePos).right.toRat = (8431575890493284 : ℚ) / 2 ^ 45 ∧
    (Sample.doubleView.virtualToWidget.mapRect Sample.doubleView.virtualDisplayRect).right.toRat
      < (Sample.doubleView.contentRectDragged (select_content.TOP.or select_content.RIGHT)
        Sample.doublePos).right.toRat := by
  have hh : (Sample.doubleView.contentRectDragged
      (select_content.TOP.or select_content.RIGHT) Sample.doublePos).height =
      ⟨1407374883553279, -47⟩ := by decide
  have hr : (Sample.doubleView.contentRectDragged
      (select_content.TOP.or select_content.RIGHT) Sample.doublePos).right =
      ⟨8431575890493284, -45⟩ := by decide
  have hi : (Sample.doubleView.virtualToWidget.mapRect
      Sample.doubleView.virtualDisplayRect).right = ⟨8431575890493283, -45⟩ := by decide
  have hm : Sample.doubleView.m_minBoxSize.height = ⟨5, 1⟩ := rfl
  rw [hh, hr, hi, hm]
  refine ⟨by decide, ?_, ?_, ?_, ?_, ?_⟩ <;> norm_num [select_content.ieee.qreal.toRat]

/-- Claim C21, amended.  With coordinates taken as exact rationals, dragging a corner or
edge of the content box never shrinks it below the minimum box size.  In a view whose
minimum box size is 10 x 10, as the constructor sets it, for each of the eight masks of the corner and edge handlers and every pointer position, the
widget rectangle of `contentRectCornerMoveRequest` after `forceInsideImage` (the rectangle
that is mapped back and stored) is at least 10 high when the mask contains TOP or BOTTOM and
at least 10 wide when it contains LEFT or RIGHT; a dragged edge does not lie outside the image
on its own side; and a dimension none of whose edges is in the mask is unchanged.  An edge
handler calls the same function with the first point of its line. -/
theorem C21_drag_keeps_minimum_box_size (v : select_content.ImageView)
    (edge_mask : select_content.EdgeMask) (pos : select_content.QPointF)
    (line : select_content.QLineF)
    (hmin : v.m_minBoxSize = ⟨10, 10⟩)
    (hmask : edge_mask ∈ select_content.masks_by_corner ++ select_content.masks_by_edge) :
    (((edge_mask.top = true ∨ edge_mask.bottom = true → 10 ≤ (v.contentRectDragged edge_mask pos).height) ∧
      (edge_mask.left = true ∨ edge_mask.right = true → 10 ≤ (v.contentRectDragged edge_mask pos).width) ∧
      (edge_mask.top = true → (v.virtualToWidget.mapRect v.virtualDisplayRect).top ≤ (v.contentRectDragged edge_mask pos).top) ∧
      (edge_mask.bottom = true → (v.contentRectDragged edge_mask pos).bottom ≤ (v.virtualToWidget.mapRect v.virtualDisplayRect).bottom) ∧
      (edge_mask.left = true → (v.virtualToWidget.mapRect v.virtualDisplayRect).left ≤ (v.contentRectDragged edge_mask pos).left) ∧
      (edge_mask.right = true → (v.contentRectDragged edge_mask pos).right ≤ (v.virtualToWidget.mapRect v.virtualDisplayRect).right) ∧
      (edge_mask.top = false ∧ edge_mask.bottom = false →
        (v.contentRectDragged edge_mask pos).yp = (v.virtualToWidget.mapRect v.m_contentRect).yp ∧
        (v.contentRectDragged edge_mask pos).h = (v.virtualToWidget.mapRect v.m_contentRect).h) ∧
      (edge_mask.left = false ∧ edge_mask.right = false →
        (v.contentRectDragged edge_mask pos).xp = (v.virtualToWidget.mapRect v.m_contentRect).xp ∧
        (v.contentRectDragged edge_mask pos).w = (v.virtualToWidget.mapRect v.m_contentRect).w)) ∧
      (v.contentRectCornerMoveRequest edge_mask pos).m_contentRect =
        v.widgetToVirtual.mapRect (v.contentRectDragged edge_mask pos)) ∧
    v.contentRectEdgeMoveRequest edge_mask line =
      v.contentRectCornerMoveRequest edge_mask line.p1 ∧
    ∀ content_rect page_rect page_rect_enabled virtualToWidget virtualDisplayRect captured
      reloadRequested,
      (select_content.ImageView.construct content_rect page_rect page_rect_enabled
        virtualToWidget virtualDisplayRect captured reloadRequested).m_minBoxSize =
        ⟨10, 10⟩ := by
  refine ⟨⟨?_, ?_⟩, rfl, fun _ _ _ _ _ _ _ => rfl⟩
  · simp only [select_content.masks_by_corner, select_content.masks_by_edge,
      List.cons_append, List.nil_append, List.mem_cons, List.mem_singleton,
      List.not_mem_nil, or_false] at hmask
    rcases hmask with h | h | h | h | h | h | h | h <;> subst h
    · have h := select_content.ImageView.contentRectDragged_TOP_LEFT v pos
      rw [hmin] at h
      exact h
    · have h := select_content.ImageView.contentRectDragged_TOP_RIGHT v pos
      rw [hmin] at h
      exact h
    · have h := select_content.ImageView.contentRectDragged_BOTTOM_RIGHT v pos
      rw [hmin] at h
      exact h
    · have h := select_content.ImageView.contentRectDragged_BOTTOM_LEFT v pos
      rw [hmin] at h
      exact h
    · have h := select_content.ImageView.contentRectDragged_TOP v pos
      rw [hmin] at h
      exact h
    · have h := select_content.ImageView.contentRectDragged_RIGHT v pos
      rw [hmin] at h
      exact h
    · have h := select_content.ImageView.contentRectDragged_BOTTOM v pos
      rw [hmin] at h
      exact h
    · have h := select_content.ImageView.contentRectDragged_LEFT v pos
      rw [hmin] at h
      exact h
  · exact (select_content.ImageView.forcePageRectDescribeContent_frame _).1

/-- Witness of the amended C21 on the sample view: dragging the top left corner far beyond the image
leaves a rectangle at least 10 wide whose left edge is not left of the image. -/
theorem C21_drag_keeps_minimum_box_size_witness :
    (10 : ℚ) ≤ (Sample.view.contentRectDragged
        (select_content.TOP.or select_content.LEFT) ⟨-100, 60⟩).width ∧
    (Sample.view.virtualToWidget.mapRect Sample.view.virtualDisplayRect).left ≤
      (Sample.view.contentRectDragged
        (select_content.TOP.or select_content.LEFT) ⟨-100, 60⟩).left :=
  ⟨(C21_drag_keeps_minimum_box_size Sample.view
      (select_content.TOP.or select_content.LEFT) ⟨-100, 60⟩ ⟨⟨0, 0⟩, ⟨0, 0⟩⟩ rfl
      (by decide)).1.1.2.1 (Or.inl rfl),
    (C21_drag_keeps_minimum_box_size Sample.view
      (select_content.TOP.or select_content.LEFT) ⟨-100, 60⟩ ⟨⟨0, 0⟩, ⟨0, 0⟩⟩ rfl
      (by decide)).1.1.2.2.2.2.1 rfl⟩

theorem localeOfChars_scantailor (l : List Char) :
    localeOfChars ("scantailor_".data ++ l ++ ".qm".data) = l := by
  have hpre : "scantailor_".data = ['s', 'c', 'a', 'n', 't', 'a', 'i', 'l', 'o', 'r', '_'] :=
    rfl
  have hsuf : ".qm".data = ['.', 'q', 'm'] := rfl
  rw [hpre, hsuf]
  unfold localeOfChars
  have hmem : '.' ∈ ['s', 'c', 'a', 'n', 't', 'a', 'i', 'l', 'o', 'r', '_'] ++ l ++
      ['.', 'q', 'm'] := by simp
  have hrev : (['s', 'c', 'a', 'n', 't', 'a', 'i', 'l', 'o', 'r', '_'] ++ l ++
      ['.', 'q', 'm']).reverse.indexOf '.' = 2 := by
    simp [List.indexOf_cons]
  have hlen : (['s', 'c', 'a', 'n', 't', 'a', 'i', 'l', 'o', 'r', '_'] ++ l ++
      ['.', 'q', 'm']).length = l.length + 14 := by
    simp
  simp only [hmem, if_true, hrev, hlen]
  have h1 : ((↑(l.length + 14) : Int) - 1 - ((2 : Nat) : Int)) = ((l.length + 11 : Nat) : Int) := by
    push_cast
    ring
  rw [h1]
  have h2 : ((l.length + 11 : Nat) : Int) < ((l.length + 14 : Nat) : Int) := by
    exact_mod_cast (by omega : l.length + 11 < l.length + 14)
  rw [if_pos h2, Int.toNat_ofNat]
  have htake : List.take (l.length + 11) (['s', 'c', 'a', 'n', 't', 'a', 'i', 'l', 'o', 'r', '_']
      ++ l ++ ['.', 'q', 'm']) = ['s', 'c', 'a', 'n', 't', 'a', 'i', 'l', 'o', 'r', '_'] ++ l := by
    rw [List.take_append_of_le_length (by simp)]
    rw [List.take_of_length_le (by simp)]
  rw [htake]
  have hmem2 : '_' ∈ ['s', 'c', 'a', 'n', 't', 'a', 'i', 'l', 'o', 'r', '_'] ++ l := by simp
  have hidx : (['s', 'c', 'a', 'n', 't', 'a', 'i', 'l', 'o', 'r', '_'] ++ l).indexOf '_' = 10 := by
    simp [List.indexOf_cons]
  simp only [hmem2, if_true, hidx]
  rfl

/-- Claim C23.  For every string `L`, also one that contains '.' or '_' or is empty, the locale
key that `Application::initTranslations` derives from the file name
"scantailor_" + L + ".qm" (truncate at the last '.', then remove everything up to and
including the first '_') is exactly `L`. -/
theorem C23_locale_of_translation_file_name (L : String) :
    localeOfFileName ("scantailor_" ++ L ++ ".qm") = L := by
  unfold localeOfFileName
  rw [String.data_append, String.data_append, localeOfChars_scantailor]

/-! ### The translations map and the installed language -/

theorem mem_keys_iff_lookup (m : List (String × String)) (l : String) :
    l ∈ m.map Prod.fst ↔ ∃ file, m.lookup l = some file := by
  induction m with
  | nil => simp
  | cons e rest ih =>
    obtain ⟨k, v⟩ := e
    by_cases h : l = k
    · subst h
      simp [List.lookup]
    · have h2 : (l == k) = false := by simpa using h
      simp [List.lookup, h2, h, ih]

theorem mem_keys_mapSet (m : List (String × String)) (key value x : String) :
    x ∈ (mapSet m key value).map Prod.fst ↔ x = key ∨ x ∈ m.map Prod.fst := by
  induction m with
  | nil => simp [mapSet]
  | cons e rest ih =>
    obtain ⟨k, v⟩ := e
    unfold mapSet
    split_ifs with h1 h2
    · simp
    · subst h2
      simp
    · simp only [List.map_cons, List.mem_cons, ih]
      tauto

theorem pairwise_keys_mapSet (m : List (String × String)) (key value : String)
    (h : (m.map Prod.fst).Pairwise (· < ·)) :
    ((mapSet m key value).map Prod.fst).Pairwise (· < ·) := by
  induction m with
  | nil => simp [mapSet]
  | cons e rest ih =>
    obtain ⟨k, v⟩ := e
    simp only [List.map_cons, List.pairwise_cons] at h
    unfold mapSet
    split_ifs with h1 h2
    · simp only [List.map_cons, List.pairwise_cons, List.mem_cons]
      refine ⟨?_, h.1, h.2⟩
      rintro x (rfl | hx)
      · exact h1
      · exact lt_trans h1 (h.1 x hx)
    · subst h2
      simpa using h
    · simp only [List.map_cons, List.pairwise_cons]
      refine ⟨?_, ih h.2⟩
      intro x hx
      rcases (mem_keys_mapSet rest key value x).mp hx with rfl | hx
      · rcases lt_trichotomy x k with h3 | h3 | h3
        · exact absurd h3 h1
        · exact absurd h3 h2
        · exact h3
      · exact h.1 x hx

namespace Application

theorem initTranslations_files (absoluteFilePath : String → String → String) (dir : String)
    (files : List String) (app : Application) :
    (files.foldl
        (fun (app : Application) fileName =>
          (⟨app.m_currentLocale, mapSet app.m_translationsMap (localeOfFileName fileName)
            (absoluteFilePath dir fileName), app.m_translator, app.translatorInstalled⟩ :
            Application))
        app).m_currentLocale = app.m_currentLocale ∧
      ((app.m_translationsMap.map Prod.fst).Pairwise (· < ·) →
        ((files.foldl
          (fun (app : Application) fileName =>
            (⟨app.m_currentLocale, mapSet app.m_translationsMap (localeOfFileName fileName)
              (absoluteFilePath dir fileName), app.m_translator, app.translatorInstalled⟩ :
              Application))
          app).m_translationsMap.map Prod.fst).Pairwise (· < ·)) := by
  induction files generalizing app with
  | nil => exact ⟨rfl, fun h => h⟩
  | cons fileName rest ih =>
    simp only [List.foldl_cons]
    refine ⟨(ih _).1, fun h => (ih _).2 (pairwise_keys_mapSet _ _ _ h)⟩

theorem initTranslations_spec (absoluteFilePath : String → String → String)
    (dirs : List (String × List String)) (app : Application) :
    (initTranslations absoluteFilePath dirs app).m_currentLocale = app.m_currentLocale ∧
      ((app.m_translationsMap.map Prod.fst).Pairwise (· < ·) →
        ((initTranslations absoluteFilePath dirs app).m_translationsMap.map
          Prod.fst).Pairwise (· < ·)) := by
  unfold initTranslations
  induction dirs generalizing app with
  | nil => exact ⟨rfl, fun h => h⟩
  | cons dir rest ih =>
    simp only [List.foldl_cons]
    have hf := initTranslations_files absoluteFilePath dir.1 dir.2 app
    refine ⟨(ih _).1.trans hf.1, fun h => (ih _).2 (hf.2 h)⟩

theorem construct_currentLocale (absoluteFilePath : String → String → String)
    (dirs : List (String × List String)) :
    (construct absoluteFilePath dirs).m_currentLocale = "en" :=
  (initTranslations_spec absoluteFilePath dirs ⟨"en", [], none, false⟩).1

theorem construct_keys_pairwise (absoluteFilePath : String → String → String)
    (dirs : List (String × List String)) :
    ((construct absoluteFilePath dirs).m_translationsMap.map Prod.fst).Pairwise (· < ·) :=
  (initTranslations_spec absoluteFilePath dirs ⟨"en", [], none, false⟩).2 List.Pairwise.nil

theorem installLanguage_same (translatorLoad : String → Bool) (app : Application)
    (l : String) (h : l = app.m_currentLocale) : app.installLanguage translatorLoad l = app := by
  unfold installLanguage
  simp [h]

theorem installLanguage_key (translatorLoad : String → Bool) (app : Application)
    (l file : String) (h : l ≠ app.m_currentLocale)
    (hfile : app.m_translationsMap.lookup l = some file) :
    (app.installLanguage translatorLoad l).m_currentLocale =
      if translatorLoad file then l else "en" := by
  unfold installLanguage
  have h2 : (app.m_currentLocale == l) = false := by simpa using fun h3 => h h3.symm
  simp [h2, hfile]

theorem installLanguage_no_key (translatorLoad : String → Bool) (app : Application)
    (l : String) (h : l ≠ app.m_currentLocale)
    (hfile : app.m_translationsMap.lookup l = none) :
    (app.installLanguage translatorLoad l).m_currentLocale = "en" := by
  unfold installLanguage
  have h2 : (app.m_currentLocale == l) = false := by simpa using fun h3 => h h3.symm
  simp [h2, hfile]

theorem installLanguage_translationsMap (translatorLoad : String → Bool) (app : Application)
    (l : String) :
    (app.installLanguage translatorLoad l).m_translationsMap = app.m_translationsMap := by
  unfold installLanguage
  split_ifs
  · rfl
  · cases app.m_translationsMap.lookup l <;> rfl

theorem installLanguage_locale_valid (translatorLoad : String → Bool) (app : Application)
    (l : String)
    (h : app.m_currentLocale = "en" ∨ app.m_currentLocale ∈ app.m_translationsMap.map Prod.fst) :
    (app.installLanguage translatorLoad l).m_currentLocale = "en" ∨
      (app.installLanguage translatorLoad l).m_currentLocale ∈
        (app.installLanguage translatorLoad l).m_translationsMap.map Prod.fst := by
  rw [installLanguage_translationsMap]
  by_cases hl : l = app.m_currentLocale
  · rw [installLanguage_same translatorLoad app l hl]
    exact h
  · cases hfile : app.m_translationsMap.lookup l with
    | none => exact Or.inl (installLanguage_no_key translatorLoad app l hl hfile)
    | some file =>
      rw [installLanguage_key translatorLoad app l file hl hfile]
      split_ifs
      · exact Or.inr ((mem_keys_iff_lookup _ _).mpr ⟨file, hfile⟩)
      · exact Or.inl rfl

theorem foldl_installLanguage_locale_valid (translatorLoad : String → Bool)
    (ls : List String) (app : Application)
    (h : app.m_currentLocale = "en" ∨ app.m_currentLocale ∈ app.m_translationsMap.map Prod.fst) :
    (ls.foldl (installLanguage translatorLoad) app).m_currentLocale = "en" ∨
      (ls.foldl (installLanguage translatorLoad) app).m_currentLocale ∈
        (ls.foldl (installLanguage translatorLoad) app).m_translationsMap.map Prod.fst := by
  induction ls generalizing app with
  | nil => exact h
  | cons l rest ih =>
    simp only [List.foldl_cons]
    exact ih _ (installLanguage_locale_valid translatorLoad app l h)

theorem getLanguagesList_foldl (m : List (String × String)) (init : List String) :
    m.foldl (fun list val => list ++ [val.1]) init = init ++ m.map Prod.fst := by
  induction m generalizing init with
  | nil => simp
  | cons e rest ih => simp [ih]

theorem getLanguagesList_eq (app : Application) :
    app.getLanguagesList = "en" :: app.m_translationsMap.map Prod.fst := by
  unfold getLanguagesList
  rw [getLanguagesList_foldl]
  rfl

end Application

/-- Claim C22.  The function `Application::installLanguage(l)`, for every locale `l`,
translations map and current locale: when `l` is the current locale the application object
is unchanged; otherwise, when `l` is a key of the map (the lookup yields its file), the
current locale becomes `l` if the translator loads that file and "en" if it does not;
otherwise the current locale becomes "en".  The map is never changed, and after the
constructor and any sequence of `installLanguage` calls `getCurrentLocale()` is "en" or a
key of the map. -/
theorem C22_installLanguage_current_locale (translatorLoad : String → Bool)
    (app : Application) (l : String) :
    (l = app.getCurrentLocale → app.installLanguage translatorLoad l = app) ∧
    (l ≠ app.getCurrentLocale → ∀ file, app.m_translationsMap.lookup l = some file →
      (app.installLanguage translatorLoad l).getCurrentLocale =
        if translatorLoad file then l else "en") ∧
    (l ≠ app.getCurrentLocale → l ∉ app.m_translationsMap.map Prod.fst →
      (app.installLanguage translatorLoad l).getCurrentLocale = "en") ∧
    (l ∈ app.m_translationsMap.map Prod.fst ↔ ∃ file, app.m_translationsMap.lookup l = some file) ∧
    (app.installLanguage translatorLoad l).m_translationsMap = app.m_translationsMap ∧
    (∀ (absoluteFilePath : String → String → String) (dirs : List (String × List String))
      (ls : List String),
      (ls.foldl (Application.installLanguage translatorLoad)
          (Application.construct absoluteFilePath dirs)).getCurrentLocale = "en" ∨
        (ls.foldl (Application.installLanguage translatorLoad)
          (Application.construct absoluteFilePath dirs)).getCurrentLocale ∈
          (Application.construct absoluteFilePath dirs).m_translationsMap.map Prod.fst) := by
  refine ⟨Application.installLanguage_same translatorLoad app l,
    fun h file hfile => Application.installLanguage_key translatorLoad app l file h hfile,
    fun h hkey => Application.installLanguage_no_key translatorLoad app l h ?_,
    mem_keys_iff_lookup _ _, Application.installLanguage_translationsMap translatorLoad app l,
    fun absoluteFilePath dirs ls => ?_⟩
  · cases hfile : app.m_translationsMap.lookup l with
    | none => rfl
    | some file => exact absurd ((mem_keys_iff_lookup _ _).mpr ⟨file, hfile⟩) hkey
  · have h := Application.foldl_installLanguage_locale_valid translatorLoad ls
      (Application.construct absoluteFilePath dirs)
      (Or.inl (Application.construct_currentLocale absoluteFilePath dirs))
    have hmap : ∀ (ls : List String) (a : Application),
        (ls.foldl (Application.installLanguage translatorLoad) a).m_translationsMap =
          a.m_translationsMap := by
      intro ls
      induction ls with
      | nil => intro a; rfl
      | cons x rest ih =>
        intro a
        simp only [List.foldl_cons]
        rw [ih, Application.installLanguage_translationsMap]
    rw [hmap] at h
    exact h

/-- On the sample installation with current locale "en": installing "de", whose file loads,
makes the current locale "de"; installing "fr", whose file does not load, and installing the
unknown "xx" leave it at "en". -/
theorem C22_installLanguage_current_locale_witness :
    ("de" ≠ Sample.application.getCurrentLocale ∧
      Sample.application.m_translationsMap.lookup "de" =
        some "/opt/translations/scantailor_de.qm" ∧
      (Sample.application.installLanguage Sample.translatorLoad "de").getCurrentLocale =
        if Sample.translatorLoad "/opt/translations/scantailor_de.qm" then "de" else "en") ∧
    (Sample.application.installLanguage Sample.translatorLoad "de").getCurrentLocale = "de" ∧
    (Sample.application.installLanguage Sample.translatorLoad "fr").getCurrentLocale = "en" ∧
    (Sample.application.installLanguage Sample.translatorLoad "xx").getCurrentLocale = "en" :=
  ⟨⟨by decide, by decide,
      (C22_installLanguage_current_locale Sample.translatorLoad Sample.application "de").2.1
        (by decide) "/opt/translations/scantailor_de.qm" (by decide)⟩,
    by decide, by decide, by decide⟩

theorem Sample.application_keys_pairwise :
    (Sample.application.m_translationsMap.map Prod.fst).Pairwise (· < ·) := by
  show List.Pairwise (· < ·) ["de", "fr", "pt_BR"]
  simp only [List.pairwise_cons, List.mem_cons, List.mem_singleton, forall_eq_or_imp, forall_eq,
    String.lt_iff_toList_lt]
  decide

theorem Sample.construct_eq_application :
    Application.construct Sample.absoluteFilePath Sample.translationDirs =
      Sample.application := by
  have hfr : localeOfFileName "scantailor_fr.qm" = "fr" := by decide
  have hde : localeOfFileName "scantailor_de.qm" = "de" := by decide
  have hpt : localeOfFileName "scantailor_pt_BR.qm" = "pt_BR" := by decide
  have hlt1 : "de" < "fr" := by rw [String.lt_iff_toList_lt]; decide
  have hlt2 : ¬ "pt_BR" < "de" := by rw [String.lt_iff_toList_lt]; decide
  have hlt3 : ¬ "pt_BR" < "fr" := by rw [String.lt_iff_toList_lt]; decide
  have hne2 : ¬ "pt_BR" = "de" := by decide
  have hne3 : ¬ "pt_BR" = "fr" := by decide
  have hirr : ¬ "de" < "de" := lt_irrefl _
  simp only [Application.construct, Application.initTranslations, Sample.translationDirs,
    List.foldl_cons, List.foldl_nil, hfr, hde, hpt, mapSet, hlt1, hlt2, hlt3, hne2, hne3, hirr,
    if_true, if_false]
  decide

/-- Claim C24.  The function `Application::getLanguagesList` returns "en" first, followed by
the keys of the translations map in the map's order, so its length is one more than the
number of translations.  The keys of the map are strictly ascending (as the constructor
builds it, and `std::map` keeps it), so each key occurs in the list exactly once after the
leading "en"; provided no translation is keyed "en", the list has no duplicates. -/
theorem C24_getLanguagesList (app : Application)
    (hsorted : (app.m_translationsMap.map Prod.fst).Pairwise (· < ·)) :
    app.getLanguagesList = "en" :: app.m_translationsMap.map Prod.fst ∧
    app.getLanguagesList.length = 1 + app.m_translationsMap.length ∧
    (∀ k ∈ app.m_translationsMap.map Prod.fst, app.getLanguagesList.tail.count k = 1) ∧
    ("en" ∉ app.m_translationsMap.map Prod.fst → app.getLanguagesList.Nodup) ∧
    (∀ (absoluteFilePath : String → String → String) (dirs : List (String × List String)),
      ((Application.construct absoluteFilePath dirs).m_translationsMap.map
        Prod.fst).Pairwise (· < ·)) := by
  have hnodup : (app.m_translationsMap.map Prod.fst).Nodup :=
    hsorted.imp (fun h => ne_of_lt h)
  rw [Application.getLanguagesList_eq]
  refine ⟨rfl, ?_, ?_, ?_, Application.construct_keys_pairwise⟩
  · simp [Nat.add_comm]
  · intro k hk
    exact List.count_eq_one_of_mem hnodup hk
  · intro hen
    exact List.nodup_cons.mpr ⟨hen, hnodup⟩

/-- On the sample installation the list is "en", "de", "fr", "pt_BR", and the sample
application object is the one the constructor builds from the sample directories. -/
theorem C24_getLanguagesList_witness :
    (Sample.application.m_translationsMap.map Prod.fst).Pairwise (· < ·) ∧
    Sample.application.getLanguagesList = ["en", "de", "fr", "pt_BR"] ∧
    Sample.application.getLanguagesList.Nodup ∧
    Application.construct Sample.absoluteFilePath Sample.translationDirs = Sample.application :=
  ⟨Sample.application_keys_pairwise,
    (C24_getLanguagesList Sample.application Sample.application_keys_pairwise).1,
    (C24_getLanguagesList Sample.application Sample.application_keys_pairwise).2.2.2.1
      (by decide),
    Sample.construct_eq_application⟩

/-! ### The selected page order -/

namespace deskew

theorem Filter.selectPageOrder_of_valid {σ W O : Type} (f : Filter σ W O) (option : Int)
    (hint : -2147483648 ≤ option ∧ option < 2147483648) (h0 : 0 ≤ option)
    (hlt : option < f.m_pageOrderOptions.length) :
    f.selectPageOrder option =
      some ⟨f.m_ptrSettings, f.m_ptrOptionsWidget, f.m_pageOrderOptions, option⟩ := by
  unfold Filter.selectPageOrder
  have h1 : option % 4294967296 = option := Int.emod_eq_of_lt h0 (by omega)
  have h2 : (option % 4294967296).toNat < f.m_pageOrderOptions.length := by
    rw [h1]
    omega
  rw [if_pos h2]

theorem Filter.selectPageOrder_of_negative {σ W O : Type} (f : Filter σ W O) (option : Int)
    (hint : -2147483648 ≤ option ∧ option < 2147483648) (hneg : option < 0)
    (hsize : f.m_pageOrderOptions.length ≤ 2147483648) :
    f.selectPageOrder option = none := by
  unfold Filter.selectPageOrder
  have h2 : ¬ (option % 4294967296).toNat < f.m_pageOrderOptions.length := by
    omega
  rw [if_neg h2]

theorem Filter.selectPageOrder_some {σ W O : Type} (f f' : Filter σ W O) (option : Int)
    (hint : -2147483648 ≤ option ∧ option < 2147483648)
    (hsize : f.m_pageOrderOptions.length ≤ 2147483648)
    (h : f.selectPageOrder option = some f') :
    f'.m_pageOrderOptions = f.m_pageOrderOptions ∧ f'.m_selectedPageOrder = option ∧
      0 ≤ option ∧ option < f.m_pageOrderOptions.length := by
  unfold Filter.selectPageOrder at h
  split_ifs at h with h2
  have h3 := Option.some.inj h
  subst h3
  refine ⟨rfl, rfl, ?_, ?_⟩ <;> omega

theorem Filter.selectPageOrder_run_valid {σ W O : Type} (opts : List Int)
    (hopts : ∀ o ∈ opts, -2147483648 ≤ o ∧ o < 2147483648) (f f' : Filter σ W O)
    (hsize : f.m_pageOrderOptions.length ≤ 2147483648)
    (hvalid : 0 ≤ f.m_selectedPageOrder ∧ f.m_selectedPageOrder < f.m_pageOrderOptions.length)
    (h : opts.foldlM (fun g o => Filter.selectPageOrder g o) f = some f') :
    f'.m_pageOrderOptions = f.m_pageOrderOptions ∧
      0 ≤ f'.m_selectedPageOrder ∧ f'.m_selectedPageOrder < f'.m_pageOrderOptions.length := by
  induction opts generalizing f with
  | nil =>
    have h3 : f = f' := Option.some.inj h
    subst h3
    exact ⟨rfl, hvalid⟩
  | cons o rest ih =>
    rw [List.foldlM_cons] at h
    cases hsel : f.selectPageOrder o with
    | none =>
      rw [hsel] at h
      exact absurd h (by simp)
    | some g =>
      rw [hsel] at h
      have hg := Filter.selectPageOrder_some f g o (hopts o (List.mem_cons_self _ _)) hsize hsel
      have hrest := ih (fun o ho => hopts o (List.mem_cons_of_mem _ ho)) g
        (by rw [hg.1]; exact hsize) (by rw [hg.1, hg.2.1]; exact hg.2.2) h
      exact ⟨hrest.1.trans hg.1, hrest.2⟩

end deskew

/-- Claim C25.  For every `int` option with 0 ≤ option < pageOrderOptions().size(), the
function `deskew::Filter::selectPageOrder(option)` passes its assertion, makes
`selectedPageOrder()` return the option and leaves `pageOrderOptions()`, the settings and
the widget unchanged; a negative option fails the assertion (the vector holding at most 2^31
options, as the two of the constructor do).  Hence on a filter built by the constructor, on
which 0 is selected among two options, after any sequence of accepted calls
`selectedPageOrder()` is a valid index into `pageOrderOptions()`, which are still the
two of the constructor. -/
theorem C25_selectPageOrder_valid_index {σ W O : Type} (f : deskew.Filter σ W O)
    (option : Int) (hint : -2147483648 ≤ option ∧ option < 2147483648) :
    (0 ≤ option → option < f.pageOrderOptions.length →
      ∃ f', f.selectPageOrder option = some f' ∧ f'.selectedPageOrder = option ∧
        f'.pageOrderOptions = f.pageOrderOptions ∧ f'.m_ptrSettings = f.m_ptrSettings ∧
        f'.m_ptrOptionsWidget = f.m_ptrOptionsWidget) ∧
    (option < 0 → f.pageOrderOptions.length ≤ 2147483648 → f.selectPageOrder option = none) ∧
    (∀ (σ' W' δ A : Type) (isGui : Bool) (tr : String → String) (newSettings : σ')
      (newOptionsWidget : σ' → A → W') (deviationProvider : σ' → δ)
      (page_selection_accessor : A) (opts : List Int),
      (deskew.Filter.construct isGui tr newSettings newOptionsWidget deviationProvider
          page_selection_accessor).selectedPageOrder = 0 ∧
        (deskew.Filter.construct isGui tr newSettings newOptionsWidget deviationProvider
          page_selection_accessor).pageOrderOptions.length = 2 ∧
        ((∀ o ∈ opts, -2147483648 ≤ o ∧ o < 2147483648) → ∀ g,
          opts.foldlM (fun g o => deskew.Filter.selectPageOrder g o)
              (deskew.Filter.construct isGui tr newSettings newOptionsWidget deviationProvider
                page_selection_accessor) = some g →
            g.pageOrderOptions =
                (deskew.Filter.construct isGui tr newSettings newOptionsWidget
                  deviationProvider page_selection_accessor).pageOrderOptions ∧
              0 ≤ g.selectedPageOrder ∧ g.selectedPageOrder < g.pageOrderOptions.length)) := by
  refine ⟨fun h0 hlt => ⟨_, deskew.Filter.selectPageOrder_of_valid f option hint h0 hlt, rfl,
      rfl, rfl, rfl⟩,
    fun hneg hsize => deskew.Filter.selectPageOrder_of_negative f option hint hneg hsize, ?_⟩
  intro σ' W' δ A isGui tr newSettings newOptionsWidget deviationProvider
    page_selection_accessor opts
  refine ⟨rfl, rfl, fun hopts g hg => ?_⟩
  exact deskew.Filter.selectPageOrder_run_valid opts hopts _ g
    (by simp [deskew.Filter.construct]) (by simp [deskew.Filter.construct]) hg

/-- On the sample filter with two options: selecting option 1 succeeds and is then the
selected page order, and selecting option -1 fails the assertion. -/
theorem C25_selectPageOrder_valid_index_witness :
    ((-2147483648 : Int) ≤ 1 ∧ (1 : Int) < 2147483648) ∧
    (∃ f', Sample.deskewFilterTwoOptions.selectPageOrder 1 = some f' ∧
      f'.selectedPageOrder = 1 ∧
      f'.pageOrderOptions = Sample.deskewFilterTwoOptions.pageOrderOptions ∧
      f'.m_ptrSettings = Sample.deskewFilterTwoOptions.m_ptrSettings ∧
      f'.m_ptrOptionsWidget = Sample.deskewFilterTwoOptions.m_ptrOptionsWidget) ∧
    Sample.deskewFilterTwoOptions.selectPageOrder (-1) = none :=
  ⟨by decide,
    (C25_selectPageOrder_valid_index Sample.deskewFilterTwoOptions 1 (by decide)).1
      (by decide) (by decide),
    (C25_selectPageOrder_valid_index Sample.deskewFilterTwoOptions (-1) (by decide)).2.1
      (by decide) (by decide)⟩

end ScanTailor
